import Mathlib

/-!
# CognotFlowEditor: graph store, viewport transform and connection gestures

A shallow embedding of the interaction core of the editor:

* `CognotFlowContext.jsx`: the store state and its `reducer`;
* `CognotFlowCanvas.jsx`: the wheel handler and the transform layer;
* `CognotHandle.jsx` / `CognotNode.jsx`: the two pointer-up handlers that can
  finish a connection gesture;
* `CognotEdge.jsx`: anchor resolution, the Bezier path, the path cache of a
  settled edge and the line-intersection utility;
* `CognotNode.jsx`: the renderer of handles;
* `dataMapper.js`: translation between the in-memory and the backend form of
  edges, nodes and workflows, the merge of two snapshots, and validation.

Object spreads are modelled by explicit field-wise merges, `Set` by an
insertion-ordered list without repetitions, `Date.now()` by a clock value
carried by the action that reads it, and a key that may be missing from an
object by an `Option`.

Numbers come in two forms. The store, the viewport transform and the edge
router are stated over exact arithmetic: finite numbers are rationals, and the
coordinates of a node may in addition be `NaN` or an infinity (`JSNumber`),
which the edge router and `JSON.stringify` treat apart from finite numbers.
Where the rounding of doubles decides a property, the function is given a
second time over IEEE 754 binary64 arithmetic (`Double`, `F64`), with every
operation rounded to nearest, ties to even. A function that may raise a
`TypeError` returns an `Except`.
-/

namespace CognotFlow

/-! ## Data model -/

/-- A point `{x, y}`. -/
structure Position where
  x : ℚ
  y : ℚ
deriving DecidableEq

/-- A number held by a node coordinate: `NaN`, an infinity (`neg` for
`-Infinity`), or a finite number. The arithmetic on finite numbers is exact and
the two zeros are not told apart. -/
inductive JSNumber where
  | nan
  | inf (neg : Bool)
  | num (q : ℚ)
deriving DecidableEq

/-- Numerals are read as ordinary numbers. -/
instance (n : Nat) : OfNat JSNumber n := ⟨JSNumber.num n⟩

/-- Addition: `NaN` as soon as one side is `NaN` or the sides are opposite
infinities; an infinity absorbs a finite number. -/
def JSNumber.add : JSNumber → JSNumber → JSNumber
  | .num a, .num b => .num (a + b)
  | .inf s, .num _ => .inf s
  | .num _, .inf t => .inf t
  | .inf s, .inf t => if s = t then .inf s else .nan
  | _, _ => .nan

instance : Add JSNumber := ⟨JSNumber.add⟩

/-- Unary minus. -/
def JSNumber.neg : JSNumber → JSNumber
  | .nan => .nan
  | .inf s => .inf (!s)
  | .num q => .num (-q)

/-- Subtraction: `Infinity - Infinity` is `NaN`. -/
def JSNumber.sub (a b : JSNumber) : JSNumber :=
  a.add b.neg

instance : Sub JSNumber := ⟨JSNumber.sub⟩

/-- The function `Math.abs`. -/
def JSNumber.abs : JSNumber → JSNumber
  | .nan => .nan
  | .inf _ => .inf false
  | .num q => .num |q|

/-- Division: a finite number over zero is an infinity with the sign of the
dividend (the divisor is taken as `+0`), `0 / 0` and a quotient of infinities
are `NaN`, and a finite number over an infinity is zero. -/
def JSNumber.div : JSNumber → JSNumber → JSNumber
  | .num a, .num b =>
      if b = 0 then (if a = 0 then .nan else .inf (decide (a < 0))) else .num (a / b)
  | .num _, .inf _ => .num 0
  | .inf s, .num b => .inf (xor s (decide (b < 0)))
  | _, _ => .nan

instance : Div JSNumber := ⟨JSNumber.div⟩

/-- The global function `isNaN` on a number. -/
def JSNumber.isNaN : JSNumber → Bool
  | .nan => true
  | _ => false

/-- What `JSON.stringify` writes for a number: the number itself when it is
finite, and `null` (here `none`) for `NaN` and for both infinities. -/
def JSNumber.json : JSNumber → Option ℚ
  | .num q => some q
  | _ => none

/-- The `position` object `{x, y}` of a node, in world coordinates: both keys
are present and hold numbers. -/
structure Point where
  x : JSNumber
  y : JSNumber
deriving DecidableEq

/-- One declared port `{name, type}` of a node. -/
structure Port where
  name : String
  type : String
deriving DecidableEq

/-- The `data` bag of a node; `inputs` and `outputs` may be missing. -/
structure NodeData where
  label : String
  inputs : Option (List Port)
  outputs : Option (List Port)
  params : List (String × String)
deriving DecidableEq

/-- A node of the graph; `position` may be missing on a freshly built object. -/
structure Node where
  id : String
  type : String
  position : Option Point
  data : NodeData
deriving DecidableEq

/-- Payload of `UPDATE_NODE`: an id and the keys that are present. -/
structure NodePatch where
  id : String
  type : Option String
  position : Option Point
  data : Option NodeData
deriving DecidableEq

/-- An edge of the graph. -/
structure Edge where
  id : String
  source : String
  sourceHandle : String
  target : String
  targetHandle : String
deriving DecidableEq

/-- Payload of `UPDATE_EDGE`: an id and the keys that are present. -/
structure EdgePatch where
  id : String
  source : Option String
  sourceHandle : Option String
  target : Option String
  targetHandle : Option String
deriving DecidableEq

/-- The viewport `{x, y, zoom}`. -/
structure Viewport where
  x : ℚ
  y : ℚ
  zoom : ℚ
deriving DecidableEq

/-- Payload of `UPDATE_VIEWPORT`: the keys that are present. -/
structure ViewportPatch where
  x : Option ℚ
  y : Option ℚ
  zoom : Option ℚ
deriving DecidableEq

/-- The transient value kept while a connection gesture is in progress. -/
structure ConnectingEdge where
  source : String
  sourceHandle : String
  sourcePosition : Position
  targetPosition : Position
deriving DecidableEq

/-- The `results` object of a poll response: `node_count` and the other keys. -/
structure ExecutionResults where
  node_count : Option Nat
  keys : List String
deriving DecidableEq

/-- Payload of `UPDATE_EXECUTION_STATUS`. -/
structure ExecutionStatus where
  progress : Nat
  status : String
  executionId : Option String
  results : Option ExecutionResults
deriving DecidableEq

/-- The store state (`initialState` lists the same twelve fields). -/
structure State where
  nodes : List Node
  edges : List Edge
  viewport : Viewport
  selectedNodes : List String
  connectingEdge : Option ConnectingEdge
  isConnecting : Bool
  hoveredHandle : Option (String × String)
  isExecuting : Bool
  executionProgress : Nat
  executionStatus : String
  executionId : Option String
  executionResults : Option ExecutionResults
deriving DecidableEq

/-- The value of `initialState`. -/
def initialState : State where
  nodes := []
  edges := []
  viewport := { x := 0, y := 0, zoom := 1 }
  selectedNodes := []
  connectingEdge := none
  isConnecting := false
  hoveredHandle := none
  isExecuting := false
  executionProgress := 0
  executionStatus := ""
  executionId := none
  executionResults := none

/-- The actions of `ACTION_TYPES`, with their payloads; `unknown` is any other type. -/
inductive Action where
  | addNode (node : Node)
  | updateNode (patch : NodePatch)
  | deleteNode (id : String)
  | addEdge (edge : Edge)
  | updateEdge (patch : EdgePatch)
  | deleteEdge (id : String)
  | updateViewport (patch : ViewportPatch)
  | selectNode (id : String)
  | deselectNode (id : String)
  | deselectAll
  | startConnecting (sourceNodeId sourceHandleId : String) (position : Position)
  | updateConnectingPosition (position : Position)
  | endConnecting (targetNodeId targetHandleId : String) (now : Nat)
  | clearConnecting
  | setHoveredHandle (handle : Option (String × String))
  | clearHoveredHandle
  | startExecution
  | updateExecutionStatus (payload : ExecutionStatus)
  | endExecution (results : Option ExecutionResults)
  | clearExecution
  | unknown
deriving DecidableEq

/-! ## Helpers for spreads and sets -/

/-- Adding one value to a `Set`: nothing happens when it is already there. -/
def setAdd (s : List String) (a : String) : List String :=
  if a ∈ s then s else s ++ [a]

/-- The list of members of `new Set(xs)`, in insertion order. -/
def newSet (xs : List String) : List String :=
  xs.foldl setAdd []

/-- The spread `{ ...node, ...payload }` of `UPDATE_NODE`. -/
def mergeNode (node : Node) (p : NodePatch) : Node where
  id := p.id
  type := p.type.getD node.type
  position := match p.position with
    | some q => some q
    | none => node.position
  data := p.data.getD node.data

/-- The spread `{ ...edge, ...payload }` of `UPDATE_EDGE`. -/
def mergeEdge (edge : Edge) (p : EdgePatch) : Edge where
  id := p.id
  source := p.source.getD edge.source
  sourceHandle := p.sourceHandle.getD edge.sourceHandle
  target := p.target.getD edge.target
  targetHandle := p.targetHandle.getD edge.targetHandle

/-- The spread `{ ...state.viewport, ...payload }` of `UPDATE_VIEWPORT`. -/
def mergeViewport (v : Viewport) (p : ViewportPatch) : Viewport where
  x := p.x.getD v.x
  y := p.y.getD v.y
  zoom := p.zoom.getD v.zoom

/-- The id given to the edge made by `END_CONNECTING`: the text edge_ and the clock. -/
def newEdgeId (now : Nat) : String :=
  "edge_" ++ toString now

/-! ## The reducer -/

/-- The function `reducer` of `CognotFlowContext.jsx`, case by case. -/
def reducer (state : State) : Action → State
  | .addNode node =>
      { state with nodes := state.nodes ++ [node] }
  | .updateNode p =>
      { state with
        nodes := state.nodes.map
          (fun node => if node.id = p.id then mergeNode node p else node) }
  | .deleteNode id =>
      { state with
        nodes := state.nodes.filter (fun node => decide (node.id ≠ id))
        edges := state.edges.filter
          (fun edge => decide (edge.source ≠ id) && decide (edge.target ≠ id))
        selectedNodes := newSet (state.selectedNodes.filter (fun j => decide (j ≠ id))) }
  | .addEdge edge =>
      { state with edges := state.edges ++ [edge] }
  | .updateEdge p =>
      { state with
        edges := state.edges.map
          (fun edge => if edge.id = p.id then mergeEdge edge p else edge) }
  | .deleteEdge id =>
      { state with edges := state.edges.filter (fun edge => decide (edge.id ≠ id)) }
  | .updateViewport p =>
      { state with viewport := mergeViewport state.viewport p }
  | .selectNode id =>
      { state with selectedNodes := newSet (state.selectedNodes ++ [id]) }
  | .deselectNode id =>
      { state with
        selectedNodes := (newSet state.selectedNodes).filter (fun j => decide (j ≠ id)) }
  | .deselectAll =>
      { state with selectedNodes := newSet [] }
  | .startConnecting sourceNodeId sourceHandleId position =>
      { state with
        isConnecting := true
        connectingEdge := some
          { source := sourceNodeId
            sourceHandle := sourceHandleId
            sourcePosition := position
            targetPosition := position } }
  | .updateConnectingPosition position =>
      { state with
        connectingEdge := match state.connectingEdge with
          | some c => some { c with targetPosition := position }
          | none => none }
  | .endConnecting targetNodeId targetHandleId now =>
      match state.connectingEdge with
      | none => state
      | some c =>
          { state with
            edges := state.edges ++
              [{ id := newEdgeId now
                 source := c.source
                 sourceHandle := c.sourceHandle
                 target := targetNodeId
                 targetHandle := targetHandleId }]
            isConnecting := false
            connectingEdge := none }
  | .clearConnecting =>
      { state with isConnecting := false, connectingEdge := none }
  | .setHoveredHandle handle =>
      { state with hoveredHandle := handle }
  | .clearHoveredHandle =>
      { state with hoveredHandle := none }
  | .startExecution =>
      { state with
        isExecuting := true
        executionProgress := 0
        executionStatus := "submitting"
        executionId := none
        executionResults := none }
  | .updateExecutionStatus payload =>
      { state with
        executionProgress := payload.progress
        executionStatus := payload.status
        executionId := payload.executionId
        executionResults := payload.results }
  | .endExecution results =>
      { state with isExecuting := false, executionResults := results }
  | .clearExecution =>
      { state with
        isExecuting := false
        executionProgress := 0
        executionStatus := ""
        executionId := none
        executionResults := none }
  | .unknown => state

/-- Dispatching a list of actions, one after the other. -/
def dispatchAll (state : State) (actions : List Action) : State :=
  actions.foldl reducer state

/-- The ids of the nodes of a state, in list order. -/
def nodeIds (state : State) : List String :=
  state.nodes.map (fun node => node.id)

/-- Every edge of the state starts and ends at the id of a node of the state. -/
def NoDanglingEdges (state : State) : Prop :=
  ∀ e ∈ state.edges, e.source ∈ nodeIds state ∧ e.target ∈ nodeIds state

/-- The test `edges.some(edge => edge.target === nodeId && edge.targetHandle === handleId)`
made by `CognotHandle.jsx` (for `isConnected` and before `endConnecting`). -/
def portOccupied (edges : List Edge) (nodeId handleId : String) : Bool :=
  edges.any (fun edge => decide (edge.target = nodeId) && decide (edge.targetHandle = handleId))

/-- Two edges end at the same input port: same `target` and same `targetHandle`. -/
def SameInputPort (e f : Edge) : Prop :=
  e.target = f.target ∧ e.targetHandle = f.targetHandle

/-- No two edges at different places of the edge list end at the same input port. -/
def SingleIncoming (state : State) : Prop :=
  state.edges.Pairwise (fun e f => ¬ SameInputPort e f)

/-- A run in which every action satisfies a caller-side condition `g`, checked on
the state the action is dispatched to. -/
def Guarded (g : State → Action → Prop) : State → List Action → Prop
  | _, [] => True
  | state, a :: rest => g state a ∧ Guarded g (reducer state a) rest

/-- Caller-side condition for "no dangling edge": an edge action names only nodes
that are present when it is dispatched. -/
def endpointsPresent (state : State) : Action → Prop
  | .addEdge edge => edge.source ∈ nodeIds state ∧ edge.target ∈ nodeIds state
  | .updateEdge p =>
      (∀ v, p.source = some v → v ∈ nodeIds state) ∧
      (∀ v, p.target = some v → v ∈ nodeIds state)
  | .endConnecting targetNodeId _ _ =>
      targetNodeId ∈ nodeIds state ∧
      (∀ c, state.connectingEdge = some c → c.source ∈ nodeIds state)
  | _ => True

/-- Caller-side condition for "one incoming edge per input port": a new edge ends
at a port that is still free, and an edge update does not move the target. -/
def targetFree (state : State) : Action → Prop
  | .addEdge edge => portOccupied state.edges edge.target edge.targetHandle = false
  | .updateEdge p => p.target = none ∧ p.targetHandle = none
  | .endConnecting targetNodeId targetHandleId _ =>
      portOccupied state.edges targetNodeId targetHandleId = false
  | _ => True

/-! ## Pointer-up handlers that can finish a connection gesture -/

/-- The element returned by `document.elementFromPoint`: its class list and the
`data-node-id`, `data-handle-id`, `data-handle-type` attributes read through `dataset`. -/
structure Element where
  classList : List String
  nodeId : String
  handleId : String
  handleType : String
deriving DecidableEq

/-- The actions dispatched by `handleMouseUp` of `CognotHandle.jsx`, in order, for
a gesture started on the handle of node `nodeId`; `edges` is the edge list the
component read from the store. -/
def CognotHandle.handleMouseUp (nodeId : String) (edges : List Edge)
    (targetHandleElement : Option Element) (now : Nat) : List Action :=
  (match targetHandleElement with
    | none => []
    | some el =>
        if "cognot-handle" ∈ el.classList then
          if el.handleType = "input" ∧ el.nodeId ≠ nodeId ∧
              portOccupied edges el.nodeId el.handleId = false then
            [Action.endConnecting el.nodeId el.handleId now]
          else []
        else []) ++ [Action.clearConnecting]

/-- The actions dispatched by `handleHandleMouseUp` of `CognotNode.jsx`, bound to
`onMouseUp` of the handle `handleId` of node `id`. -/
def CognotNode.handleHandleMouseUp (id handleId handleType : String) (now : Nat) :
    List Action :=
  if handleType = "output" then [] else [Action.endConnecting id handleId now]

/-! ## Viewport transform and the wheel handler (`CognotFlowCanvas.jsx`) -/

/-- The fields of a wheel event read by `handleWheel`. -/
structure WheelEvent where
  deltaY : ℚ
  clientX : ℚ
  clientY : ℚ
deriving DecidableEq

/-- The fields of `canvas.getBoundingClientRect()` read by `handleWheel`. -/
structure Rect where
  left : ℚ
  top : ℚ
deriving DecidableEq

/-- The constant `zoomSpeed = 0.001`. -/
def zoomSpeed : ℚ := 1 / 1000

/-- The value `normalizedDelta = Math.min(Math.abs(e.deltaY), 100)`. -/
def normalizedDelta (e : WheelEvent) : ℚ :=
  min |e.deltaY| 100

/-- The value `zoomFactor` of `handleWheel`. -/
def zoomFactor (e : WheelEvent) : ℚ :=
  1 + (if e.deltaY > 0 then -zoomSpeed * normalizedDelta e else zoomSpeed * normalizedDelta e)

/-- The value `newZoom = Math.max(0.1, Math.min(10, viewport.zoom * zoomFactor))`. -/
def newZoom (viewport : Viewport) (e : WheelEvent) : ℚ :=
  max (1 / 10) (min 10 (viewport.zoom * zoomFactor e))

/-- The actions dispatched by `handleWheel`, over exact arithmetic: nothing when
the zoom does not change or the canvas element is missing, else one
`updateViewport({x, y, zoom})`. -/
def handleWheel (canvas : Option Rect) (viewport : Viewport) (e : WheelEvent) :
    List Action :=
  if newZoom viewport e = viewport.zoom then []
  else
    match canvas with
    | none => []
    | some rect =>
        let mouseX := e.clientX - rect.left
        let mouseY := e.clientY - rect.top
        let worldX := (mouseX - viewport.x) / viewport.zoom
        let worldY := (mouseY - viewport.y) / viewport.zoom
        let newX := mouseX - worldX * newZoom viewport e
        let newY := mouseY - worldY * newZoom viewport e
        [Action.updateViewport
          { x := some newX, y := some newY, zoom := some (newZoom viewport e) }]

/-- The store after one wheel event handled with the current viewport. -/
def wheel (state : State) (input : Option Rect × WheelEvent) : State :=
  dispatchAll state (handleWheel input.1 state.viewport input.2)

/-- The store after a sequence of wheel events, each handled in turn. -/
def wheelAll (state : State) (inputs : List (Option Rect × WheelEvent)) : State :=
  inputs.foldl wheel state

/-- Screen to world, as computed by the canvas:
`((sx - viewport.x) / viewport.zoom, (sy - viewport.y) / viewport.zoom)`. -/
def screenToWorld (viewport : Viewport) (p : Position) : Position where
  x := (p.x - viewport.x) / viewport.zoom
  y := (p.y - viewport.y) / viewport.zoom

/-- The CSS function `scale(k)` about the origin `0 0`. -/
def scale (k : ℚ) (p : Position) : Position where
  x := p.x * k
  y := p.y * k

/-- The CSS function `translate(dx, dy)`. -/
def translate (dx dy : ℚ) (p : Position) : Position where
  x := p.x + dx
  y := p.y + dy

/-- World to screen, as applied by the transform layer:
`translate(viewport.x, viewport.y) scale(viewport.zoom)` with `transformOrigin: 0 0`. -/
def worldToScreen (viewport : Viewport) (p : Position) : Position :=
  translate viewport.x viewport.y (scale viewport.zoom p)

/-! ## Scenario values -/

/-- Node A of the scenarios: at `(0,0)`, one output `out`. -/
def scenarioNodeA : Node where
  id := "A"
  type := "default"
  position := some { x := 0, y := 0 }
  data := { label := "A", inputs := some [],
            outputs := some [{ name := "out", type := "default" }], params := [] }

/-- Node B of the scenarios: at `(300,0)`, one input `in`. -/
def scenarioNodeB : Node where
  id := "B"
  type := "default"
  position := some { x := 300, y := 0 }
  data := { label := "B", inputs := some [{ name := "in", type := "default" }],
            outputs := some [], params := [] }

/-- A third node, at `(0,200)`, with one input `in` and one output `out`. -/
def scenarioNodeC : Node where
  id := "C"
  type := "default"
  position := some { x := 0, y := 200 }
  data := { label := "C", inputs := some [{ name := "in", type := "default" }],
            outputs := some [{ name := "out", type := "default" }], params := [] }

/-- The edge of the scenarios, from `(A, out)` to `(B, in)`. -/
def scenarioEdge : Edge where
  id := "e1"
  source := "A"
  sourceHandle := "out"
  target := "B"
  targetHandle := "in"

/-- The state with nodes A, B, C, the edge from A to B, and A selected. -/
def scenarioState : State :=
  { initialState with
    nodes := [scenarioNodeA, scenarioNodeB, scenarioNodeC]
    edges := [scenarioEdge]
    selectedNodes := ["A"] }

/-- The input handle `in` of node B as a DOM element drawn by `CognotHandle.jsx`. -/
def scenarioInputOfB : Element where
  classList := ["cognot-handle", "cognot-handle-input"]
  nodeId := "B"
  handleId := "in"
  handleType := "input"

/-- A run that builds the scenario graph and then deletes node A. -/
def scenarioRun : List Action :=
  [.addNode scenarioNodeA, .addNode scenarioNodeB, .addEdge scenarioEdge,
   .startConnecting "A" "out" { x := 200, y := 30 }, .clearConnecting, .deleteNode "A"]

/-- A run that adds one edge by `addEdge`, one by a gesture ending at a free port,
renames the source of the first and deletes a node. -/
def scenarioEdgeRun : List Action :=
  [.addEdge scenarioEdge, .startConnecting "A" "out" { x := 200, y := 30 },
   .endConnecting "C" "in" 5,
   .updateEdge { id := "e1", source := some "C", sourceHandle := none, target := none,
                 targetHandle := none },
   .deleteNode "A"]

/-- The scenario state while a gesture started at `(A, out)` is in progress. -/
def scenarioConnecting : State :=
  dispatchAll initialState
    [.addNode scenarioNodeA, .addNode scenarioNodeB,
     .startConnecting "A" "out" { x := 200, y := 30 }]

/-- A wheel event that zooms in by the largest step at screen point `(100, 100)`. -/
def scenarioZoomIn : WheelEvent where
  deltaY := -100
  clientX := 100
  clientY := 100

/-- The wheel event at `(100, 100)` whose factor `10/11` undoes `scenarioZoomIn`. -/
def scenarioZoomOut : WheelEvent where
  deltaY := 1000 / 11
  clientX := 100
  clientY := 100

/-- A canvas whose bounding rectangle starts at the origin of the page. -/
def scenarioRect : Rect where
  left := 0
  top := 0

/-! ## The collaborator-level `addNode` -/

/-- What `addNode` reads from its environment: `Date.now()`, the value of
`Math.floor(Math.random() * 1000000)`, and the size of the window. -/
structure AddNodeEnv where
  now : Nat
  random : Nat
  innerWidth : ℚ
  innerHeight : ℚ
deriving DecidableEq

/-- The regenerated id: the text node_, the clock, an underscore and the random number. -/
def newNodeId (now random : Nat) : String :=
  "node_" ++ toString now ++ "_" ++ toString random

/-- A quotient of two finite numbers as a node coordinate: an infinity or `NaN`
when the divisor is zero. -/
def JSNumber.ofDiv (a b : ℚ) : JSNumber :=
  JSNumber.num a / JSNumber.num b

/-- The actions dispatched by `addNode` of `CognotFlowProvider`: the id is
regenerated when it is already in use, a missing position is set to the centre
of the canvas, and the node is appended by `ADD_NODE`. -/
def addNode (state : State) (node : Node) (env : AddNodeEnv) : List Action :=
  let uniqueNode : Node :=
    if state.nodes.any (fun existingNode => decide (existingNode.id = node.id)) then
      { node with id := newNodeId env.now env.random }
    else node
  let uniqueNode : Node :=
    match uniqueNode.position with
    | some _ => uniqueNode
    | none =>
        let canvasWidth := env.innerWidth * (6 / 10)
        let canvasHeight := env.innerHeight
        let centerX := JSNumber.ofDiv (canvasWidth / 2 - state.viewport.x) state.viewport.zoom
        let centerY := JSNumber.ofDiv (canvasHeight / 2 - state.viewport.y) state.viewport.zoom
        { uniqueNode with position := some { x := centerX, y := centerY } }
  [Action.addNode uniqueNode]

/-- Every id in the selection is the id of a node of the state. -/
def SelectionValid (state : State) : Prop :=
  ∀ j ∈ state.selectedNodes, j ∈ nodeIds state

/-- Caller-side condition for a valid selection: only a present node is selected. -/
def selectsPresent (state : State) : Action → Prop
  | .selectNode id => id ∈ nodeIds state
  | _ => True

/-- A patch that moves node B and touches nothing else. -/
def scenarioMoveB : NodePatch where
  id := "B"
  type := none
  position := some { x := 320, y := 40 }
  data := none

/-- A patch for an id that no node of the scenario has. -/
def scenarioLatePatch : NodePatch where
  id := "gone"
  type := some "late"
  position := none
  data := none

/-- A state whose two nodes have the distinct ids `A` and `node_5_7`. -/
def scenarioDropped : State :=
  { initialState with
    nodes := [scenarioNodeA, { scenarioNodeB with id := newNodeId 5 7 }] }

/-- A clock at 5 and a random number 7, in a window of 1000 by 800. -/
def scenarioEnv : AddNodeEnv where
  now := 5
  random := 7
  innerWidth := 1000
  innerHeight := 800

/-- A run that adds A and B, selects both, deselects B and deletes A. -/
def scenarioSelectRun : List Action :=
  [.addNode scenarioNodeA, .addNode scenarioNodeB, .selectNode "A", .selectNode "B",
   .deselectNode "B", .selectNode "B", .deleteNode "A"]

/-! ## Edge router (`CognotEdge.jsx`) -/

/-- The path string of an edge: the empty string, or the move and the cubic curve
`M start C control1, control2, finish`, each point written with its two numbers. -/
inductive PathData where
  | empty
  | cubic (start control1 control2 finish : Point)
deriving DecidableEq

/-- The function `getBezierPath`, exact on finite numbers: empty when a
coordinate is `NaN`, else the cubic with
`offset = Math.abs(targetX - sourceX) / 2` and `midX = (sourceX + targetX) / 2`. -/
def getBezierPath (sourceX sourceY targetX targetY : JSNumber) : PathData :=
  if sourceX.isNaN || sourceY.isNaN || targetX.isNaN || targetY.isNaN then .empty
  else
    let offset := (targetX - sourceX).abs / 2
    let midX := (sourceX + targetX) / 2
    .cubic { x := sourceX, y := sourceY } { x := sourceX + offset, y := sourceY }
      { x := midX, y := targetY } { x := targetX, y := targetY }

/-- The constant `nodeWidth = 200` of the anchor resolvers. -/
def nodeWidth : ℚ := 200

/-- The constant `handleSpacing = 20` of the anchor resolvers. -/
def handleSpacing : ℚ := 20

/-- The call `ports.findIndex(port => port.name === handleId)`: the first index
with that name, or `-1`. -/
def findIndex (ports : List Port) (handleId : String) : Int :=
  if ports.any (fun port => decide (port.name = handleId)) then
    (ports.findIdx (fun port => decide (port.name = handleId)) : Int)
  else -1

/-- The expression `ports?.findIndex(...) || 0`: `0` when the list is missing;
an index, `-1` included, is kept as it is. -/
def findIndexOrZero (ports : Option (List Port)) (handleId : String) : Int :=
  match ports with
  | none => 0
  | some list => findIndex list handleId

/-- The test `node.data.inputs?.some(input => input.name === handleId)`. -/
def isDeclaredInput (node : Node) (handleId : String) : Bool :=
  match node.data.inputs with
  | none => false
  | some inputs => inputs.any (fun input => decide (input.name = handleId))

/-- The anchor resolver `getHandlePosition` of `CognotEdgeComponent` (settled edges). -/
def CognotEdgeComponent.getHandlePosition (nodes : List Node) (nodeId handleId : String) :
    Option Point :=
  match nodes.find? (fun n => decide (n.id = nodeId)) with
  | none => none
  | some node =>
      match node.position with
      | none => none
      | some position =>
          if isDeclaredInput node handleId then
            let inputIndex := findIndexOrZero node.data.inputs handleId
            some { x := position.x
                   y := position.y + .num (((inputIndex + 1 : Int) : ℚ) * handleSpacing) }
          else
            let outputIndex := findIndexOrZero node.data.outputs handleId
            some { x := position.x + .num nodeWidth
                   y := position.y + .num (((outputIndex + 1 : Int) : ℚ) * handleSpacing) }

/-- The name `handleId` is at index `k` of the list and at no earlier index. -/
def IsFirstIndex (ports : List Port) (handleId : String) (k : Nat) : Prop :=
  (ports[k]?).map (fun port => port.name) = some handleId ∧
  ∀ j, j < k → (ports[j]?).map (fun port => port.name) ≠ some handleId

/-- Both ends of the curve have a horizontal tangent: all coordinates are finite,
and the vector from the start to the first control point and the vector from
the second control point to the end have a zero `y` component and a non-zero
`x` component. -/
def HorizontalTangents : PathData → Prop
  | .cubic ⟨.num startX, .num startY⟩ ⟨.num control1X, .num control1Y⟩
      ⟨.num control2X, .num control2Y⟩ ⟨.num finishX, .num finishY⟩ =>
      (control1X - startX ≠ 0 ∧ control1Y - startY = 0) ∧
      (finishX - control2X ≠ 0 ∧ finishY - control2Y = 0)
  | _ => False

/-- The refs of one `CognotEdgeComponent`: the cached path and the props and node
list it was computed from. -/
structure PathCache where
  path : PathData
  currentSource : String
  currentTarget : String
  currentSourceHandle : String
  currentTargetHandle : String
  currentNodes : List Node
deriving DecidableEq

/-- The refs at the first render: `useRef('')` for the path, `useRef(prop)` for the rest. -/
def mount (edge : Edge) (nodes : List Node) : PathCache where
  path := .empty
  currentSource := edge.source
  currentTarget := edge.target
  currentSourceHandle := edge.sourceHandle
  currentTargetHandle := edge.targetHandle
  currentNodes := nodes

/-- The value `JSON.stringify(node.position)`: `undefined` (here `none`) for a
missing position, else the text of `{x, y}`, fixed by what is written for each
of the two numbers. -/
def positionJSON (position : Option Point) : Option (Option ℚ × Option ℚ) :=
  position.map (fun p => (p.x.json, p.y.json))

/-- The condition of the early return of `getPath`: a non-empty cached path, the
same four props, the same number of nodes, both endpoint nodes found in the
current and in the cached list, and equal `JSON.stringify` of their positions. -/
def cacheHit (cache : PathCache) (edge : Edge) (nodes : List Node) : Bool :=
  match nodes.find? (fun n => decide (n.id = edge.source)),
        nodes.find? (fun n => decide (n.id = edge.target)),
        cache.currentNodes.find? (fun n => decide (n.id = edge.source)),
        cache.currentNodes.find? (fun n => decide (n.id = edge.target)) with
  | some sourceNode, some targetNode, some cachedSourceNode, some cachedTargetNode =>
      decide (cache.path ≠ .empty) &&
      decide (cache.currentSource = edge.source) &&
      decide (cache.currentTarget = edge.target) &&
      decide (cache.currentSourceHandle = edge.sourceHandle) &&
      decide (cache.currentTargetHandle = edge.targetHandle) &&
      decide (cache.currentNodes.length = nodes.length) &&
      decide (positionJSON sourceNode.position = positionJSON cachedSourceNode.position) &&
      decide (positionJSON targetNode.position = positionJSON cachedTargetNode.position)
  | _, _, _, _ => false

/-- The part of `getPath` after the early return: resolve both anchors, give the
empty path when one is missing or has a `NaN` coordinate, else compute the curve
and record the props and the node list. The result is the returned path and the
refs afterwards. -/
def recomputePath (cache : PathCache) (edge : Edge) (nodes : List Node) :
    PathData × PathCache :=
  match CognotEdgeComponent.getHandlePosition nodes edge.source edge.sourceHandle,
        CognotEdgeComponent.getHandlePosition nodes edge.target edge.targetHandle with
  | some sourcePosition, some targetPosition =>
      if sourcePosition.x.isNaN || sourcePosition.y.isNaN ||
          targetPosition.x.isNaN || targetPosition.y.isNaN then
        (.empty, { cache with path := .empty })
      else
        let path := getBezierPath sourcePosition.x sourcePosition.y
          targetPosition.x targetPosition.y
        (path,
         { path := path
           currentSource := edge.source
           currentTarget := edge.target
           currentSourceHandle := edge.sourceHandle
           currentTargetHandle := edge.targetHandle
           currentNodes := nodes })
  | _, _ => (.empty, { cache with path := .empty })

/-- The function `getPath` of `CognotEdgeComponent`: the returned path and the refs
afterwards. -/
def getPath (cache : PathCache) (edge : Edge) (nodes : List Node) : PathData × PathCache :=
  if cacheHit cache edge nodes then (cache.path, cache) else recomputePath cache edge nodes

/-- The refs after a sequence of renders, each with its props and node list. -/
def evaluations (cache : PathCache) (inputs : List (Edge × List Node)) : PathCache :=
  inputs.foldl (fun c input => (getPath c input.1 input.2).2) cache

/-- The anchor of `(nodeId, handleId)` cannot be used: no node has the id, or the
node has no position, or the resolved anchor has a `NaN` coordinate. -/
def Unresolvable (nodes : List Node) (nodeId handleId : String) : Prop :=
  nodes.find? (fun n => decide (n.id = nodeId)) = none ∨
  (∃ node, nodes.find? (fun n => decide (n.id = nodeId)) = some node ∧ node.position = none) ∨
  (∃ a, CognotEdgeComponent.getHandlePosition nodes nodeId handleId = some a ∧
    (a.x = .nan ∨ a.y = .nan))

/-- The anchor of `(nodeId, handleId)` exists and has no `NaN` coordinate. -/
def Resolved (nodes : List Node) (nodeId handleId : String) : Prop :=
  ∃ a, CognotEdgeComponent.getHandlePosition nodes nodeId handleId = some a ∧
    a.x.isNaN = false ∧ a.y.isNaN = false

/-- A non-empty cached path was computed from two usable anchors of the recorded
props in the recorded node list. -/
def CacheSound (cache : PathCache) : Prop :=
  cache.path ≠ .empty →
    Resolved cache.currentNodes cache.currentSource cache.currentSourceHandle ∧
    Resolved cache.currentNodes cache.currentTarget cache.currentTargetHandle

/-- The position of the first node with the given id, when there is one. -/
def positionOf (nodes : List Node) (nodeId : String) : Option (Option Point) :=
  (nodes.find? (fun n => decide (n.id = nodeId))).map (fun n => n.position)

/-- Nothing that `getPath` compares differs from what the refs record: the four
props, the length of the node list, and the positions (by value) of the source
and the target node. -/
def Unchanged (cache : PathCache) (edge : Edge) (nodes : List Node) : Prop :=
  cache.currentSource = edge.source ∧ cache.currentTarget = edge.target ∧
  cache.currentSourceHandle = edge.sourceHandle ∧
  cache.currentTargetHandle = edge.targetHandle ∧
  cache.currentNodes.length = nodes.length ∧
  positionOf nodes edge.source = positionOf cache.currentNodes edge.source ∧
  positionOf nodes edge.target = positionOf cache.currentNodes edge.target

/-- The `JSON.stringify` text of the position of the first node with the given
id, when there is one. -/
def positionTextOf (nodes : List Node) (nodeId : String) :
    Option (Option (Option ℚ × Option ℚ)) :=
  (positionOf nodes nodeId).map positionJSON

/-- Nothing that `getPath` compares differs from what the refs record, with the
positions compared as `getPath` compares them: by their `JSON.stringify` text. -/
def SameKey (cache : PathCache) (edge : Edge) (nodes : List Node) : Prop :=
  cache.currentSource = edge.source ∧ cache.currentTarget = edge.target ∧
  cache.currentSourceHandle = edge.sourceHandle ∧
  cache.currentTargetHandle = edge.targetHandle ∧
  cache.currentNodes.length = nodes.length ∧
  positionTextOf nodes edge.source = positionTextOf cache.currentNodes edge.source ∧
  positionTextOf nodes edge.target = positionTextOf cache.currentNodes edge.target

/-- The number is `Infinity` or `-Infinity`. -/
def JSNumber.isInfinite : JSNumber → Bool
  | .inf _ => true
  | _ => false

/-- The position that the node `nodeId` has in the list holds no infinite
coordinate. -/
def NoInfinite (nodes : List Node) (nodeId : String) : Prop :=
  ∀ node position, nodes.find? (fun n => decide (n.id = nodeId)) = some node →
    node.position = some position →
    position.x.isInfinite = false ∧ position.y.isInfinite = false

/-- The refs of the scenario edge after one render with the full scenario graph. -/
def scenarioCache : PathCache :=
  evaluations (mount scenarioEdge scenarioState.nodes) [(scenarioEdge, scenarioState.nodes)]

/-- The refs of the scenario edge mounted and rendered once while node B is missing. -/
def scenarioCacheNoTarget : PathCache :=
  evaluations (mount scenarioEdge [scenarioNodeA]) [(scenarioEdge, [scenarioNodeA])]

/-- Node B with a `NaN` abscissa. -/
def scenarioNodeBNaN : Node :=
  { scenarioNodeB with position := some { x := .nan, y := 0 } }

/-- Node B with the abscissa `Infinity`. -/
def scenarioNodeBInfinite : Node :=
  { scenarioNodeB with position := some { x := .inf false, y := 0 } }

/-- The refs of the scenario edge mounted and rendered once while B has the
abscissa `Infinity`. -/
def scenarioCacheInfinite : PathCache :=
  evaluations (mount scenarioEdge [scenarioNodeA, scenarioNodeBInfinite, scenarioNodeC])
    [(scenarioEdge, [scenarioNodeA, scenarioNodeBInfinite, scenarioNodeC])]

/-- Node B without a position. -/
def scenarioNodeBUnplaced : Node :=
  { scenarioNodeB with position := none }

/-- The function `getLineIntersection`, over exact arithmetic. -/
def getLineIntersection (line1StartX line1StartY line1EndX line1EndY
    line2StartX line2StartY line2EndX line2EndY : ℚ) : Option Position :=
  let denominator := ((line2EndY - line2StartY) * (line1EndX - line1StartX)) -
    ((line2EndX - line2StartX) * (line1EndY - line1StartY))
  if denominator = 0 then none
  else
    let a := line1StartY - line2StartY
    let b := line1StartX - line2StartX
    let numerator1 := ((line2EndX - line2StartX) * a) - ((line2EndY - line2StartY) * b)
    let numerator2 := ((line1EndX - line1StartX) * a) - ((line1EndY - line1StartY) * b)
    let r := numerator1 / denominator
    let s := numerator2 / denominator
    if r < 0 ∨ r > 1 ∨ s < 0 ∨ s > 1 then none
    else
      some { x := line1StartX + (r * (line1EndX - line1StartX))
             y := line1StartY + (r * (line1EndY - line1StartY)) }

/-- The point `q` lies on the segment from `(startX, startY)` to `(endX, endY)`,
endpoints included. -/
def OnSegment (q : Position) (startX startY endX endY : ℚ) : Prop :=
  ∃ t : ℚ, 0 ≤ t ∧ t ≤ 1 ∧
    q.x = startX + t * (endX - startX) ∧ q.y = startY + t * (endY - startY)

/-! ## Progress of an execution (poll callback) -/

/-- A finite double that is not negative: the value `m * 2^e`. -/
structure Double where
  m : Nat
  e : Int
deriving DecidableEq

/-- The number of binary digits of `n`, by halving at most `fuel` times. -/
def bitLengthAux : Nat → Nat → Nat
  | 0, _ => 0
  | fuel + 1, n => if n = 0 then 0 else bitLengthAux fuel (n / 2) + 1

/-- The number of binary digits of `n`. -/
def bitLength (n : Nat) : Nat :=
  bitLengthAux n n

/-- The quotient `num / den` rounded to the nearest integer, a tie going to the
even neighbour. -/
def roundHalfEven (num den : Nat) : Nat :=
  let q := num / den
  let r := num % den
  if 2 * r < den then q
  else if den < 2 * r then q + 1
  else if q % 2 = 0 then q else q + 1

/-- The double nearest to `a / b` (for `b > 0`), ties to even: the exponent is
chosen so that the significand has 53 binary digits. Overflow and subnormal
numbers are left out; they do not occur for integers below `2^53`. -/
def roundRatio (a b : Nat) : Double :=
  if a = 0 then { m := 0, e := 0 }
  else
    let k : Int := (bitLength a : Int) - (bitLength b : Int)
    let e0 : Int := k - 53
    let e : Int := if 2 ^ 53 * (b * 2 ^ e0.toNat) ≤ a * 2 ^ (-e0).toNat then e0 + 1 else e0
    { m := roundHalfEven (a * 2 ^ (-e).toNat) (b * 2 ^ e.toNat), e := e }

/-- The double product of a double and an integer. -/
def Double.mulNat (x : Double) (k : Nat) : Double :=
  roundRatio (x.m * k * 2 ^ x.e.toNat) (2 ^ (-x.e).toNat)

/-- The function `Math.floor` on a double that is not negative. -/
def Double.floor (x : Double) : Nat :=
  x.m * 2 ^ x.e.toNat / 2 ^ (-x.e).toNat

/-- The call `Object.keys(data.results)`. -/
def objectKeys (results : ExecutionResults) : List String :=
  (match results.node_count with
    | some _ => ["node_count"]
    | none => []) ++ results.keys

/-- The value `completedNodes`: the number of keys other than `node_count`. -/
def completedNodes (results : ExecutionResults) : Nat :=
  ((objectKeys results).filter (fun key => decide (key ≠ "node_count"))).length

/-- The value `progress` computed by the poll callback of `CognotFlowProvider`:
`Math.min(100, Math.floor((completedNodes / node_count) * 100))` in double
arithmetic when `results` and a non-zero `node_count` are present, else `0`. -/
def pollProgress (results : Option ExecutionResults) : Nat :=
  match results with
  | none => 0
  | some r =>
      match r.node_count with
      | none => 0
      | some nodeCount =>
          if nodeCount = 0 then 0
          else min 100 ((roundRatio (completedNodes r) nodeCount).mulNat 100).floor

/-- The progress as the specification words it: `floor(100 * c / n)` clamped to 100. -/
def specProgress (c n : Nat) : Nat :=
  min 100 (100 * c / n)

/-- A poll response with `node_count = 100` and results for 29 nodes. -/
def scenarioResults : ExecutionResults where
  node_count := some 100
  keys := (List.range 29).map (fun i => "node_" ++ toString i)

/-! ## Connection flags and frame conditions of the reducer -/

/-- The two connection fields agree: `isConnecting` is true exactly when
`connectingEdge` is not null. -/
def ConnectionConsistent (state : State) : Prop :=
  state.isConnecting = true ↔ state.connectingEdge ≠ none

/-- The action types that can change the node list or the edge list: the three
node actions, the three edge actions and `END_CONNECTING`. -/
def changesGraph : Action → Bool
  | .addNode _ => true
  | .updateNode _ => true
  | .deleteNode _ => true
  | .addEdge _ => true
  | .updateEdge _ => true
  | .deleteEdge _ => true
  | .endConnecting _ _ _ => true
  | _ => false

/-! ## The preview-edge resolver and the renderer of handles -/

/-- The expression `connectingEdge?.targetHandle`: the object built by
`START_CONNECTING` and kept by `UPDATE_CONNECTING_POSITION` has the keys `source`,
`sourceHandle`, `sourcePosition` and `targetPosition` only, so the value is
`undefined` whether or not a connection is in progress. -/
def connectingTargetHandle (connectingEdge : Option ConnectingEdge) : Option String :=
  match connectingEdge with
  | none => none
  | some _ => none

/-- The anchor resolver `getHandlePosition` of `CognotEdges` (the preview edge). -/
def CognotEdges.getHandlePosition (nodes : List Node)
    (connectingEdge : Option ConnectingEdge) (nodeId handleId : String) : Option Point :=
  match nodes.find? (fun n => decide (n.id = nodeId)) with
  | none => none
  | some node =>
      match node.position with
      | none => none
      | some position =>
          if connectingTargetHandle connectingEdge = some handleId then
            let inputIndex := findIndexOrZero node.data.inputs handleId
            some { x := position.x
                   y := position.y + .num (((inputIndex + 1 : Int) : ℚ) * handleSpacing) }
          else
            let outputIndex := findIndexOrZero node.data.outputs handleId
            some { x := position.x + .num nodeWidth
                   y := position.y + .num (((outputIndex + 1 : Int) : ℚ) * handleSpacing) }

/-- One handle element drawn by `renderHandles`: its class, its `top` in pixels
from the top of the node, and its data attributes. -/
structure RenderedHandle where
  className : String
  top : ℚ
  handleId : String
  handleType : String
  nodeId : String
deriving DecidableEq

/-- The style `top: 30 + index * 20` that `renderHandles` gives the handle at `index`. -/
def handleTop (index : Nat) : ℚ :=
  30 + index * 20

/-- The function `renderHandles` of `CognotNode.jsx`: one element for each input
and each output that has a name, at the index it has in its list. -/
def renderHandles (id : String) (data : NodeData) : List RenderedHandle :=
  (match data.inputs with
    | none => []
    | some inputs =>
        inputs.enum.filterMap (fun entry =>
          if entry.2.name ≠ "" then
            some { className := "cognot-node-handle cognot-node-handle-input"
                   top := handleTop entry.1
                   handleId := entry.2.name
                   handleType := "input"
                   nodeId := id }
          else none)) ++
  (match data.outputs with
    | none => []
    | some outputs =>
        outputs.enum.filterMap (fun entry =>
          if entry.2.name ≠ "" then
            some { className := "cognot-node-handle cognot-node-handle-output"
                   top := handleTop entry.1
                   handleId := entry.2.name
                   handleType := "output"
                   nodeId := id }
          else none))

/-- A gesture in progress from `(A, out)`. -/
def scenarioGesture : ConnectingEdge where
  source := "A"
  sourceHandle := "out"
  sourcePosition := { x := 200, y := 30 }
  targetPosition := { x := 250, y := 60 }

/-! ## Transparency of the path cache -/

/-- The path a fresh computation gives for an edge in a node list:
`getBezierPath` of the two anchors resolved by `getHandlePosition`, and the empty
path when an anchor is missing. -/
def freshPath (edge : Edge) (nodes : List Node) : PathData :=
  match CognotEdgeComponent.getHandlePosition nodes edge.source edge.sourceHandle,
        CognotEdgeComponent.getHandlePosition nodes edge.target edge.targetHandle with
  | some sourcePosition, some targetPosition =>
      getBezierPath sourcePosition.x sourcePosition.y targetPosition.x targetPosition.y
  | _, _ => .empty

/-- A non-empty cached path is the fresh path of the recorded props in the
recorded node list. -/
def CacheExact (cache : PathCache) : Prop :=
  cache.path ≠ .empty →
    cache.path = freshPath
      { id := "", source := cache.currentSource, sourceHandle := cache.currentSourceHandle,
        target := cache.currentTarget, targetHandle := cache.currentTargetHandle }
      cache.currentNodes

/-- The endpoint node `nodeId` declares the same inputs and outputs in both lists. -/
def SamePorts (nodes cached : List Node) (nodeId : String) : Prop :=
  ∀ n c, nodes.find? (fun n => decide (n.id = nodeId)) = some n →
    cached.find? (fun n => decide (n.id = nodeId)) = some c →
    n.data.inputs = c.data.inputs ∧ n.data.outputs = c.data.outputs

/-- A patch that puts a new input `aux` in front of the input `in` of B and leaves
the position as it is. -/
def scenarioNewInput : NodePatch where
  id := "B"
  type := none
  position := none
  data := some { scenarioNodeB.data with
                 inputs := some [{ name := "aux", type := "default" },
                                 { name := "in", type := "default" }] }

/-! ## Data mapper (`dataMapper.js`): values and objects -/

/-- A value read or written by the data mapper. An object value has text leaves;
`inherited key` is the member `key` that every object literal inherits from
`Object.prototype` (a function, or the prototype itself for `__proto__`). -/
inductive JSValue where
  | undefined
  | null
  | text (s : String)
  | number (n : JSNumber)
  | object (entries : List (String × String))
  | inherited (key : String)
deriving DecidableEq

/-- Truthiness: `undefined`, `null`, the empty text, `0` and `NaN` are falsy. -/
def JSValue.truthy : JSValue → Bool
  | .undefined => false
  | .null => false
  | .text s => decide (s ≠ "")
  | .number .nan => false
  | .number (.inf _) => true
  | .number (.num q) => decide (q ≠ 0)
  | .object _ => true
  | .inherited _ => true

/-- The expression `a || b`. -/
def jsOr (a b : JSValue) : JSValue :=
  if a.truthy then a else b

/-- The test `typeof v === 'number'`. -/
def JSValue.isNumber : JSValue → Bool
  | .number _ => true
  | _ => false

/-- The value of `object[key]` for an object given by its entries: `undefined`
when there is no such key. -/
def objGet (entries : List (String × JSValue)) (key : String) : JSValue :=
  match entries.find? (fun entry => decide (entry.1 = key)) with
  | some entry => entry.2
  | none => .undefined

/-- Setting one property: the value is replaced in place when the key exists,
else the entry is appended. -/
def objAssign (entries : List (String × JSValue)) (key : String) (value : JSValue) :
    List (String × JSValue) :=
  if entries.any (fun entry => decide (entry.1 = key)) then
    entries.map (fun entry => if entry.1 = key then (key, value) else entry)
  else entries ++ [(key, value)]

/-- The spread `{ ...entries, ...source }`: the properties of `source` are set one
after the other. -/
def objSpread (entries source : List (String × JSValue)) : List (String × JSValue) :=
  source.foldl (fun acc entry => objAssign acc entry.1 entry.2) entries

/-- The statement `delete object[key]`. -/
def objDelete (entries : List (String × JSValue)) (key : String) : List (String × JSValue) :=
  entries.filter (fun entry => decide (entry.1 ≠ key))

/-- The own enumerable properties that a spread copies from a value: the entries
of an object, the characters of a text by index, nothing for the others. -/
def ownEntries : JSValue → List (String × JSValue)
  | .object entries => entries.map (fun entry => (entry.1, JSValue.text entry.2))
  | .text s => s.toList.enum.map (fun entry => (toString entry.1, JSValue.text entry.2.toString))
  | _ => []

/-! ## Data mapper: edges -/

/-- The `data` object of an in-memory edge. -/
structure FrontendEdgeData where
  label : JSValue
deriving DecidableEq

/-- An in-memory edge as the data mapper reads and writes it. -/
structure FrontendEdge where
  id : JSValue
  source : JSValue
  target : JSValue
  sourceHandle : JSValue
  targetHandle : JSValue
  data : Option FrontendEdgeData
deriving DecidableEq

/-- A backend edge. -/
structure BackendEdge where
  id : JSValue
  source : JSValue
  target : JSValue
  source_output : JSValue
  target_input : JSValue
  source_handle : JSValue
  target_handle : JSValue
  label : JSValue
deriving DecidableEq

/-- The function `frontendToBackendEdge`; `none` is a null or missing argument. -/
def frontendToBackendEdge (edge : Option FrontendEdge) : Option BackendEdge :=
  match edge with
  | none => none
  | some edge =>
      some { id := edge.id
             source := edge.source
             target := edge.target
             source_output := jsOr edge.sourceHandle (.text "output")
             target_input := jsOr edge.targetHandle (.text "input")
             source_handle := edge.sourceHandle
             target_handle := edge.targetHandle
             label := jsOr (match edge.data with
                            | some data => data.label
                            | none => .undefined) .null }

/-- The function `backendToFrontendEdge`; `none` is a null or missing argument. -/
def backendToFrontendEdge (edge : Option BackendEdge) : Option FrontendEdge :=
  match edge with
  | none => none
  | some edge =>
      some { id := edge.id
             source := edge.source
             target := edge.target
             sourceHandle := edge.source_handle
             targetHandle := edge.target_handle
             data := some { label := jsOr edge.label (.text "") } }

/-! ## Data mapper: nodes -/

/-- The `position` object of a node as the data mapper reads it. -/
structure MapperPosition where
  x : JSValue
  y : JSValue
deriving DecidableEq

/-- The `config` object of an in-memory node. -/
structure NodeConfig where
  defaultValue : JSValue
  operation : JSValue
  outputName : JSValue
deriving DecidableEq

/-- The `data` object of an in-memory node as the data mapper reads and writes it. -/
structure FrontendNodeData where
  label : JSValue
  params : Option (List (String × JSValue))
  connections : JSValue
  config : Option NodeConfig
  status : JSValue
  executionTime : JSValue
  output : JSValue
deriving DecidableEq

/-- An in-memory node as the data mapper reads and writes it; `className` holds
the value printed after the text node- in the class name. -/
structure FrontendNode where
  id : JSValue
  type : JSValue
  position : Option MapperPosition
  data : Option FrontendNodeData
  status : JSValue
  executionTime : JSValue
  output : JSValue
  className : JSValue
deriving DecidableEq

/-- A backend node. -/
structure BackendNode where
  id : JSValue
  type : JSValue
  inputs : List (String × JSValue)
  data : Option (List (String × JSValue))
  position : Option MapperPosition
  status : JSValue
  execution_time : JSValue
  output : JSValue
deriving DecidableEq

/-- The own keys of the object literal `typeMap`. -/
def typeMap : List (String × String) :=
  [("InputNode", "input"), ("OutputNode", "output"), ("ProcessingNode", "processing")]

/-- The property names an object literal inherits from `Object.prototype`. -/
def objectPrototypeKeys : List String :=
  ["constructor", "__defineGetter__", "__defineSetter__", "hasOwnProperty",
   "__lookupGetter__", "__lookupSetter__", "isPrototypeOf", "propertyIsEnumerable",
   "toString", "valueOf", "__proto__", "toLocaleString"]

/-- The expression `typeMap[type]`: an own key gives its text, an inherited name
gives the inherited member, anything else (a value that is not a text is first
turned into a text that is none of these names) gives `undefined`. -/
def typeMapLookup (type : JSValue) : JSValue :=
  match type with
  | .text s =>
      match typeMap.lookup s with
      | some backendType => .text backendType
      | none => if s ∈ objectPrototypeKeys then .inherited s else .undefined
  | _ => .undefined

/-- The function `frontendToBackendNode`; `none` is a null or missing argument,
and the error is the `TypeError` raised when `data` or `position` is missing. -/
def frontendToBackendNode (node : Option FrontendNode) : Except String (Option BackendNode) :=
  match node with
  | none => .ok none
  | some node =>
      match node.data, node.position with
      | some data, some position =>
          let backendType := jsOr (typeMapLookup node.type) node.type
          let inputs : List (String × JSValue) := []
          let inputs :=
            match data.config with
            | some config =>
                if config.defaultValue ≠ .undefined then
                  objAssign inputs "value" config.defaultValue
                else inputs
            | none => inputs
          let inputs :=
            match data.config with
            | some config =>
                if config.operation ≠ .undefined then
                  objAssign inputs "operation" config.operation
                else inputs
            | none => inputs
          let inputs :=
            match data.config with
            | some config =>
                if config.outputName ≠ .undefined then
                  objAssign inputs "outputName" config.outputName
                else inputs
            | none => inputs
          .ok (some
            { id := node.id
              type := backendType
              inputs := inputs
              data := some
                (objSpread
                  (objSpread [("label", jsOr data.label node.type)] (data.params.getD []))
                  (ownEntries (jsOr data.connections (.object []))))
              position := some { x := position.x, y := position.y }
              status := jsOr node.status (.text "idle")
              execution_time := jsOr node.executionTime .null
              output := jsOr node.output .null })
      | _, _ => .error "TypeError"

/-- The function `backendToFrontendNode`; `none` is a null or missing argument,
and the error is the `TypeError` raised when `data` is missing. -/
def backendToFrontendNode (node : Option BackendNode) : Except String (Option FrontendNode) :=
  match node with
  | none => .ok none
  | some node =>
      match node.data with
      | none => .error "TypeError"
      | some data =>
          let label := jsOr (objGet data "label") node.type
          let params := objSpread [] data
          let params := objDelete params "label"
          let params := objDelete params "connections"
          .ok (some
            { id := node.id
              type := node.type
              position := node.position
              data := some
                { label := label
                  params := some params
                  connections := jsOr (objGet data "connections") (.object [])
                  config := none
                  status := jsOr node.status (.text "idle")
                  executionTime := jsOr node.execution_time .null
                  output := jsOr node.output .null }
              status := .undefined
              executionTime := .undefined
              output := .undefined
              className := jsOr node.status (.text "idle") })

/-- An in-memory node of a type that is not in `typeMap`, with a label and one
parameter. -/
def scenarioMapperNode : FrontendNode where
  id := .text "n1"
  type := .text "custom"
  position := some { x := .number (.num 10), y := .number (.num 20) }
  data := some
    { label := .text "Custom"
      params := some [("threshold", .text "5")]
      connections := .undefined
      config := none
      status := .undefined
      executionTime := .undefined
      output := .undefined }
  status := .undefined
  executionTime := .undefined
  output := .undefined
  className := .undefined

/-- The same node without a `params` object. -/
def scenarioMapperNodeNoParams : FrontendNode :=
  { scenarioMapperNode with
    data := some
      { label := .text "Custom"
        params := none
        connections := .undefined
        config := none
        status := .undefined
        executionTime := .undefined
        output := .undefined } }

/-- The same node with the type `constructor`. -/
def scenarioMapperNodeInherited : FrontendNode :=
  { scenarioMapperNode with type := .text "constructor" }

/-! ## Data mapper: workflows -/

/-- An in-memory workflow snapshot. A timestamp is the number of milliseconds
handed to `new Date`, negative before 1970; a date text stands for the time
value it parses to, and a text that is not a date for a number out of the
range of `Date`, which gives an invalid date as well. -/
structure FrontendWorkflow where
  id : JSValue
  name : JSValue
  description : JSValue
  nodes : Option (List (Option FrontendNode))
  edges : Option (List (Option FrontendEdge))
  createdAt : Option Int
  updatedAt : Option Int
deriving DecidableEq

/-- A backend workflow snapshot, with the same convention for timestamps. -/
structure BackendWorkflow where
  id : JSValue
  name : JSValue
  description : JSValue
  nodes : Option (List (Option BackendNode))
  edges : Option (List (Option BackendEdge))
  created_at : Option Int
  updated_at : Option Int
deriving DecidableEq

/-- The function `backendToFrontendWorkflow`; it raises the error of
`backendToFrontendNode` when a node has no `data`. -/
def backendToFrontendWorkflow (workflow : Option BackendWorkflow) :
    Except String (Option FrontendWorkflow) :=
  match workflow with
  | none => .ok none
  | some workflow =>
      match (match workflow.nodes with
              | some nodes => nodes.mapM backendToFrontendNode
              | none => .ok []) with
      | .error e => .error e
      | .ok nodes =>
          .ok (some
            { id := workflow.id
              name := workflow.name
              description := workflow.description
              nodes := some nodes
              edges := some (match workflow.edges with
                             | some edges => edges.map backendToFrontendEdge
                             | none => [])
              createdAt := workflow.created_at
              updatedAt := workflow.updated_at })

/-- The largest time value of a `Date`: `8.64e15` milliseconds on either side of
the start of 1970. -/
def maxTime : Int := 8640000000000000

/-- The time value of `new Date(timestamp || 0)`: a missing timestamp counts as
time `0`, the start of 1970, and a number beyond `maxTime` gives an invalid
date, whose time value is `NaN` (here `none`). -/
def timeOf (timestamp : Option Int) : Option Int :=
  match timestamp with
  | none => some 0
  | some t => if -maxTime ≤ t ∧ t ≤ maxTime then some t else none

/-- The comparison `a > b` of two dates: false as soon as one of them is
invalid. -/
def dateGreater (a b : Option Int) : Bool :=
  match a, b with
  | some x, some y => decide (x > y)
  | _, _ => false

/-- The function `mergeWorkflowData`. -/
def mergeWorkflowData (frontendData : Option FrontendWorkflow)
    (backendData : Option BackendWorkflow) : Except String (Option FrontendWorkflow) :=
  match frontendData with
  | none => backendToFrontendWorkflow backendData
  | some frontend =>
      match backendData with
      | none => .ok (some frontend)
      | some backend =>
          let frontendUpdated := timeOf frontend.updatedAt
          let backendUpdated := timeOf backend.updated_at
          if dateGreater frontendUpdated backendUpdated then .ok (some frontend)
          else backendToFrontendWorkflow (some backend)

/-- An in-memory snapshot named `local` that has no update timestamp. -/
def scenarioLocalWorkflow : FrontendWorkflow where
  id := .text "w1"
  name := .text "local"
  description := .text ""
  nodes := some [some scenarioMapperNode]
  edges := some []
  createdAt := none
  updatedAt := none

/-- A backend snapshot named `remote`, updated one second before 1970. -/
def scenarioOldBackend : BackendWorkflow where
  id := .text "w1"
  name := .text "remote"
  description := .text ""
  nodes := some []
  edges := some []
  created_at := some (-2000)
  updated_at := some (-1000)

/-- An in-memory snapshot named `local` whose update timestamp is one
millisecond beyond the range of `Date`. -/
def scenarioLateWorkflow : FrontendWorkflow :=
  { scenarioLocalWorkflow with updatedAt := some 8640000000000001 }

/-- An in-memory snapshot named `local`, updated at time 9000. -/
def scenarioTimedWorkflow : FrontendWorkflow :=
  { scenarioLocalWorkflow with updatedAt := some 9000 }

/-- A backend snapshot named `remote`, updated at time 5000. -/
def scenarioBackend : BackendWorkflow :=
  { scenarioOldBackend with created_at := some 1000, updated_at := some 5000 }

/-! ## Data mapper: validation -/

/-- The result `{ isValid, errors }` of a validation function. -/
structure ValidationResult where
  isValid : Bool
  errors : List String
deriving DecidableEq

/-- The function `validateNodeData`; `none` is a null or missing argument. -/
def validateNodeData (nodeData : Option FrontendNode) : ValidationResult :=
  match nodeData with
  | none => { isValid := false, errors := ["Node data is null or undefined"] }
  | some nodeData =>
      let errors : List String := []
      let errors :=
        if !nodeData.id.truthy then errors ++ ["Node must have an id"] else errors
      let errors :=
        if !nodeData.type.truthy then errors ++ ["Node must have a type"] else errors
      let errors :=
        if (match nodeData.position with
            | none => true
            | some position => !position.x.isNumber || !position.y.isNumber) then
          errors ++ ["Node must have valid position coordinates"]
        else errors
      let errors :=
        if nodeData.data.isNone then errors ++ ["Node must have data"] else errors
      { isValid := decide (errors.length = 0), errors := errors }

/-- The function `validateEdgeData`; `none` is a null or missing argument. -/
def validateEdgeData (edgeData : Option FrontendEdge) : ValidationResult :=
  match edgeData with
  | none => { isValid := false, errors := ["Edge data is null or undefined"] }
  | some edgeData =>
      let errors : List String := []
      let errors :=
        if !edgeData.id.truthy then errors ++ ["Edge must have an id"] else errors
      let errors :=
        if !edgeData.source.truthy then errors ++ ["Edge must have a source node id"]
        else errors
      let errors :=
        if !edgeData.target.truthy then errors ++ ["Edge must have a target node id"]
        else errors
      let errors :=
        if !edgeData.sourceHandle.truthy then errors ++ ["Edge must have a source handle"]
        else errors
      let errors :=
        if !edgeData.targetHandle.truthy then errors ++ ["Edge must have a target handle"]
        else errors
      { isValid := decide (errors.length = 0), errors := errors }

/-- The entries pushed by one `forEach` of `validateWorkflowData`: for each index
whose element fails, the text made of `kind`, the index and the joined errors. -/
def indexedErrors {α : Type} (kind : String) (validate : Option α → ValidationResult)
    (items : List (Option α)) (start : Nat) : List String :=
  (items.enumFrom start).filterMap (fun entry =>
    if (validate entry.2).isValid then none
    else some (kind ++ " at index " ++ toString entry.1 ++ ": " ++
      ", ".intercalate (validate entry.2).errors))

/-- The entries pushed for the key `nodes`. -/
def nodesErrors (nodes : Option (List (Option FrontendNode))) : List String :=
  match nodes with
  | none => ["Nodes must be an array"]
  | some nodes => indexedErrors "Node" validateNodeData nodes 0

/-- The entries pushed for the key `edges`. -/
def edgesErrors (edges : Option (List (Option FrontendEdge))) : List String :=
  match edges with
  | none => ["Edges must be an array"]
  | some edges => indexedErrors "Edge" validateEdgeData edges 0

/-- The function `validateWorkflowData`; `none` is a null or missing argument, and
a `nodes` or `edges` that is `none` is not an array. -/
def validateWorkflowData (workflowData : Option FrontendWorkflow) : ValidationResult :=
  match workflowData with
  | none => { isValid := false, errors := ["Workflow data is null or undefined"] }
  | some workflowData =>
      let errors := nodesErrors workflowData.nodes ++ edgesErrors workflowData.edges
      { isValid := decide (errors.length = 0), errors := errors }

/-- The number of entries of a collection that fail their validation. -/
def failing {α : Type} (validate : Option α → ValidationResult)
    (items : List (Option α)) : Nat :=
  items.countP (fun item => !(validate item).isValid)

/-- An in-memory edge with all five fields. -/
def scenarioMapperEdge : FrontendEdge where
  id := .text "e1"
  source := .text "n1"
  target := .text "n2"
  sourceHandle := .text "out"
  targetHandle := .text "in"
  data := none

/-- A workflow with one valid node, one null node, one valid edge and one edge
without a target handle. -/
def scenarioMixedWorkflow : FrontendWorkflow where
  id := .text "w2"
  name := .text "mixed"
  description := .text ""
  nodes := some [some scenarioMapperNode, none]
  edges := some [some scenarioMapperEdge,
                 some { scenarioMapperEdge with targetHandle := .undefined }]
  createdAt := none
  updatedAt := none

/-- A workflow with one valid node and one valid edge. -/
def scenarioValidWorkflow : FrontendWorkflow :=
  { scenarioMixedWorkflow with
    nodes := some [some scenarioMapperNode]
    edges := some [some scenarioMapperEdge] }

/-! ## The path of a settled edge on nodes as the store holds them -/

/-- The `data` bag of a stored node as the anchor resolver reads it: each port
list may be missing, and an entry of a list may be `null` or `undefined`. -/
structure StoredData where
  inputs : Option (List (Option Port))
  outputs : Option (List (Option Port))
deriving DecidableEq

/-- A node as the store may hold it: the `data` bag itself may be missing. -/
structure StoredNode where
  id : String
  position : Option Point
  data : Option StoredData
deriving DecidableEq

/-- The refs of one `CognotEdgeComponent` over stored nodes. -/
structure StoredPathCache where
  path : PathData
  currentSource : String
  currentTarget : String
  currentSourceHandle : String
  currentTargetHandle : String
  currentNodes : List StoredNode
deriving DecidableEq

/-- The call `ports.some(port => port.name === handleId)`: reading `name` of an
entry that is `null` or `undefined` throws a `TypeError`. -/
def someNamed : List (Option Port) → String → Except String Bool
  | [], _ => .ok false
  | none :: _, _ => .error "TypeError"
  | some port :: rest, handleId =>
      if port.name = handleId then .ok true else someNamed rest handleId

/-- The call `ports.findIndex(port => port.name === handleId)` from index `start`
on, with the same `TypeError`. -/
def findIndexFrom : List (Option Port) → String → Nat → Except String Int
  | [], _, _ => .ok (-1)
  | none :: _, _, _ => .error "TypeError"
  | some port :: rest, handleId, start =>
      if port.name = handleId then .ok start else findIndexFrom rest handleId (start + 1)

/-- The expression `ports?.findIndex(...) || 0` on a stored port list. -/
def findIndexOrZeroChecked (ports : Option (List (Option Port))) (handleId : String) :
    Except String Int :=
  match ports with
  | none => .ok 0
  | some list => findIndexFrom list handleId 0

/-- The test `node.data.inputs?.some(input => input.name === handleId)` on a
stored `data` bag. -/
def isDeclaredInputChecked (data : StoredData) (handleId : String) : Except String Bool :=
  match data.inputs with
  | none => .ok false
  | some inputs => someNamed inputs handleId

/-- The anchor resolver `getHandlePosition` of `CognotEdgeComponent` with the
errors it can raise: `node.data.inputs` throws a `TypeError` when the node has
no `data`, and so does `port.name` on an entry that is not an object. -/
def CognotEdgeComponent.getHandlePositionChecked (nodes : List StoredNode)
    (nodeId handleId : String) : Except String (Option Point) :=
  match nodes.find? (fun n => decide (n.id = nodeId)) with
  | none => .ok none
  | some node =>
      match node.position with
      | none => .ok none
      | some position =>
          match node.data with
          | none => .error "TypeError"
          | some data =>
              match isDeclaredInputChecked data handleId with
              | .error e => .error e
              | .ok true =>
                  match findIndexOrZeroChecked data.inputs handleId with
                  | .error e => .error e
                  | .ok inputIndex =>
                      .ok (some { x := position.x
                                  y := position.y +
                                    JSNumber.num (((inputIndex + 1 : Int) : ℚ) * handleSpacing) })
              | .ok false =>
                  match findIndexOrZeroChecked data.outputs handleId with
                  | .error e => .error e
                  | .ok outputIndex =>
                      .ok (some { x := position.x + JSNumber.num nodeWidth
                                  y := position.y +
                                    JSNumber.num (((outputIndex + 1 : Int) : ℚ) * handleSpacing) })

/-- The condition of the early return of `getPath` over stored nodes; it reads
the `id` and the `position` of nodes only and raises no error. -/
def storedCacheHit (cache : StoredPathCache) (edge : Edge) (nodes : List StoredNode) : Bool :=
  match nodes.find? (fun n => decide (n.id = edge.source)),
        nodes.find? (fun n => decide (n.id = edge.target)),
        cache.currentNodes.find? (fun n => decide (n.id = edge.source)),
        cache.currentNodes.find? (fun n => decide (n.id = edge.target)) with
  | some sourceNode, some targetNode, some cachedSourceNode, some cachedTargetNode =>
      decide (cache.path ≠ .empty) &&
      decide (cache.currentSource = edge.source) &&
      decide (cache.currentTarget = edge.target) &&
      decide (cache.currentSourceHandle = edge.sourceHandle) &&
      decide (cache.currentTargetHandle = edge.targetHandle) &&
      decide (cache.currentNodes.length = nodes.length) &&
      decide (positionJSON sourceNode.position = positionJSON cachedSourceNode.position) &&
      decide (positionJSON targetNode.position = positionJSON cachedTargetNode.position)
  | _, _, _, _ => false

/-- The function `getPath` of `CognotEdgeComponent` with the errors it can raise:
both anchors are resolved, the source first, before either is tested. -/
def getPathChecked (cache : StoredPathCache) (edge : Edge) (nodes : List StoredNode) :
    Except String (PathData × StoredPathCache) :=
  if storedCacheHit cache edge nodes then .ok (cache.path, cache)
  else
    match CognotEdgeComponent.getHandlePositionChecked nodes edge.source edge.sourceHandle with
    | .error e => .error e
    | .ok source =>
        match CognotEdgeComponent.getHandlePositionChecked nodes edge.target
            edge.targetHandle with
        | .error e => .error e
        | .ok target =>
            match source, target with
            | some sourcePosition, some targetPosition =>
                if sourcePosition.x.isNaN || sourcePosition.y.isNaN ||
                    targetPosition.x.isNaN || targetPosition.y.isNaN then
                  .ok (.empty, { cache with path := .empty })
                else
                  let path := getBezierPath sourcePosition.x sourcePosition.y
                    targetPosition.x targetPosition.y
                  .ok (path,
                       { path := path
                         currentSource := edge.source
                         currentTarget := edge.target
                         currentSourceHandle := edge.sourceHandle
                         currentTargetHandle := edge.targetHandle
                         currentNodes := nodes })
            | _, _ => .ok (.empty, { cache with path := .empty })

/-- A node that carries a `data` bag of port objects, as the store holds it. -/
def Node.toStored (node : Node) : StoredNode where
  id := node.id
  position := node.position
  data := some { inputs := node.data.inputs.map (fun ports => ports.map some)
                 outputs := node.data.outputs.map (fun ports => ports.map some) }

/-- The refs over nodes that carry a `data` bag of port objects. -/
def PathCache.toStored (cache : PathCache) : StoredPathCache where
  path := cache.path
  currentSource := cache.currentSource
  currentTarget := cache.currentTarget
  currentSourceHandle := cache.currentSourceHandle
  currentTargetHandle := cache.currentTargetHandle
  currentNodes := cache.currentNodes.map Node.toStored

/-- Node B as an object `{id, position}` without the key `data`. -/
def scenarioStoredBNoData : StoredNode where
  id := "B"
  position := some { x := 300, y := 0 }
  data := none

/-! ## Double arithmetic

The wheel handler and `getBezierPath` once more, with every operation rounded
as IEEE 754 binary64 arithmetic rounds it. -/

/-- A double: `NaN`, an infinity (`neg` for `-Infinity`), or the finite value
`± m * 2^e`. The results of the operations below are in normal form: `m` has 53
binary digits, or fewer with `e = -1074`, and zero is `fin false 0 0`; the two
zeros are not told apart. -/
inductive F64 where
  | nan
  | inf (neg : Bool)
  | fin (neg : Bool) (m : Nat) (e : Int)
deriving DecidableEq

/-- The double nearest to `± num / den` (for `den > 0`), ties to even: the
exponent is chosen so that the significand has 53 binary digits, but not below
`-1074` (gradual underflow); a result beyond the largest double is an infinity. -/
def F64.round (neg : Bool) (num den : Nat) : F64 :=
  if num = 0 then .fin false 0 0
  else
    let k : Int := (bitLength num : Int) - (bitLength den : Int)
    let e0 : Int := k - 53
    let e1 : Int :=
      if 2 ^ 53 * (den * 2 ^ e0.toNat) ≤ num * 2 ^ (-e0).toNat then e0 + 1 else e0
    let e : Int := max e1 (-1074)
    let m := roundHalfEven (num * 2 ^ (-e).toNat) (den * 2 ^ e.toNat)
    if m = 0 then .fin false 0 0
    else if m = 2 ^ 53 then (if e + 1 > 971 then .inf neg else .fin neg (2 ^ 52) (e + 1))
    else if e > 971 then .inf neg
    else .fin neg m e

/-- The double of a natural number. -/
def F64.ofNat (n : Nat) : F64 :=
  F64.round false n 1

/-- The double of a decimal literal: `digits / 10^places`, as in `0.001`. -/
def F64.ofDecimal (digits places : Nat) : F64 :=
  F64.round false digits (10 ^ places)

instance (n : Nat) : OfNat F64 n := ⟨F64.ofNat n⟩

/-- The integer `± m`. -/
def F64.signed (neg : Bool) (m : Nat) : Int :=
  if neg then -(m : Int) else m

/-- The double nearest to `n * 2^e`. -/
def F64.roundInt (n : Int) (e : Int) : F64 :=
  F64.round (decide (n < 0)) (n.natAbs * 2 ^ e.toNat) (2 ^ (-e).toNat)

/-- Unary minus. -/
def F64.neg : F64 → F64
  | .nan => .nan
  | .inf s => .inf (!s)
  | .fin s m e => if m = 0 then .fin false 0 0 else .fin (!s) m e

instance : Neg F64 := ⟨F64.neg⟩

/-- Addition: the exact sum, rounded. -/
def F64.add : F64 → F64 → F64
  | .fin s m e, .fin t n f =>
      let d : Int := min e f
      F64.roundInt (F64.signed s m * 2 ^ (e - d).toNat + F64.signed t n * 2 ^ (f - d).toNat) d
  | .inf s, .inf t => if s = t then .inf s else .nan
  | .inf s, .fin _ _ _ => .inf s
  | .fin _ _ _, .inf t => .inf t
  | _, _ => .nan

instance : Add F64 := ⟨F64.add⟩

/-- Subtraction. -/
def F64.sub (a b : F64) : F64 :=
  a.add b.neg

instance : Sub F64 := ⟨F64.sub⟩

/-- Multiplication: the exact product, rounded. -/
def F64.mul : F64 → F64 → F64
  | .fin s m e, .fin t n f =>
      F64.round (xor s t) (m * n * 2 ^ (e + f).toNat) (2 ^ (-(e + f)).toNat)
  | .inf s, .inf t => .inf (xor s t)
  | .inf s, .fin t n _ => if n = 0 then .nan else .inf (xor s t)
  | .fin s m _, .inf t => if m = 0 then .nan else .inf (xor s t)
  | _, _ => .nan

instance : Mul F64 := ⟨F64.mul⟩

/-- Division: the exact quotient, rounded; a zero divisor is taken as `+0`. -/
def F64.div : F64 → F64 → F64
  | .fin s m e, .fin t n f =>
      if n = 0 then (if m = 0 then .nan else .inf s)
      else F64.round (xor s t) (m * 2 ^ (e - f).toNat) (n * 2 ^ (f - e).toNat)
  | .fin _ _ _, .inf _ => .fin false 0 0
  | .inf s, .fin t _ _ => .inf (xor s t)
  | _, _ => .nan

instance : Div F64 := ⟨F64.div⟩

/-- The function `Math.abs`. -/
def F64.abs : F64 → F64
  | .nan => .nan
  | .inf _ => .inf false
  | .fin _ m e => .fin false m e

/-- The comparison `a < b`: false as soon as one side is `NaN`. -/
def F64.lt : F64 → F64 → Bool
  | .fin s m e, .fin t n f =>
      let d : Int := min e f
      decide (F64.signed s m * 2 ^ (e - d).toNat < F64.signed t n * 2 ^ (f - d).toNat)
  | .inf s, .inf t => s && !t
  | .inf s, .fin _ _ _ => s
  | .fin _ _ _, .inf t => !t
  | _, _ => false

/-- The global function `isNaN`. -/
def F64.isNaN : F64 → Bool
  | .nan => true
  | _ => false

/-- The function `Math.min` of two numbers. -/
def F64.min (a b : F64) : F64 :=
  if a.isNaN || b.isNaN then .nan else if b.lt a then b else a

/-- The function `Math.max` of two numbers. -/
def F64.max (a b : F64) : F64 :=
  if a.isNaN || b.isNaN then .nan else if a.lt b then b else a

/-- The comparison `a === b` of two numbers. -/
def F64.strictEq (a b : F64) : Bool :=
  !a.isNaN && !b.isNaN && decide (a = b)

/-- The viewport `{x, y, zoom}` in doubles. -/
structure ViewportDouble where
  x : F64
  y : F64
  zoom : F64
deriving DecidableEq

/-- What `handleWheel` reads from a wheel event, in doubles. -/
structure WheelEventDouble where
  deltaY : F64
  clientX : F64
  clientY : F64
deriving DecidableEq

/-- The corner of the bounding rectangle of the canvas, in doubles. -/
structure RectDouble where
  left : F64
  top : F64
deriving DecidableEq

/-- The function `handleWheel` in double arithmetic: nothing when the zoom does
not change or the canvas element is missing, else the payload `{x, y, zoom}` of
the one `updateViewport` it dispatches, which replaces all three fields. -/
def handleWheelDouble (canvas : Option RectDouble) (viewport : ViewportDouble)
    (e : WheelEventDouble) : Option ViewportDouble :=
  let zoomSpeed := F64.ofDecimal 1 3
  let normalizedDelta := F64.min e.deltaY.abs 100
  let zoomFactor :=
    1 + (if F64.lt 0 e.deltaY then -zoomSpeed * normalizedDelta
         else zoomSpeed * normalizedDelta)
  let newZoom := F64.max (F64.ofDecimal 1 1) (F64.min 10 (viewport.zoom * zoomFactor))
  if newZoom.strictEq viewport.zoom then none
  else
    match canvas with
    | none => none
    | some rect =>
        let mouseX := e.clientX - rect.left
        let mouseY := e.clientY - rect.top
        let worldX := (mouseX - viewport.x) / viewport.zoom
        let worldY := (mouseY - viewport.y) / viewport.zoom
        let newX := mouseX - worldX * newZoom
        let newY := mouseY - worldY * newZoom
        some { x := newX, y := newY, zoom := newZoom }

/-- A point of a path, in doubles. -/
structure PointDouble where
  x : F64
  y : F64
deriving DecidableEq

/-- The path string of an edge with its numbers in doubles. -/
inductive PathDouble where
  | empty
  | cubic (start control1 control2 finish : PointDouble)
deriving DecidableEq

/-- The function `getBezierPath` in double arithmetic. -/
def getBezierPathDouble (sourceX sourceY targetX targetY : F64) : PathDouble :=
  if sourceX.isNaN || sourceY.isNaN || targetX.isNaN || targetY.isNaN then .empty
  else
    let offset := (targetX - sourceX).abs / 2
    let midX := (sourceX + targetX) / 2
    .cubic { x := sourceX, y := sourceY } { x := sourceX + offset, y := sourceY }
      { x := midX, y := targetY } { x := targetX, y := targetY }

/-- A wheel event that zooms in by the largest step at screen point `(250, 250)`. -/
def scenarioZoomInDouble : WheelEventDouble where
  deltaY := -100
  clientX := 250
  clientY := 250

/-! ## Set helpers: membership and absence of repetitions -/

theorem setAdd_mem (s : List String) (a j : String) :
    j ∈ setAdd s a ↔ j ∈ s ∨ j = a := by
  unfold setAdd
  split
  · constructor
    · intro h; exact Or.inl h
    · rintro (h | rfl)
      · exact h
      · assumption
  · simp

theorem setAdd_nodup (s : List String) (a : String) (h : s.Nodup) :
    (setAdd s a).Nodup := by
  unfold setAdd
  split
  · exact h
  · rename_i hna
    rw [List.nodup_append]
    refine ⟨h, List.nodup_singleton a, ?_⟩
    intro x hx hy
    simp only [List.mem_singleton] at hy
    subst hy
    exact hna hx

theorem foldl_setAdd_mem (xs acc : List String) (j : String) :
    j ∈ xs.foldl setAdd acc ↔ j ∈ acc ∨ j ∈ xs := by
  induction xs generalizing acc with
  | nil => simp
  | cons a rest ih =>
      simp only [List.foldl_cons, ih, setAdd_mem, List.mem_cons]
      tauto

theorem foldl_setAdd_nodup (xs acc : List String) (h : acc.Nodup) :
    (xs.foldl setAdd acc).Nodup := by
  induction xs generalizing acc with
  | nil => simpa using h
  | cons a rest ih => exact ih _ (setAdd_nodup acc a h)

theorem newSet_mem (xs : List String) (j : String) : j ∈ newSet xs ↔ j ∈ xs := by
  simp [newSet, foldl_setAdd_mem]

theorem newSet_nodup (xs : List String) : (newSet xs).Nodup :=
  foldl_setAdd_nodup xs [] List.nodup_nil

/-! ## DELETE_NODE -/

/-- C1: `DELETE_NODE` with payload `i` keeps exactly the nodes whose id is not
`i` and exactly the edges whose source and target are both not `i`, in their
original order, and the new selection is a set that holds exactly the members
of the old selection other than `i`; every other field is as before. -/
theorem deleteNode_spec (s : State) (i : String) :
    (reducer s (.deleteNode i)).nodes = s.nodes.filter (fun n => decide (n.id ≠ i)) ∧
    (reducer s (.deleteNode i)).edges =
      s.edges.filter (fun e => decide (e.source ≠ i ∧ e.target ≠ i)) ∧
    (∀ j, j ∈ (reducer s (.deleteNode i)).selectedNodes ↔ j ∈ s.selectedNodes ∧ j ≠ i) ∧
    (reducer s (.deleteNode i)).selectedNodes.Nodup ∧
    (∀ n ∈ s.nodes, n.id ≠ i → n ∈ (reducer s (.deleteNode i)).nodes) ∧
    (∀ e ∈ s.edges, e.source ≠ i → e.target ≠ i → e ∈ (reducer s (.deleteNode i)).edges) ∧
    (reducer s (.deleteNode i)).viewport = s.viewport ∧
    (reducer s (.deleteNode i)).connectingEdge = s.connectingEdge ∧
    (reducer s (.deleteNode i)).isConnecting = s.isConnecting := by
  refine ⟨rfl, ?_, ?_, ?_, ?_, ?_, rfl, rfl, rfl⟩
  · simp only [reducer]
    congr 1
    funext e
    simp [Bool.decide_and]
  · intro j
    simp only [reducer, newSet_mem, List.mem_filter, decide_eq_true_eq]
  · exact newSet_nodup _
  · intro n hn hne
    simp only [reducer, List.mem_filter, decide_eq_true_eq]
    exact ⟨hn, hne⟩
  · intro e he h1 h2
    simp only [reducer, List.mem_filter, Bool.and_eq_true, decide_eq_true_eq]
    exact ⟨he, h1, h2⟩

/-- Scenario: deleting A from the graph A, B, C with the edge from A to B and A selected. -/
theorem deleteNode_spec_witness :
    (reducer scenarioState (.deleteNode "A")).nodes = [scenarioNodeB, scenarioNodeC] ∧
    (reducer scenarioState (.deleteNode "A")).edges = [] ∧
    ¬ ("A" ∈ (reducer scenarioState (.deleteNode "A")).selectedNodes) := by
  have h := deleteNode_spec scenarioState "A"
  refine ⟨h.1.trans rfl, h.2.1.trans rfl, ?_⟩
  intro hA
  exact ((h.2.2.1 "A").1 hA).2 rfl

/-! ## Reachable states: dangling edges -/

theorem nodeIds_updateNode (s : State) (p : NodePatch) :
    nodeIds (reducer s (.updateNode p)) = nodeIds s := by
  simp only [nodeIds, reducer, List.map_map]
  apply List.map_congr_left
  intro n _
  simp only [Function.comp]
  split
  · rename_i h
    simp [mergeNode, h]
  · rfl

theorem noDangling_step (s : State) (a : Action) (hs : NoDanglingEdges s)
    (ha : endpointsPresent s a) : NoDanglingEdges (reducer s a) := by
  cases a with
  | addNode node =>
      intro e he
      have h := hs e he
      simp only [nodeIds, reducer, List.map_append, List.mem_append] at h ⊢
      exact ⟨Or.inl h.1, Or.inl h.2⟩
  | updateNode p =>
      intro e he
      rw [nodeIds_updateNode]
      exact hs e he
  | deleteNode id =>
      intro e he
      simp only [reducer, List.mem_filter, Bool.and_eq_true, decide_eq_true_eq] at he
      obtain ⟨hmem, h1, h2⟩ := he
      have h := hs e hmem
      simp only [nodeIds, reducer, List.mem_map, List.mem_filter, decide_eq_true_eq] at h ⊢
      obtain ⟨⟨n1, hn1, e1⟩, ⟨n2, hn2, e2⟩⟩ := h
      exact ⟨⟨n1, ⟨hn1, by rw [e1]; exact h1⟩, e1⟩, ⟨n2, ⟨hn2, by rw [e2]; exact h2⟩, e2⟩⟩
  | addEdge edge =>
      intro e he
      simp only [reducer, List.mem_append, List.mem_singleton] at he
      rcases he with he | rfl
      · exact hs e he
      · exact ha
  | updateEdge p =>
      intro e he
      simp only [reducer, List.mem_map] at he
      obtain ⟨e0, he0, rfl⟩ := he
      have h := hs e0 he0
      split
      · constructor
        · show p.source.getD e0.source ∈ nodeIds s
          cases hp : p.source with
          | none => exact h.1
          | some v => exact ha.1 v hp
        · show p.target.getD e0.target ∈ nodeIds s
          cases hp : p.target with
          | none => exact h.2
          | some v => exact ha.2 v hp
      · exact h
  | deleteEdge id =>
      intro e he
      simp only [reducer, List.mem_filter] at he
      exact hs e he.1
  | endConnecting b i now =>
      cases hc : s.connectingEdge with
      | none =>
          have : reducer s (.endConnecting b i now) = s := by simp [reducer, hc]
          rw [this]; exact hs
      | some c =>
          intro e he
          simp only [reducer, hc, List.mem_append, List.mem_singleton] at he
          have hn : nodeIds (reducer s (.endConnecting b i now)) = nodeIds s := by
            simp [nodeIds, reducer, hc]
          rw [hn]
          rcases he with he | rfl
          · exact hs e he
          · exact ⟨ha.2 c hc, ha.1⟩
  | updateViewport p => exact hs
  | selectNode id => exact hs
  | deselectNode id => exact hs
  | deselectAll => exact hs
  | startConnecting a b c => exact hs
  | updateConnectingPosition p => exact hs
  | clearConnecting => exact hs
  | setHoveredHandle h => exact hs
  | clearHoveredHandle => exact hs
  | startExecution => exact hs
  | updateExecutionStatus p => exact hs
  | endExecution r => exact hs
  | clearExecution => exact hs
  | unknown => exact hs

theorem noDangling_run (acts : List Action) :
    ∀ s : State, NoDanglingEdges s → Guarded endpointsPresent s acts →
      NoDanglingEdges (dispatchAll s acts) := by
  induction acts with
  | nil => intro s hs _; exact hs
  | cons a rest ih =>
      intro s hs hg
      exact ih (reducer s a) (noDangling_step s a hs hg.1) hg.2

theorem noDangling_initial : NoDanglingEdges initialState := by
  intro e he
  cases he

/-- C2 (as stated): one `addEdge` dispatched to the initial empty state already
leaves an edge whose source and target are not ids of any node. -/
theorem noDangling_fails_after_addEdge :
    ¬ NoDanglingEdges (dispatchAll initialState
      [.addEdge { id := "e1", source := "A", sourceHandle := "out",
                  target := "B", targetHandle := "in" }]) := by
  intro h
  have h1 := (h { id := "e1", source := "A", sourceHandle := "out",
                  target := "B", targetHandle := "in" }
    (by simp [dispatchAll, reducer, initialState])).1
  simp [dispatchAll, reducer, initialState, nodeIds] at h1

/-- C2 (amended): in every state reached from the initial empty state by store
transitions whose edge actions (`addEdge`, `updateEdge`, `endConnecting`) name
only nodes present when they are dispatched, every edge starts and ends at the
id of a present node; all other transitions are unrestricted. -/
theorem noDangling_reachable (acts : List Action)
    (h : Guarded endpointsPresent initialState acts) :
    NoDanglingEdges (dispatchAll initialState acts) :=
  noDangling_run acts initialState noDangling_initial h

/-- The scenario run: build A, B and the edge, start and abort a gesture, delete A. -/
theorem noDangling_reachable_witness :
    Guarded endpointsPresent initialState scenarioRun ∧
    NoDanglingEdges (dispatchAll initialState scenarioRun) :=
  ⟨⟨trivial, trivial, ⟨by decide, by decide⟩, trivial, trivial, trivial, trivial⟩,
   noDangling_reachable scenarioRun
    ⟨trivial, trivial, ⟨by decide, by decide⟩, trivial, trivial, trivial, trivial⟩⟩

/-! ## Reachable states: one incoming edge per input port -/

theorem portOccupied_eq_false (edges : List Edge) (b i : String)
    (h : portOccupied edges b i = false) :
    ∀ f ∈ edges, ¬ (f.target = b ∧ f.targetHandle = i) := by
  intro f hf hfb
  have : portOccupied edges b i = true := by
    simp only [portOccupied, List.any_eq_true, Bool.and_eq_true, decide_eq_true_eq]
    exact ⟨f, hf, hfb⟩
  rw [h] at this
  cases this

theorem singleIncoming_append (edges : List Edge) (e : Edge)
    (hs : edges.Pairwise (fun a b => ¬ SameInputPort a b))
    (hfree : portOccupied edges e.target e.targetHandle = false) :
    (edges ++ [e]).Pairwise (fun a b => ¬ SameInputPort a b) := by
  rw [List.pairwise_append]
  refine ⟨hs, List.pairwise_singleton _ _, ?_⟩
  intro a ha b hb
  simp only [List.mem_singleton] at hb
  subst hb
  exact portOccupied_eq_false edges b.target b.targetHandle hfree a ha

theorem singleIncoming_step (s : State) (a : Action) (hs : SingleIncoming s)
    (ha : targetFree s a) : SingleIncoming (reducer s a) := by
  cases a with
  | addEdge edge => exact singleIncoming_append s.edges edge hs ha
  | updateEdge p =>
      obtain ⟨ht, hh⟩ := ha
      refine List.Pairwise.map _ ?_ hs
      intro x y hxy hxy2
      apply hxy
      have key : ∀ z : Edge,
          (if z.id = p.id then mergeEdge z p else z).target = z.target ∧
          (if z.id = p.id then mergeEdge z p else z).targetHandle = z.targetHandle := by
        intro z
        split
        · simp [mergeEdge, ht, hh]
        · exact ⟨rfl, rfl⟩
      unfold SameInputPort at hxy2 ⊢
      rw [(key x).1, (key x).2, (key y).1, (key y).2] at hxy2
      exact hxy2
  | deleteNode id => exact List.Pairwise.filter _ hs
  | deleteEdge id => exact List.Pairwise.filter _ hs
  | endConnecting b i now =>
      cases hc : s.connectingEdge with
      | none =>
          have : reducer s (.endConnecting b i now) = s := by simp [reducer, hc]
          rw [this]; exact hs
      | some c =>
          have he : (reducer s (.endConnecting b i now)).edges = s.edges ++
              [{ id := newEdgeId now, source := c.source, sourceHandle := c.sourceHandle,
                 target := b, targetHandle := i }] := by
            simp [reducer, hc]
          unfold SingleIncoming
          rw [he]
          exact singleIncoming_append s.edges _ hs ha
  | addNode node => exact hs
  | updateNode p => exact hs
  | updateViewport p => exact hs
  | selectNode id => exact hs
  | deselectNode id => exact hs
  | deselectAll => exact hs
  | startConnecting a b c => exact hs
  | updateConnectingPosition p => exact hs
  | clearConnecting => exact hs
  | setHoveredHandle h => exact hs
  | clearHoveredHandle => exact hs
  | startExecution => exact hs
  | updateExecutionStatus p => exact hs
  | endExecution r => exact hs
  | clearExecution => exact hs
  | unknown => exact hs

theorem singleIncoming_run (acts : List Action) :
    ∀ s : State, SingleIncoming s → Guarded targetFree s acts →
      SingleIncoming (dispatchAll s acts) := by
  induction acts with
  | nil => intro s hs _; exact hs
  | cons a rest ih =>
      intro s hs hg
      exact ih (reducer s a) (singleIncoming_step s a hs hg.1) hg.2

/-- C3 (as stated): two `addEdge` transitions from the initial empty state leave
two edges that end at the same input port `("B", "in")`. -/
theorem singleIncoming_fails_after_two_addEdge :
    ¬ SingleIncoming (dispatchAll initialState
      [.addEdge { id := "e1", source := "A", sourceHandle := "out",
                  target := "B", targetHandle := "in" },
       .addEdge { id := "e2", source := "C", sourceHandle := "out",
                  target := "B", targetHandle := "in" }]) := by
  simp [SingleIncoming, SameInputPort, dispatchAll, reducer, initialState]

/-- C3 (amended): in every state reached from the initial empty state by store
transitions in which each `addEdge` and each `endConnecting` is dispatched only
when no existing edge ends at the new edge's `(target, targetHandle)` (the test
`CognotHandle.jsx` makes before it calls `endConnecting`) and each `updateEdge`
carries no `target` and no `targetHandle`, no two edges at different places of
the edge list end at the same `(target, targetHandle)`. -/
theorem singleIncoming_reachable (acts : List Action)
    (h : Guarded targetFree initialState acts) :
    SingleIncoming (dispatchAll initialState acts) :=
  singleIncoming_run acts initialState List.Pairwise.nil h

/-- A run with `addEdge`, a committed gesture at a free port, an edge update and a delete. -/
theorem singleIncoming_reachable_witness :
    Guarded targetFree initialState scenarioEdgeRun ∧
    SingleIncoming (dispatchAll initialState scenarioEdgeRun) :=
  ⟨⟨rfl, trivial, rfl, ⟨rfl, rfl⟩, trivial, trivial⟩,
   singleIncoming_reachable scenarioEdgeRun
    ⟨rfl, trivial, rfl, ⟨rfl, rfl⟩, trivial, trivial⟩⟩

/-! ## Finishing a connection gesture -/

theorem handleMouseUp_commit_iff (n : String) (edges : List Edge)
    (target : Option Element) (now : Nat) (b i : String) (t : Nat) :
    Action.endConnecting b i t ∈ CognotHandle.handleMouseUp n edges target now ↔
      ∃ el, target = some el ∧ "cognot-handle" ∈ el.classList ∧ el.handleType = "input" ∧
        el.nodeId ≠ n ∧ portOccupied edges el.nodeId el.handleId = false ∧
        b = el.nodeId ∧ i = el.handleId ∧ t = now := by
  unfold CognotHandle.handleMouseUp
  cases target with
  | none => simp
  | some el =>
      dsimp only
      by_cases h1 : "cognot-handle" ∈ el.classList
      · by_cases h2 : el.handleType = "input" ∧ el.nodeId ≠ n ∧
            portOccupied edges el.nodeId el.handleId = false
        · rw [if_pos h1, if_pos h2]
          constructor
          · intro hm
            simp only [List.singleton_append, List.mem_cons, Action.endConnecting.injEq,
              reduceCtorEq, List.mem_singleton, or_false, List.not_mem_nil] at hm
            obtain ⟨rfl, rfl, rfl⟩ := hm
            exact ⟨el, rfl, h1, h2.1, h2.2.1, h2.2.2, rfl, rfl, rfl⟩
          · rintro ⟨el2, hel, -, -, -, -, rfl, rfl, rfl⟩
            cases hel
            simp
        · rw [if_pos h1, if_neg h2]
          constructor
          · intro hm
            simp at hm
          · rintro ⟨el2, hel, -, h3, h4, h5, -⟩
            cases hel
            exact absurd ⟨h3, h4, h5⟩ h2
      · rw [if_neg h1]
        constructor
        · intro hm
          simp at hm
        · rintro ⟨el2, hel, h3, -⟩
          cases hel
          exact absurd h3 h1

theorem handleMouseUp_abort (s : State) (n : String) (target : Option Element) (now : Nat)
    (h : ¬ ∃ el, target = some el ∧ "cognot-handle" ∈ el.classList ∧
        el.handleType = "input" ∧ el.nodeId ≠ n ∧
        portOccupied s.edges el.nodeId el.handleId = false) :
    (dispatchAll s (CognotHandle.handleMouseUp n s.edges target now)).edges = s.edges ∧
    (dispatchAll s (CognotHandle.handleMouseUp n s.edges target now)).connectingEdge = none ∧
    (dispatchAll s (CognotHandle.handleMouseUp n s.edges target now)).isConnecting = false := by
  have hl : CognotHandle.handleMouseUp n s.edges target now = [Action.clearConnecting] := by
    unfold CognotHandle.handleMouseUp
    cases target with
    | none => rfl
    | some el =>
        dsimp only
        by_cases h1 : "cognot-handle" ∈ el.classList
        · by_cases h2 : el.handleType = "input" ∧ el.nodeId ≠ n ∧
              portOccupied s.edges el.nodeId el.handleId = false
          · exact absurd ⟨el, rfl, h1, h2.1, h2.2.1, h2.2.2⟩ h
          · rw [if_pos h1, if_neg h2]; rfl
        · rw [if_neg h1]; rfl
  rw [hl]
  exact ⟨rfl, rfl, rfl⟩

/-- C4: the per-handle pointer-up of `CognotNode.jsx` dispatches `endConnecting`
without the self-loop test and without the occupied-port test. With the edge
from `(A, out)` to `(B, in)` present and a gesture started at `(C, out)`, a
pointer-up on the input `in` of B adds a second edge ending at `(B, in)`, while
the pointer-up of `CognotHandle.jsx` on the same element leaves the edge list
unchanged; and a gesture started at `(C, out)` and released on the input `in`
of C itself adds an edge from C to C. -/
theorem nodeHandleMouseUp_skips_checks :
    (dispatchAll (reducer scenarioState (.startConnecting "C" "out" { x := 10, y := 230 }))
        (CognotNode.handleHandleMouseUp "B" "in" "input" 7)).edges =
      [scenarioEdge,
       { id := newEdgeId 7, source := "C", sourceHandle := "out",
         target := "B", targetHandle := "in" }] ∧
    ¬ SingleIncoming
      (dispatchAll (reducer scenarioState (.startConnecting "C" "out" { x := 10, y := 230 }))
        (CognotNode.handleHandleMouseUp "B" "in" "input" 7)) ∧
    (dispatchAll (reducer scenarioState (.startConnecting "C" "out" { x := 10, y := 230 }))
        (CognotHandle.handleMouseUp "C" scenarioState.edges (some scenarioInputOfB) 7)).edges =
      [scenarioEdge] ∧
    (dispatchAll (reducer scenarioState (.startConnecting "C" "out" { x := 10, y := 230 }))
        (CognotNode.handleHandleMouseUp "C" "in" "input" 8)).edges =
      [scenarioEdge,
       { id := newEdgeId 8, source := "C", sourceHandle := "out",
         target := "C", targetHandle := "in" }] := by
  refine ⟨rfl, ?_, rfl, rfl⟩
  simp [SingleIncoming, SameInputPort, dispatchAll, reducer, scenarioState, scenarioEdge,
    CognotNode.handleHandleMouseUp, initialState]

/-! ## END_CONNECTING -/

/-- C5: when a connection is in progress (`connectingEdge` is `c`),
`END_CONNECTING` with target `(b, i)` returns the state whose edge list is the
old one followed by one new edge from `(c.source, c.sourceHandle)` to `(b, i)`,
with `connectingEdge` null, `isConnecting` false and every other field as
before; when `connectingEdge` is null it returns the state unchanged. -/
theorem endConnecting_spec (s : State) (b i : String) (now : Nat) :
    (∀ c, s.connectingEdge = some c →
      reducer s (.endConnecting b i now) =
        { s with
          edges := s.edges ++ [{ id := newEdgeId now, source := c.source,
                                 sourceHandle := c.sourceHandle, target := b,
                                 targetHandle := i }]
          isConnecting := false
          connectingEdge := none }) ∧
    (s.connectingEdge = none → reducer s (.endConnecting b i now) = s) := by
  constructor
  · intro c hc
    simp [reducer, hc]
  · intro hc
    simp [reducer, hc]

/-- Scenario: start at `(A, out)`, end on `(B, in)`; and `END_CONNECTING` on the idle initial state. -/
theorem endConnecting_spec_witness :
    scenarioConnecting.connectingEdge =
      some { source := "A", sourceHandle := "out", sourcePosition := { x := 200, y := 30 },
             targetPosition := { x := 200, y := 30 } } ∧
    (reducer scenarioConnecting (.endConnecting "B" "in" 1)).edges =
      [{ id := newEdgeId 1, source := "A", sourceHandle := "out",
         target := "B", targetHandle := "in" }] ∧
    (reducer scenarioConnecting (.endConnecting "B" "in" 1)).connectingEdge = none ∧
    (reducer scenarioConnecting (.endConnecting "B" "in" 1)).isConnecting = false ∧
    initialState.connectingEdge = none ∧
    reducer initialState (.endConnecting "B" "in" 1) = initialState := by
  have h := (endConnecting_spec scenarioConnecting "B" "in" 1).1 _ rfl
  have h0 := (endConnecting_spec initialState "B" "in" 1).2 rfl
  refine ⟨rfl, ?_, ?_, ?_, rfl, h0⟩
  · rw [h]; rfl
  · rw [h]
  · rw [h]

/-! ## Viewport transform -/

/-- C6: for a viewport with `zoom > 0`, mapping a screen point to world
coordinates (as the canvas does) and back through the transform layer gives the
point itself, over exact arithmetic. -/
theorem worldToScreen_screenToWorld (v : Viewport) (p : Position) (hz : 0 < v.zoom) :
    worldToScreen v (screenToWorld v p) = p := by
  have hne : v.zoom ≠ 0 := ne_of_gt hz
  cases p with
  | mk px py =>
      simp only [worldToScreen, screenToWorld, translate, scale, Position.mk.injEq]
      constructor <;> field_simp

/-- Round trip of the screen point `(100, 100)` under pan `(50, -20)` and zoom `2`. -/
theorem worldToScreen_screenToWorld_witness :
    (0 : ℚ) < 2 ∧
    worldToScreen { x := 50, y := -20, zoom := 2 }
        (screenToWorld { x := 50, y := -20, zoom := 2 } { x := 100, y := 100 }) =
      { x := 100, y := 100 } :=
  ⟨by norm_num,
   worldToScreen_screenToWorld { x := 50, y := -20, zoom := 2 } { x := 100, y := 100 }
    (by norm_num)⟩

theorem newZoom_mem (v : Viewport) (e : WheelEvent) :
    1 / 10 ≤ newZoom v e ∧ newZoom v e ≤ 10 := by
  unfold newZoom
  constructor
  · exact le_max_left _ _
  · apply max_le
    · norm_num
    · exact min_le_left _ _

theorem wheel_zoom (s : State) (input : Option Rect × WheelEvent) :
    (wheel s input).viewport.zoom = s.viewport.zoom ∨
    (wheel s input).viewport.zoom = newZoom s.viewport input.2 := by
  unfold wheel handleWheel
  split
  · exact Or.inl rfl
  · cases input.1 with
    | none => exact Or.inl rfl
    | some rect => exact Or.inr rfl

theorem wheel_zoom_mem (s : State) (input : Option Rect × WheelEvent)
    (h : 1 / 10 ≤ s.viewport.zoom ∧ s.viewport.zoom ≤ 10) :
    1 / 10 ≤ (wheel s input).viewport.zoom ∧ (wheel s input).viewport.zoom ≤ 10 := by
  rcases wheel_zoom s input with h1 | h1
  · rw [h1]; exact h
  · rw [h1]; exact newZoom_mem _ _

/-- C7: when the zoom of the viewport lies in `[0.1, 10]`, it still lies in
`[0.1, 10]` after any finite sequence of wheel events, whatever their `deltaY`,
pointer position and canvas rectangle. -/
theorem wheelAll_zoom_mem (inputs : List (Option Rect × WheelEvent)) (s : State)
    (h : 1 / 10 ≤ s.viewport.zoom ∧ s.viewport.zoom ≤ 10) :
    1 / 10 ≤ (wheelAll s inputs).viewport.zoom ∧ (wheelAll s inputs).viewport.zoom ≤ 10 := by
  induction inputs generalizing s with
  | nil => exact h
  | cons input rest ih => exact ih (wheel s input) (wheel_zoom_mem s input h)

/-- Three wheel events from the initial viewport, one of them with no canvas element. -/
theorem wheelAll_zoom_mem_witness :
    (1 / 10 ≤ initialState.viewport.zoom ∧ initialState.viewport.zoom ≤ 10) ∧
    1 / 10 ≤ (wheelAll initialState
        [(some scenarioRect, scenarioZoomIn), (none, scenarioZoomOut),
         (some scenarioRect, scenarioZoomIn)]).viewport.zoom ∧
    (wheelAll initialState
        [(some scenarioRect, scenarioZoomIn), (none, scenarioZoomOut),
         (some scenarioRect, scenarioZoomIn)]).viewport.zoom ≤ 10 :=
  ⟨by norm_num [initialState],
   wheelAll_zoom_mem _ initialState (by norm_num [initialState])⟩

theorem newZoom_pos (v : Viewport) (e : WheelEvent) : 0 < newZoom v e :=
  lt_of_lt_of_le (by norm_num) (newZoom_mem v e).1

theorem wheel_changed (s : State) (rect : Rect) (e : WheelEvent)
    (hchg : newZoom s.viewport e ≠ s.viewport.zoom) :
    (wheel s (some rect, e)).viewport =
      { x := (e.clientX - rect.left) -
          ((e.clientX - rect.left) - s.viewport.x) / s.viewport.zoom * newZoom s.viewport e
        y := (e.clientY - rect.top) -
          ((e.clientY - rect.top) - s.viewport.y) / s.viewport.zoom * newZoom s.viewport e
        zoom := newZoom s.viewport e } := by
  unfold wheel handleWheel
  rw [if_neg hchg]
  rfl

/-- C8 (amended): over exact arithmetic, for a viewport with `zoom > 0` and a
wheel event that changes the zoom, the new pan is `newX = mouseX - worldX * newZoom`, `newY = mouseY - worldY * newZoom`
and the world point under the pointer `(mouseX, mouseY)` is the same before and
after the step. -/
theorem wheel_keeps_point_under_pointer (s : State) (rect : Rect) (e : WheelEvent)
    (hz : 0 < s.viewport.zoom)
    (hchg : (wheel s (some rect, e)).viewport.zoom ≠ s.viewport.zoom) :
    (wheel s (some rect, e)).viewport.x =
      (e.clientX - rect.left) -
        (screenToWorld s.viewport
          { x := e.clientX - rect.left, y := e.clientY - rect.top }).x *
        (wheel s (some rect, e)).viewport.zoom ∧
    (wheel s (some rect, e)).viewport.y =
      (e.clientY - rect.top) -
        (screenToWorld s.viewport
          { x := e.clientX - rect.left, y := e.clientY - rect.top }).y *
        (wheel s (some rect, e)).viewport.zoom ∧
    screenToWorld (wheel s (some rect, e)).viewport
        { x := e.clientX - rect.left, y := e.clientY - rect.top } =
      screenToWorld s.viewport { x := e.clientX - rect.left, y := e.clientY - rect.top } := by
  have hnz : newZoom s.viewport e ≠ s.viewport.zoom := by
    intro heq
    apply hchg
    rcases wheel_zoom s (some rect, e) with h1 | h1
    · exact h1
    · rw [h1]; exact heq
  have hpos : newZoom s.viewport e ≠ 0 := ne_of_gt (newZoom_pos _ _)
  have hne : s.viewport.zoom ≠ 0 := ne_of_gt hz
  rw [wheel_changed s rect e hnz]
  refine ⟨rfl, rfl, ?_⟩
  simp only [screenToWorld, Position.mk.injEq]
  constructor <;> (field_simp; ring)

/-- Zooming in at `(100, 100)` from the initial viewport: zoom `11/10`, same world point. -/
theorem wheel_keeps_point_under_pointer_witness :
    (wheel initialState (some scenarioRect, scenarioZoomIn)).viewport.zoom = 11 / 10 ∧
    screenToWorld (wheel initialState (some scenarioRect, scenarioZoomIn)).viewport
        { x := scenarioZoomIn.clientX - scenarioRect.left,
          y := scenarioZoomIn.clientY - scenarioRect.top } =
      screenToWorld initialState.viewport
        { x := scenarioZoomIn.clientX - scenarioRect.left,
          y := scenarioZoomIn.clientY - scenarioRect.top } := by
  have hzoom : (wheel initialState (some scenarioRect, scenarioZoomIn)).viewport.zoom =
      11 / 10 := by
    norm_num [wheel, handleWheel, newZoom, zoomFactor, normalizedDelta, zoomSpeed,
      scenarioZoomIn, scenarioRect, initialState, dispatchAll, reducer, mergeViewport]
  refine ⟨hzoom, ?_⟩
  exact (wheel_keeps_point_under_pointer initialState scenarioRect scenarioZoomIn
    (by norm_num [initialState])
    (by rw [hzoom]; norm_num [initialState])).2.2

/-- C9: from a viewport with `zoom > 0`, a wheel step followed by a second wheel
step at the same pointer position whose zoom factor is the exact inverse of the
first restores `x`, `y` and `zoom`, provided neither step is clamped (both
products stay in `[0.1, 10]`); over exact arithmetic. -/
theorem wheel_inverse_restores (s : State) (rect : Rect) (e1 e2 : WheelEvent)
    (hz : 0 < s.viewport.zoom)
    (hx : e2.clientX = e1.clientX) (hy : e2.clientY = e1.clientY)
    (hinv : zoomFactor e1 * zoomFactor e2 = 1)
    (h1 : 1 / 10 ≤ s.viewport.zoom * zoomFactor e1 ∧ s.viewport.zoom * zoomFactor e1 ≤ 10)
    (h2 : 1 / 10 ≤ s.viewport.zoom * zoomFactor e1 * zoomFactor e2 ∧
          s.viewport.zoom * zoomFactor e1 * zoomFactor e2 ≤ 10) :
    (wheel (wheel s (some rect, e1)) (some rect, e2)).viewport = s.viewport := by
  have hne : s.viewport.zoom ≠ 0 := ne_of_gt hz
  have hz1 : newZoom s.viewport e1 = s.viewport.zoom * zoomFactor e1 := by
    unfold newZoom
    rw [min_eq_right h1.2, max_eq_right h1.1]
  by_cases hf : zoomFactor e1 = 1
  · have hf2 : zoomFactor e2 = 1 := by rw [hf, one_mul] at hinv; exact hinv
    have hs1 : wheel s (some rect, e1) = s := by
      unfold wheel handleWheel
      rw [if_pos (by rw [hz1, hf, mul_one])]
      rfl
    have hz2 : newZoom s.viewport e2 = s.viewport.zoom := by
      unfold newZoom
      rw [hf, mul_one] at h1
      rw [hf2, mul_one, min_eq_right h1.2, max_eq_right h1.1]
    rw [hs1]
    unfold wheel handleWheel
    rw [if_pos hz2]
    rfl
  · have hchg1 : newZoom s.viewport e1 ≠ s.viewport.zoom := by
      rw [hz1]
      intro heq
      apply hf
      have : s.viewport.zoom * zoomFactor e1 = s.viewport.zoom * 1 := by rw [heq, mul_one]
      exact mul_left_cancel₀ hne this
    have hv1 := wheel_changed s rect e1 hchg1
    have hmul : s.viewport.zoom * zoomFactor e1 * zoomFactor e2 = s.viewport.zoom := by
      rw [mul_assoc, hinv, mul_one]
    have hz2 : newZoom (wheel s (some rect, e1)).viewport e2 = s.viewport.zoom := by
      unfold newZoom
      rw [hv1]
      show max (1 / 10) (min 10 (newZoom s.viewport e1 * zoomFactor e2)) = s.viewport.zoom
      rw [hz1, min_eq_right h2.2, max_eq_right h2.1, hmul]
    have hchg2 : newZoom (wheel s (some rect, e1)).viewport e2 ≠
        (wheel s (some rect, e1)).viewport.zoom := by
      rw [hz2, hv1]
      exact fun h => hchg1 h.symm
    rw [wheel_changed _ rect e2 hchg2, hz2, hv1, hz1, hx, hy]
    have hf1 : zoomFactor e1 ≠ 0 := by
      intro h0
      rw [h0, zero_mul] at hinv
      exact zero_ne_one hinv
    cases hv : s.viewport with
    | mk vx vy vz =>
        rw [hv] at hne
        simp only [Viewport.mk.injEq]
        refine ⟨?_, ?_, trivial⟩ <;> (field_simp; ring)

/-- Scenario: from `{0, 0, 1}`, zoom in at `(100, 100)` by `11/10`, then out by `10/11`. -/
theorem wheel_inverse_restores_witness :
    zoomFactor scenarioZoomIn = 11 / 10 ∧ zoomFactor scenarioZoomOut = 10 / 11 ∧
    (wheel (wheel initialState (some scenarioRect, scenarioZoomIn))
      (some scenarioRect, scenarioZoomOut)).viewport = { x := 0, y := 0, zoom := 1 } := by
  have f1 : zoomFactor scenarioZoomIn = 11 / 10 := by
    norm_num [zoomFactor, normalizedDelta, zoomSpeed, scenarioZoomIn]
  have f2 : zoomFactor scenarioZoomOut = 10 / 11 := by
    have habs : |(1000 / 11 : ℚ)| = 1000 / 11 := abs_of_pos (by norm_num)
    have hmin : min (1000 / 11 : ℚ) 100 = 1000 / 11 := min_eq_left (by norm_num)
    norm_num [zoomFactor, normalizedDelta, zoomSpeed, scenarioZoomOut, habs, hmin]
  refine ⟨f1, f2, ?_⟩
  exact wheel_inverse_restores initialState scenarioRect scenarioZoomIn scenarioZoomOut
    (by norm_num [initialState]) rfl rfl
    (by rw [f1, f2]; norm_num)
    (by rw [f1]; norm_num [initialState])
    (by rw [f1, f2]; norm_num [initialState])

/-! ## CLEAR_CONNECTING -/

/-- C10: `CLEAR_CONNECTING` applied to an idle state (`isConnecting` false,
`connectingEdge` null) returns a state equal to it in every field, and applied
twice to any state it gives the same state as applied once. -/
theorem clearConnecting_idempotent (s : State) :
    (s.isConnecting = false ∧ s.connectingEdge = none → reducer s .clearConnecting = s) ∧
    reducer (reducer s .clearConnecting) .clearConnecting = reducer s .clearConnecting := by
  constructor
  · rintro ⟨h1, h2⟩
    cases s
    simp only [reducer] at h1 h2 ⊢
    subst h1 h2
    rfl
  · rfl

/-- The idle initial state is fixed; clearing twice during a gesture equals clearing once. -/
theorem clearConnecting_idempotent_witness :
    (initialState.isConnecting = false ∧ initialState.connectingEdge = none) ∧
    reducer initialState .clearConnecting = initialState ∧
    reducer (reducer scenarioConnecting .clearConnecting) .clearConnecting =
      reducer scenarioConnecting .clearConnecting :=
  ⟨⟨rfl, rfl⟩, (clearConnecting_idempotent initialState).1 ⟨rfl, rfl⟩,
   (clearConnecting_idempotent scenarioConnecting).2⟩

/-! ## UPDATE_NODE -/

/-- C11: `UPDATE_NODE` with payload `p` maps the node list, in place and in
order, replacing each node whose id is `p.id` by its merge with `p` (a field
present in `p` overrides, an absent one is retained, the id stays) and leaving
every other node as it is; the count and the ids are preserved, the node list
is unchanged when no node has id `p.id`, and edges and selection never change. -/
theorem updateNode_spec (s : State) (p : NodePatch) :
    (reducer s (.updateNode p)).nodes =
      s.nodes.map (fun n => if n.id = p.id then mergeNode n p else n) ∧
    (∀ n : Node, n.id = p.id →
      (mergeNode n p).id = n.id ∧
      (mergeNode n p).type = (match p.type with | some v => v | none => n.type) ∧
      (mergeNode n p).position = (match p.position with | some v => some v | none => n.position) ∧
      (mergeNode n p).data = (match p.data with | some v => v | none => n.data)) ∧
    (reducer s (.updateNode p)).nodes.length = s.nodes.length ∧
    nodeIds (reducer s (.updateNode p)) = nodeIds s ∧
    ((∀ n ∈ s.nodes, n.id ≠ p.id) → reducer s (.updateNode p) = s) ∧
    (reducer s (.updateNode p)).edges = s.edges ∧
    (reducer s (.updateNode p)).selectedNodes = s.selectedNodes := by
  refine ⟨rfl, ?_, ?_, nodeIds_updateNode s p, ?_, rfl, rfl⟩
  · intro n hn
    refine ⟨hn.symm, ?_, rfl, ?_⟩
    · cases hp : p.type <;> simp [mergeNode, hp]
    · cases hp : p.data <;> simp [mergeNode, hp]
  · simp [reducer]
  · intro h
    have hmap : s.nodes.map (fun n => if n.id = p.id then mergeNode n p else n) = s.nodes := by
      conv_rhs => rw [← List.map_id s.nodes]
      apply List.map_congr_left
      intro n hn
      simp [h n hn]
    cases s
    simp only [reducer] at hmap ⊢
    rw [hmap]

/-- Moving B in the scenario graph, and a late patch for an id that is gone. -/
theorem updateNode_spec_witness :
    (reducer scenarioState (.updateNode scenarioMoveB)).nodes =
      [scenarioNodeA, { scenarioNodeB with position := some { x := 320, y := 40 } },
       scenarioNodeC] ∧
    (∀ n ∈ scenarioState.nodes, n.id ≠ scenarioLatePatch.id) ∧
    reducer scenarioState (.updateNode scenarioLatePatch) = scenarioState := by
  have h := updateNode_spec scenarioState scenarioMoveB
  have h2 := updateNode_spec scenarioState scenarioLatePatch
  have hno : ∀ n ∈ scenarioState.nodes, n.id ≠ scenarioLatePatch.id := by
    intro n hn
    simp only [scenarioState, List.mem_cons, List.mem_singleton, List.not_mem_nil,
      or_false] at hn
    rcases hn with rfl | rfl | rfl <;> decide
  exact ⟨h.1.trans rfl, hno, h2.2.2.2.2.1 hno⟩

/-! ## The collaborator-level `addNode` -/

theorem addNode_appends_one (s : State) (node : Node) (env : AddNodeEnv) :
    ∃ n, addNode s node env = [Action.addNode n] ∧
      (dispatchAll s (addNode s node env)).nodes = s.nodes ++ [n] ∧
      (n.id = node.id ∨ n.id = newNodeId env.now env.random) ∧
      (node.id ∉ nodeIds s → n.id = node.id) ∧
      (node.id ∈ nodeIds s → n.id = newNodeId env.now env.random) := by
  have hany : s.nodes.any (fun existingNode => decide (existingNode.id = node.id)) = true ↔
      node.id ∈ nodeIds s := by
    simp only [List.any_eq_true, decide_eq_true_eq, nodeIds, List.mem_map]
  unfold addNode
  by_cases hc : s.nodes.any (fun existingNode => decide (existingNode.id = node.id)) = true
  · have hin := hany.1 hc
    simp only [hc, if_true]
    cases hp : node.position with
    | some q =>
        simp only
        exact ⟨_, rfl, rfl, Or.inr rfl, fun h => absurd hin h, fun _ => rfl⟩
    | none =>
        simp only
        exact ⟨_, rfl, rfl, Or.inr rfl, fun h => absurd hin h, fun _ => rfl⟩
  · have hnin : node.id ∉ nodeIds s := fun h => hc (hany.2 h)
    simp only [hc]
    cases hp : node.position with
    | some q =>
        simp only [hp, Bool.false_eq_true, if_false]
        exact ⟨_, rfl, rfl, Or.inl rfl, fun _ => rfl, fun h => absurd h hnin⟩
    | none =>
        simp only [hp, Bool.false_eq_true, if_false]
        exact ⟨_, rfl, rfl, Or.inl rfl, fun _ => rfl, fun h => absurd h hnin⟩

theorem addNode_keeps_distinct (s : State) (node : Node) (env : AddNodeEnv)
    (hs : (nodeIds s).Nodup)
    (hfresh : node.id ∈ nodeIds s → newNodeId env.now env.random ∉ nodeIds s) :
    (nodeIds (dispatchAll s (addNode s node env))).Nodup := by
  obtain ⟨n, -, hn, -, h1, h2⟩ := addNode_appends_one s node env
  have hid : n.id ∉ nodeIds s := by
    by_cases hc : node.id ∈ nodeIds s
    · rw [h2 hc]; exact hfresh hc
    · rw [h1 hc]; exact hc
  simp only [nodeIds] at hs hid ⊢
  rw [hn, List.map_append, List.nodup_append]
  refine ⟨hs, List.nodup_singleton _, ?_⟩
  intro x hx hx2
  simp only [List.map_cons, List.map_nil, List.mem_singleton] at hx2
  subst hx2
  exact hid hx

/-- C12: `addNode` regenerates a colliding id from the clock and a random number
and does not test the new id. In the state with the distinct ids `A` and
`node_5_7`, adding a node with id `A` when the clock reads 5 and the random
number is 7 appends a second node with id `node_5_7`: the ids of the resulting
list are not pairwise distinct. -/
theorem addNode_regenerated_id_collides :
    (nodeIds scenarioDropped).Nodup ∧
    nodeIds scenarioDropped = ["A", "node_5_7"] ∧
    nodeIds (dispatchAll scenarioDropped (addNode scenarioDropped scenarioNodeA scenarioEnv)) =
      ["A", "node_5_7", "node_5_7"] ∧
    ¬ (nodeIds (dispatchAll scenarioDropped
        (addNode scenarioDropped scenarioNodeA scenarioEnv))).Nodup := by
  refine ⟨by decide, by decide, by decide, by decide⟩

/-! ## Reachable states: the selection -/

theorem selectionValid_step (s : State) (a : Action) (hs : SelectionValid s)
    (ha : selectsPresent s a) : SelectionValid (reducer s a) := by
  cases a with
  | addNode node =>
      intro j hj
      have h := hs j hj
      simp only [nodeIds, reducer, List.map_append, List.mem_append] at h ⊢
      exact Or.inl h
  | updateNode p =>
      intro j hj
      rw [nodeIds_updateNode]
      exact hs j hj
  | deleteNode id =>
      intro j hj
      simp only [reducer, newSet_mem, List.mem_filter, decide_eq_true_eq] at hj
      have h := hs j hj.1
      simp only [nodeIds, reducer, List.mem_map, List.mem_filter, decide_eq_true_eq] at h ⊢
      obtain ⟨n, hn, rfl⟩ := h
      exact ⟨n, ⟨hn, hj.2⟩, rfl⟩
  | selectNode id =>
      intro j hj
      simp only [reducer, newSet_mem, List.mem_append, List.mem_singleton] at hj
      rcases hj with hj | rfl
      · exact hs j hj
      · exact ha
  | deselectNode id =>
      intro j hj
      simp only [reducer, List.mem_filter, newSet_mem] at hj
      exact hs j hj.1
  | deselectAll =>
      intro j hj
      simp [reducer, newSet] at hj
  | endConnecting b i now =>
      cases hc : s.connectingEdge with
      | none =>
          have : reducer s (.endConnecting b i now) = s := by simp [reducer, hc]
          rw [this]; exact hs
      | some c =>
          intro j hj
          have h1 : (reducer s (.endConnecting b i now)).selectedNodes = s.selectedNodes := by
            simp [reducer, hc]
          have h2 : nodeIds (reducer s (.endConnecting b i now)) = nodeIds s := by
            simp [nodeIds, reducer, hc]
          rw [h1] at hj
          rw [h2]
          exact hs j hj
  | addEdge edge => exact hs
  | updateEdge p => exact hs
  | deleteEdge id => exact hs
  | updateViewport p => exact hs
  | startConnecting a b c => exact hs
  | updateConnectingPosition p => exact hs
  | clearConnecting => exact hs
  | setHoveredHandle h => exact hs
  | clearHoveredHandle => exact hs
  | startExecution => exact hs
  | updateExecutionStatus p => exact hs
  | endExecution r => exact hs
  | clearExecution => exact hs
  | unknown => exact hs

theorem selectionValid_run (acts : List Action) :
    ∀ s : State, SelectionValid s → Guarded selectsPresent s acts →
      SelectionValid (dispatchAll s acts) := by
  induction acts with
  | nil => intro s hs _; exact hs
  | cons a rest ih =>
      intro s hs hg
      exact ih (reducer s a) (selectionValid_step s a hs hg.1) hg.2

/-- C13 (as stated): `selectNode` dispatched to the initial empty state with any
id leaves a selection that holds an id of no node. -/
theorem selectionValid_fails_after_selectNode :
    ¬ SelectionValid (dispatchAll initialState [.selectNode "ghost"]) := by
  intro h
  have h1 := h "ghost" (by decide)
  simp [dispatchAll, reducer, initialState, nodeIds] at h1

/-- C13 (amended): in every state reached from the initial state by store
transitions in which each `selectNode` is dispatched with the id of a node
present at that moment, the selection is a subset of the ids of the nodes in
the node list; every other transition is unrestricted. -/
theorem selectionValid_reachable (acts : List Action)
    (h : Guarded selectsPresent initialState acts) :
    SelectionValid (dispatchAll initialState acts) :=
  selectionValid_run acts initialState (by intro j hj; cases hj) h

/-- The scenario run: add A and B, select and deselect, delete A. -/
theorem selectionValid_reachable_witness :
    Guarded selectsPresent initialState scenarioSelectRun ∧
    SelectionValid (dispatchAll initialState scenarioSelectRun) ∧
    (dispatchAll initialState scenarioSelectRun).selectedNodes = ["B"] :=
  ⟨⟨trivial, trivial, (by show _ ∈ nodeIds _; decide), (by show _ ∈ nodeIds _; decide),
    trivial, (by show _ ∈ nodeIds _; decide), trivial, trivial⟩,
   selectionValid_reachable scenarioSelectRun
    ⟨trivial, trivial, (by show _ ∈ nodeIds _; decide), (by show _ ∈ nodeIds _; decide),
     trivial, (by show _ ∈ nodeIds _; decide), trivial, trivial⟩,
   by decide⟩

/-! ## Anchor resolution -/

theorem findIndex_of_first (ports : List Port) (handleId : String) (k : Nat)
    (h : IsFirstIndex ports handleId k) :
    ports.any (fun port => decide (port.name = handleId)) = true ∧
    findIndex ports handleId = (k : Int) := by
  obtain ⟨hk, hbefore⟩ := h
  have hlt : k < ports.length := by
    by_contra hge
    rw [List.getElem?_eq_none (not_lt.mp hge)] at hk
    cases hk
  rw [List.getElem?_eq_getElem hlt] at hk
  simp only [Option.map, Option.some.injEq] at hk
  have hany : ports.any (fun port => decide (port.name = handleId)) = true := by
    simp only [List.any_eq_true, decide_eq_true_eq]
    exact ⟨ports[k], List.getElem_mem hlt, hk⟩
  refine ⟨hany, ?_⟩
  unfold findIndex
  rw [if_pos hany]
  congr 1
  rw [List.findIdx_eq hlt]
  refine ⟨by simpa using hk, ?_⟩
  intro j hj
  have hjl : j < ports.length := lt_trans hj hlt
  have hne := hbefore j hj
  rw [List.getElem?_eq_getElem hjl] at hne
  simp only [Option.map, ne_eq, Option.some.injEq] at hne
  simpa using hne

/-- C14: the settled-edge resolver takes the first node with the given id. When
the handle name is first found at index `k` of the node's declared inputs the
anchor is `(x, y + (k+1)*20)`; when it is not among the inputs and is first found
at index `k` of the declared outputs the anchor is `(x + 200, y + (k+1)*20)`;
there is no anchor when no node has the id or the node has no position. -/
theorem getHandlePosition_spec (nodes : List Node) (nodeId handleId : String) :
    (nodes.find? (fun n => decide (n.id = nodeId)) = none →
      CognotEdgeComponent.getHandlePosition nodes nodeId handleId = none) ∧
    (∀ node, nodes.find? (fun n => decide (n.id = nodeId)) = some node →
      node.position = none →
      CognotEdgeComponent.getHandlePosition nodes nodeId handleId = none) ∧
    (∀ node position inputs k,
      nodes.find? (fun n => decide (n.id = nodeId)) = some node →
      node.position = some position → node.data.inputs = some inputs →
      IsFirstIndex inputs handleId k →
      CognotEdgeComponent.getHandlePosition nodes nodeId handleId =
        some { x := position.x, y := position.y + .num (((k : ℚ) + 1) * 20) }) ∧
    (∀ node position outputs k,
      nodes.find? (fun n => decide (n.id = nodeId)) = some node →
      node.position = some position →
      (∀ inputs, node.data.inputs = some inputs → ∀ input ∈ inputs, input.name ≠ handleId) →
      node.data.outputs = some outputs → IsFirstIndex outputs handleId k →
      CognotEdgeComponent.getHandlePosition nodes nodeId handleId =
        some { x := position.x + .num 200, y := position.y + .num (((k : ℚ) + 1) * 20) }) := by
  refine ⟨?_, ?_, ?_, ?_⟩
  · intro h
    simp [CognotEdgeComponent.getHandlePosition, h]
  · intro node h hp
    simp [CognotEdgeComponent.getHandlePosition, h, hp]
  · intro node position inputs k h hp hi hk
    obtain ⟨hany, hidx⟩ := findIndex_of_first inputs handleId k hk
    have hdecl : isDeclaredInput node handleId = true := by
      simp only [isDeclaredInput, hi]
      exact hany
    simp only [CognotEdgeComponent.getHandlePosition, h, hp, hdecl, if_true,
      findIndexOrZero, hi, hidx, handleSpacing]
    push_cast
    rfl
  · intro node position outputs k h hp hni ho hk
    obtain ⟨-, hidx⟩ := findIndex_of_first outputs handleId k hk
    have hdecl : isDeclaredInput node handleId = false := by
      unfold isDeclaredInput
      cases hi : node.data.inputs with
      | none => rfl
      | some inputs =>
          simp only [List.any_eq_false, decide_eq_true_eq]
          exact fun input hin => hni inputs hi input hin
    simp only [CognotEdgeComponent.getHandlePosition, h, hp, hdecl, Bool.false_eq_true,
      if_false, findIndexOrZero, ho, hidx, handleSpacing, nodeWidth]
    push_cast
    rfl

/-- Anchors of the scenario graph: the input `in` of B, the output `out` of A, a
node that is missing. -/
theorem getHandlePosition_spec_witness :
    CognotEdgeComponent.getHandlePosition scenarioState.nodes "B" "in" =
      some { x := JSNumber.num 300, y := JSNumber.num 0 + .num (((0 : ℕ) + 1 : ℚ) * 20) } ∧
    CognotEdgeComponent.getHandlePosition scenarioState.nodes "A" "out" =
      some { x := JSNumber.num 0 + .num 200,
             y := JSNumber.num 0 + .num (((0 : ℕ) + 1 : ℚ) * 20) } ∧
    CognotEdgeComponent.getHandlePosition scenarioState.nodes "Z" "out" = none := by
  have hB := (getHandlePosition_spec scenarioState.nodes "B" "in").2.2.1
    scenarioNodeB { x := JSNumber.num 300, y := JSNumber.num 0 }
    [{ name := "in", type := "default" }] 0 (by decide) rfl rfl
    ⟨by decide, fun j hj => absurd hj (Nat.not_lt_zero j)⟩
  have hA := (getHandlePosition_spec scenarioState.nodes "A" "out").2.2.2
    scenarioNodeA { x := JSNumber.num 0, y := JSNumber.num 0 }
    [{ name := "out", type := "default" }] 0 (by decide) rfl
    (by intro inputs hi input hin
        have : inputs = [] := by
          have h2 : scenarioNodeA.data.inputs = some [] := rfl
          rw [h2] at hi
          exact (Option.some.inj hi).symm
        rw [this] at hin
        cases hin)
    rfl ⟨by decide, fun j hj => absurd hj (Nat.not_lt_zero j)⟩
  have hZ := (getHandlePosition_spec scenarioState.nodes "Z" "out").1 (by decide)
  exact ⟨hB, hA, hZ⟩

/-! ## The Bezier path -/

theorem getBezierPath_num (sx sy tx ty : ℚ) :
    getBezierPath (.num sx) (.num sy) (.num tx) (.num ty) =
      .cubic { x := .num sx, y := .num sy } { x := .num (sx + |tx - sx| / 2), y := .num sy }
        { x := .num ((sx + tx) / 2), y := .num ty } { x := .num tx, y := .num ty } := by
  have h2 : ((2 : ℕ) : ℚ) ≠ 0 := by norm_num
  have hdiv : ∀ q : ℚ, (JSNumber.num q / (2 : JSNumber)) = JSNumber.num (q / 2) := by
    intro q
    show JSNumber.div (JSNumber.num q) (JSNumber.num ((2 : ℕ) : ℚ)) = _
    simp only [JSNumber.div, h2, if_false]
    norm_num
  have hsub : (JSNumber.num tx - JSNumber.num sx) = JSNumber.num (tx - sx) := by
    show JSNumber.add (JSNumber.num tx) (JSNumber.neg (JSNumber.num sx)) = _
    simp only [JSNumber.neg, JSNumber.add, sub_eq_add_neg]
  have hadd : ∀ a b : ℚ, (JSNumber.num a + JSNumber.num b) = JSNumber.num (a + b) :=
    fun a b => rfl
  simp only [getBezierPath, JSNumber.isNaN, Bool.or_self, Bool.false_eq_true, if_false, hsub,
    JSNumber.abs, hdiv, hadd]

/-- C15 (amended): over exact arithmetic, for all finite coordinates
`getBezierPath` is the cubic from `(sx, sy)` to `(tx, ty)` with control points
`(sx + |tx - sx|/2, sy)` and `((sx + tx)/2, ty)`; each control point has the `y`
of its own endpoint and lies at horizontal distance exactly `|tx - sx|/2` from it. -/
theorem getBezierPath_spec (sx sy tx ty : ℚ) :
    getBezierPath (.num sx) (.num sy) (.num tx) (.num ty) =
      .cubic { x := .num sx, y := .num sy } { x := .num (sx + |tx - sx| / 2), y := .num sy }
        { x := .num ((sx + tx) / 2), y := .num ty } { x := .num tx, y := .num ty } ∧
    |(sx + |tx - sx| / 2) - sx| = |tx - sx| / 2 ∧
    |tx - (sx + tx) / 2| = |tx - sx| / 2 := by
  refine ⟨getBezierPath_num sx sy tx ty, ?_, ?_⟩
  · rw [add_sub_cancel_left]
    exact abs_of_nonneg (div_nonneg (abs_nonneg _) (by norm_num))
  · have h : tx - (sx + tx) / 2 = (tx - sx) / 2 := by ring
    rw [h, abs_div]
    norm_num

/-- C16 (amended): over exact arithmetic, for every finite source `(sx, sy)` and
target `(tx, ty)` with `tx ≠ sx`, whatever the vertical offset `ty - sy`, the
curve of `getBezierPath` has a horizontal tangent at both ends. -/
theorem horizontalTangents_of_ne (sx sy tx ty : ℚ) (h : tx ≠ sx) :
    HorizontalTangents (getBezierPath (.num sx) (.num sy) (.num tx) (.num ty)) := by
  have hd : tx - sx ≠ 0 := sub_ne_zero.mpr h
  rw [getBezierPath_num]
  simp only [HorizontalTangents, add_sub_cancel_left, sub_self, and_true]
  constructor
  · exact div_ne_zero (abs_ne_zero.mpr hd) (by norm_num)
  · have h2 : tx - (sx + tx) / 2 = (tx - sx) / 2 := by ring
    rw [h2]
    exact div_ne_zero hd (by norm_num)

/-- The curve from `(200, 20)` to `(300, 220)`: horizontal at both ends. -/
theorem horizontalTangents_of_ne_witness :
    (300 : ℚ) ≠ 200 ∧
    HorizontalTangents (getBezierPath (.num 200) (.num 20) (.num 300) (.num 220)) :=
  ⟨by norm_num, horizontalTangents_of_ne 200 20 300 220 (by norm_num)⟩

/-! ## The path of a settled edge -/

theorem isNaN_add_num (a : JSNumber) (q : ℚ) : (a + JSNumber.num q).isNaN = a.isNaN := by
  cases a <;> rfl

theorem getHandlePosition_found (nodes : List Node) (nodeId handleId : String)
    (node : Node) (position : Point)
    (hf : nodes.find? (fun n => decide (n.id = nodeId)) = some node)
    (hp : node.position = some position) :
    ∃ a, CognotEdgeComponent.getHandlePosition nodes nodeId handleId = some a ∧
      a.x.isNaN = position.x.isNaN ∧ a.y.isNaN = position.y.isNaN := by
  unfold CognotEdgeComponent.getHandlePosition
  simp only [hf, hp]
  split
  · exact ⟨_, rfl, rfl, isNaN_add_num _ _⟩
  · exact ⟨_, rfl, isNaN_add_num _ _, isNaN_add_num _ _⟩

theorem resolved_iff (nodes : List Node) (nodeId handleId : String) :
    Resolved nodes nodeId handleId ↔
      ∃ node position, nodes.find? (fun n => decide (n.id = nodeId)) = some node ∧
        node.position = some position ∧ position.x.isNaN = false ∧
        position.y.isNaN = false := by
  constructor
  · rintro ⟨a, ha, hx, hy⟩
    cases hf : nodes.find? (fun n => decide (n.id = nodeId)) with
    | none => simp [CognotEdgeComponent.getHandlePosition, hf] at ha
    | some node =>
        cases hp : node.position with
        | none => simp [CognotEdgeComponent.getHandlePosition, hf, hp] at ha
        | some position =>
            obtain ⟨b, hb, hbx, hby⟩ :=
              getHandlePosition_found nodes nodeId handleId node position hf hp
            rw [ha] at hb
            cases hb
            exact ⟨node, position, rfl, hp, hbx ▸ hx, hby ▸ hy⟩
  · rintro ⟨node, position, hf, hp, hx, hy⟩
    obtain ⟨b, hb, hbx, hby⟩ :=
      getHandlePosition_found nodes nodeId handleId node position hf hp
    exact ⟨b, hb, hbx.trans hx, hby.trans hy⟩

theorem not_resolved_of_unresolvable (nodes : List Node) (nodeId handleId : String)
    (h : Unresolvable nodes nodeId handleId) : ¬ Resolved nodes nodeId handleId := by
  rintro ⟨a, ha, hx, hy⟩
  rcases h with h | ⟨node, hn, hp⟩ | ⟨b, hb, hnan⟩
  · simp [CognotEdgeComponent.getHandlePosition, h] at ha
  · simp [CognotEdgeComponent.getHandlePosition, hn, hp] at ha
  · rw [ha] at hb
    cases hb
    rcases hnan with h1 | h1
    · rw [h1] at hx; cases hx
    · rw [h1] at hy; cases hy

theorem cacheHit_true (cache : PathCache) (edge : Edge) (nodes : List Node)
    (h : cacheHit cache edge nodes = true) :
    cache.path ≠ .empty ∧ SameKey cache edge nodes ∧
    (∃ n, nodes.find? (fun n => decide (n.id = edge.source)) = some n) ∧
    (∃ n, nodes.find? (fun n => decide (n.id = edge.target)) = some n) := by
  unfold cacheHit at h
  cases h1 : nodes.find? (fun n => decide (n.id = edge.source)) with
  | none => simp [h1] at h
  | some sourceNode =>
    cases h2 : nodes.find? (fun n => decide (n.id = edge.target)) with
    | none => simp [h1, h2] at h
    | some targetNode =>
      cases h3 : cache.currentNodes.find? (fun n => decide (n.id = edge.source)) with
      | none => simp [h1, h2, h3] at h
      | some cachedSourceNode =>
        cases h4 : cache.currentNodes.find? (fun n => decide (n.id = edge.target)) with
        | none => simp [h1, h2, h3, h4] at h
        | some cachedTargetNode =>
            simp only [h1, h2, h3, h4, Bool.and_eq_true, decide_eq_true_eq] at h
            obtain ⟨⟨⟨⟨⟨⟨⟨a1, a2⟩, a3⟩, a4⟩, a5⟩, a6⟩, a7⟩, a8⟩ := h
            refine ⟨a1, ⟨a2, a3, a4, a5, a6, ?_, ?_⟩, ⟨_, rfl⟩, ⟨_, rfl⟩⟩
            · simp [positionTextOf, positionOf, h1, h3, a7]
            · simp [positionTextOf, positionOf, h2, h4, a8]

theorem sameKey_of_unchanged (cache : PathCache) (edge : Edge) (nodes : List Node)
    (h : Unchanged cache edge nodes) : SameKey cache edge nodes := by
  obtain ⟨u1, u2, u3, u4, u5, u6, u7⟩ := h
  refine ⟨u1, u2, u3, u4, u5, ?_, ?_⟩
  · simp only [positionTextOf, u6]
  · simp only [positionTextOf, u7]

theorem json_eq_of_finite (a b : JSNumber) (h : a.json = b.json)
    (hn : b.isNaN = false) (hi : b.isInfinite = false) : a = b := by
  cases a <;> cases b <;>
    simp_all [JSNumber.json, JSNumber.isNaN, JSNumber.isInfinite]

theorem found_of_text (nodes cached : List Node) (nodeId : String) (c : Node)
    (hc : cached.find? (fun n => decide (n.id = nodeId)) = some c)
    (ht : positionTextOf nodes nodeId = positionTextOf cached nodeId) :
    ∃ n, nodes.find? (fun n => decide (n.id = nodeId)) = some n ∧
      positionJSON n.position = positionJSON c.position := by
  simp only [positionTextOf, positionOf, hc, Option.map] at ht
  cases hn : nodes.find? (fun n => decide (n.id = nodeId)) with
  | none => simp [hn] at ht
  | some n =>
      simp only [hn, Option.some.injEq] at ht
      exact ⟨n, rfl, ht⟩

theorem positionOf_eq_of_text (nodes cached : List Node) (nodeId handleId : String)
    (hr : Resolved cached nodeId handleId) (hfin : NoInfinite cached nodeId)
    (ht : positionTextOf nodes nodeId = positionTextOf cached nodeId) :
    positionOf nodes nodeId = positionOf cached nodeId := by
  obtain ⟨c, position, hc, hcp, hx, hy⟩ := (resolved_iff cached nodeId handleId).1 hr
  obtain ⟨hix, hiy⟩ := hfin c position hc hcp
  obtain ⟨n, hn, hj⟩ := found_of_text nodes cached nodeId c hc ht
  simp only [positionOf, hn, hc, Option.map, Option.some.injEq]
  rw [hcp] at hj ⊢
  cases hp : n.position with
  | none => simp [hp, positionJSON] at hj
  | some q =>
      simp only [hp, positionJSON, Option.map, Option.some.injEq, Prod.mk.injEq] at hj
      have e1 := json_eq_of_finite q.x position.x hj.1 hx hix
      have e2 := json_eq_of_finite q.y position.y hj.2 hy hiy
      cases q
      cases position
      simp only at e1 e2
      rw [e1, e2]

theorem unchanged_of_sameKey (cache : PathCache) (edge : Edge) (nodes : List Node)
    (hs : CacheSound cache) (hne : cache.path ≠ .empty) (hk : SameKey cache edge nodes)
    (h1 : NoInfinite cache.currentNodes edge.source)
    (h2 : NoInfinite cache.currentNodes edge.target) : Unchanged cache edge nodes := by
  obtain ⟨u1, u2, u3, u4, u5, u6, u7⟩ := hk
  obtain ⟨r1, r2⟩ := hs hne
  rw [u1, u3] at r1
  rw [u2, u4] at r2
  exact ⟨u1, u2, u3, u4, u5,
    positionOf_eq_of_text nodes _ edge.source edge.sourceHandle r1 h1 u6,
    positionOf_eq_of_text nodes _ edge.target edge.targetHandle r2 h2 u7⟩

theorem cacheHit_of_sameKey (cache : PathCache) (edge : Edge) (nodes : List Node)
    (hs : CacheSound cache) (hne : cache.path ≠ .empty) (hk : SameKey cache edge nodes) :
    cacheHit cache edge nodes = true := by
  obtain ⟨u1, u2, u3, u4, u5, u6, u7⟩ := hk
  obtain ⟨r1, r2⟩ := hs hne
  rw [u1, u3] at r1
  rw [u2, u4] at r2
  obtain ⟨c1, -, hc1, -, -, -⟩ := (resolved_iff _ edge.source edge.sourceHandle).1 r1
  obtain ⟨c2, -, hc2, -, -, -⟩ := (resolved_iff _ edge.target edge.targetHandle).1 r2
  obtain ⟨n1, hn1, hp1⟩ := found_of_text nodes _ edge.source c1 hc1 u6
  obtain ⟨n2, hn2, hp2⟩ := found_of_text nodes _ edge.target c2 hc2 u7
  unfold cacheHit
  simp only [hn1, hn2, hc1, hc2, Bool.and_eq_true, decide_eq_true_eq]
  exact ⟨⟨⟨⟨⟨⟨⟨hne, u1⟩, u2⟩, u3⟩, u4⟩, u5⟩, hp1⟩, hp2⟩

theorem found_of_positionOf (nodes cached : List Node) (nodeId handleId : String)
    (hr : Resolved cached nodeId handleId)
    (hp : positionOf nodes nodeId = positionOf cached nodeId) :
    ∃ n c, nodes.find? (fun n => decide (n.id = nodeId)) = some n ∧
      cached.find? (fun n => decide (n.id = nodeId)) = some c ∧ n.position = c.position ∧
      Resolved nodes nodeId handleId := by
  obtain ⟨c, position, hc, hcp, hx, hy⟩ := (resolved_iff cached nodeId handleId).1 hr
  simp only [positionOf, hc, Option.map] at hp
  cases hn : nodes.find? (fun n => decide (n.id = nodeId)) with
  | none => simp [hn] at hp
  | some n =>
      simp only [hn, Option.some.injEq] at hp
      refine ⟨n, c, rfl, hc, hp, ?_⟩
      exact (resolved_iff nodes nodeId handleId).2 ⟨n, position, hn, hp.trans hcp, hx, hy⟩

theorem resolved_of_unchanged (cache : PathCache) (edge : Edge) (nodes : List Node)
    (hs : CacheSound cache) (hne : cache.path ≠ .empty) (hu : Unchanged cache edge nodes) :
    Resolved nodes edge.source edge.sourceHandle ∧
    Resolved nodes edge.target edge.targetHandle := by
  obtain ⟨u1, u2, u3, u4, u5, u6, u7⟩ := hu
  obtain ⟨r1, r2⟩ := hs hne
  rw [u1, u3] at r1
  rw [u2, u4] at r2
  obtain ⟨n1, c1, hn1, hc1, hp1, hr1⟩ :=
    found_of_positionOf nodes cache.currentNodes edge.source edge.sourceHandle r1 u6
  obtain ⟨n2, c2, hn2, hc2, hp2, hr2⟩ :=
    found_of_positionOf nodes cache.currentNodes edge.target edge.targetHandle r2 u7
  exact ⟨hr1, hr2⟩

theorem recomputePath_cases (cache : PathCache) (edge : Edge) (nodes : List Node) :
    ((recomputePath cache edge nodes).1 = .empty ∧
      (recomputePath cache edge nodes).2 = { cache with path := .empty }) ∨
    (Resolved nodes edge.source edge.sourceHandle ∧
      Resolved nodes edge.target edge.targetHandle ∧
      (recomputePath cache edge nodes).2.path = (recomputePath cache edge nodes).1 ∧
      (recomputePath cache edge nodes).2.currentSource = edge.source ∧
      (recomputePath cache edge nodes).2.currentTarget = edge.target ∧
      (recomputePath cache edge nodes).2.currentSourceHandle = edge.sourceHandle ∧
      (recomputePath cache edge nodes).2.currentTargetHandle = edge.targetHandle ∧
      (recomputePath cache edge nodes).2.currentNodes = nodes) := by
  unfold recomputePath
  cases hs : CognotEdgeComponent.getHandlePosition nodes edge.source edge.sourceHandle with
  | none => exact Or.inl ⟨rfl, rfl⟩
  | some sp =>
      cases ht : CognotEdgeComponent.getHandlePosition nodes edge.target edge.targetHandle with
      | none => exact Or.inl ⟨rfl, rfl⟩
      | some tp =>
          by_cases hnan : (sp.x.isNaN || sp.y.isNaN || tp.x.isNaN || tp.y.isNaN) = true
          · left
            simp only [hnan, if_true, and_self]
          · right
            simp only [Bool.or_eq_true, not_or, Bool.not_eq_true] at hnan
            obtain ⟨⟨⟨h1, h2⟩, h3⟩, h4⟩ := hnan
            simp only [h1, h2, h3, h4, Bool.or_self, Bool.false_eq_true, if_false, and_self,
              and_true]
            exact ⟨⟨sp, hs, h1, h2⟩, ⟨tp, ht, h3, h4⟩⟩

theorem getPath_sound (cache : PathCache) (edge : Edge) (nodes : List Node)
    (hs : CacheSound cache) : CacheSound (getPath cache edge nodes).2 := by
  unfold getPath
  by_cases hh : cacheHit cache edge nodes = true
  · rw [if_pos hh]; exact hs
  · rw [if_neg hh]
    rcases recomputePath_cases cache edge nodes with ⟨-, h2⟩ | ⟨r1, r2, -, c1, c2, c3, c4, c5⟩
    · rw [h2]
      intro hne
      exact absurd rfl hne
    · intro _
      rw [c1, c2, c3, c4, c5]
      exact ⟨r1, r2⟩

theorem mount_sound (edge : Edge) (nodes : List Node) : CacheSound (mount edge nodes) := by
  intro hne
  exact absurd rfl hne

theorem evaluations_sound (inputs : List (Edge × List Node)) :
    ∀ cache : PathCache, CacheSound cache → CacheSound (evaluations cache inputs) := by
  induction inputs with
  | nil => intro cache hs; exact hs
  | cons input rest ih =>
      intro cache hs
      exact ih _ (getPath_sound cache input.1 input.2 hs)

theorem getPath_empty_of_not_resolved (cache : PathCache) (edge : Edge) (nodes : List Node)
    (hs : CacheSound cache)
    (h1 : NoInfinite cache.currentNodes edge.source)
    (h2 : NoInfinite cache.currentNodes edge.target)
    (h : ¬ (Resolved nodes edge.source edge.sourceHandle ∧
            Resolved nodes edge.target edge.targetHandle)) :
    (getPath cache edge nodes).1 = .empty := by
  unfold getPath
  by_cases hh : cacheHit cache edge nodes = true
  · exfalso
    obtain ⟨hne, hk, -, -⟩ := cacheHit_true cache edge nodes hh
    exact h (resolved_of_unchanged cache edge nodes hs hne
      (unchanged_of_sameKey cache edge nodes hs hne hk h1 h2))
  · rw [if_neg hh]
    rcases recomputePath_cases cache edge nodes with ⟨h1, -⟩ | ⟨r1, r2, -⟩
    · exact h1
    · exact absurd ⟨r1, r2⟩ h

/-! ## The path of a settled edge: errors -/

theorem find?_toStored (nodes : List Node) (nodeId : String) :
    (nodes.map Node.toStored).find? (fun n => decide (n.id = nodeId)) =
      (nodes.find? (fun n => decide (n.id = nodeId))).map Node.toStored := by
  induction nodes with
  | nil => rfl
  | cons node rest ih =>
      simp only [List.map_cons, List.find?_cons]
      have h : (Node.toStored node).id = node.id := rfl
      rw [h]
      by_cases hid : node.id = nodeId
      · simp only [hid, decide_True, Option.map]
      · simp only [hid, decide_False, ih]

theorem someNamed_map_some (ports : List Port) (handleId : String) :
    someNamed (ports.map some) handleId =
      .ok (ports.any (fun port => decide (port.name = handleId))) := by
  induction ports with
  | nil => rfl
  | cons port rest ih =>
      simp only [List.map_cons, someNamed, List.any_cons]
      by_cases h : port.name = handleId
      · simp only [h, if_true, decide_True, Bool.true_or]
      · simp only [h, if_false, decide_False, Bool.false_or, ih]

theorem findIndexFrom_map_some (ports : List Port) (handleId : String) :
    ∀ start : Nat, findIndexFrom (ports.map some) handleId start =
      .ok (if ports.any (fun port => decide (port.name = handleId)) then
            ((start + ports.findIdx (fun port => decide (port.name = handleId)) : Nat) : Int)
          else -1) := by
  induction ports with
  | nil => intro start; rfl
  | cons port rest ih =>
      intro start
      simp only [List.map_cons, findIndexFrom, List.any_cons, List.findIdx_cons]
      by_cases h : port.name = handleId
      · simp only [h, if_true, decide_True, Bool.true_or, cond_true, Nat.add_zero]
      · simp only [h, if_false, decide_False, Bool.false_or, cond_false, ih]
        by_cases hany : rest.any (fun port => decide (port.name = handleId)) = true
        · simp only [hany, if_true]
          congr 2
          omega
        · simp only [hany, Bool.false_eq_true, if_false]

theorem findIndexOrZeroChecked_map_some (ports : Option (List Port)) (handleId : String) :
    findIndexOrZeroChecked (ports.map (fun list => list.map some)) handleId =
      .ok (findIndexOrZero ports handleId) := by
  cases ports with
  | none => rfl
  | some list =>
      simp only [Option.map, findIndexOrZeroChecked, findIndexOrZero, findIndex,
        findIndexFrom_map_some, Nat.zero_add]

theorem getHandlePositionChecked_toStored (nodes : List Node) (nodeId handleId : String) :
    CognotEdgeComponent.getHandlePositionChecked (nodes.map Node.toStored) nodeId handleId =
      .ok (CognotEdgeComponent.getHandlePosition nodes nodeId handleId) := by
  unfold CognotEdgeComponent.getHandlePositionChecked CognotEdgeComponent.getHandlePosition
  rw [find?_toStored]
  cases hf : nodes.find? (fun n => decide (n.id = nodeId)) with
  | none => rfl
  | some node =>
      simp only [Option.map]
      have hpos : (Node.toStored node).position = node.position := rfl
      rw [hpos]
      cases hp : node.position with
      | none => rfl
      | some position =>
          have hdecl : isDeclaredInputChecked
              { inputs := node.data.inputs.map (fun ports => ports.map some)
                outputs := node.data.outputs.map (fun ports => ports.map some) } handleId =
              .ok (isDeclaredInput node handleId) := by
            unfold isDeclaredInputChecked isDeclaredInput
            cases hi : node.data.inputs with
            | none => rfl
            | some inputs => simp only [Option.map, someNamed_map_some]
          simp only [Node.toStored, findIndexOrZeroChecked_map_some, hdecl]
          cases hd : isDeclaredInput node handleId with
          | true => simp only [if_true]
          | false => simp only [Bool.false_eq_true, if_false]

theorem storedCacheHit_toStored (cache : PathCache) (edge : Edge) (nodes : List Node) :
    storedCacheHit cache.toStored edge (nodes.map Node.toStored) = cacheHit cache edge nodes := by
  unfold storedCacheHit cacheHit
  simp only [PathCache.toStored, find?_toStored, List.length_map]
  cases nodes.find? (fun n => decide (n.id = edge.source)) <;>
  cases nodes.find? (fun n => decide (n.id = edge.target)) <;>
  cases cache.currentNodes.find? (fun n => decide (n.id = edge.source)) <;>
  cases cache.currentNodes.find? (fun n => decide (n.id = edge.target)) <;>
  rfl

theorem getPathChecked_toStored (cache : PathCache) (edge : Edge) (nodes : List Node) :
    getPathChecked cache.toStored edge (nodes.map Node.toStored) =
      .ok ((getPath cache edge nodes).1, (getPath cache edge nodes).2.toStored) := by
  unfold getPathChecked getPath
  rw [storedCacheHit_toStored]
  by_cases hh : cacheHit cache edge nodes = true
  · simp only [hh, if_true]
    rfl
  · simp only [hh, Bool.false_eq_true, if_false, getHandlePositionChecked_toStored]
    unfold recomputePath
    cases CognotEdgeComponent.getHandlePosition nodes edge.source edge.sourceHandle with
    | none => rfl
    | some sp =>
        cases CognotEdgeComponent.getHandlePosition nodes edge.target edge.targetHandle with
        | none => rfl
        | some tp =>
            by_cases hnan : (sp.x.isNaN || sp.y.isNaN || tp.x.isNaN || tp.y.isNaN) = true
            · simp only [hnan, if_true]
              rfl
            · simp only [hnan, Bool.false_eq_true, if_false]
              rfl

theorem noInfinite_scenario (nodeId : String) :
    NoInfinite scenarioState.nodes nodeId := by
  intro node position hn hp
  have hmem := List.mem_of_find?_eq_some hn
  simp only [scenarioState, List.mem_cons, List.mem_singleton, List.not_mem_nil,
    or_false] at hmem
  rcases hmem with h | h | h <;> subst h <;> cases hp <;> exact ⟨rfl, rfl⟩

/-- C17 (as stated): two renders in one of the cases of the claim that do not
give the empty path. First, the path of the scenario edge is cached while B has
the abscissa `Infinity`, and B then gets the abscissa `NaN`: `JSON.stringify`
writes both positions alike, the early return is taken, and the cached path
`M 200 20 C Infinity 20, Infinity 20, Infinity 20` is returned although the
target anchor has a `NaN` coordinate. Second, the source node A is missing
from the node list and the target node B has no `data`: resolving the target
anchor raises a `TypeError`. -/
theorem degenerate_geometry_reaches_rendering :
    (scenarioCacheInfinite.path =
        .cubic { x := .num 200, y := .num 20 } { x := .inf false, y := .num 20 }
          { x := .inf false, y := .num 20 } { x := .inf false, y := .num 20 } ∧
      Unresolvable [scenarioNodeA, scenarioNodeBNaN, scenarioNodeC]
        scenarioEdge.target scenarioEdge.targetHandle ∧
      (getPath scenarioCacheInfinite scenarioEdge
        [scenarioNodeA, scenarioNodeBNaN, scenarioNodeC]).1 = scenarioCacheInfinite.path ∧
      (getPath scenarioCacheInfinite scenarioEdge
        [scenarioNodeA, scenarioNodeBNaN, scenarioNodeC]).1 ≠ .empty) ∧
    ([scenarioStoredBNoData].find? (fun n => decide (n.id = scenarioEdge.source)) = none ∧
      getPathChecked (mount scenarioEdge []).toStored scenarioEdge [scenarioStoredBNoData] =
        .error "TypeError") := by
  have hit : cacheHit scenarioCacheInfinite scenarioEdge
      [scenarioNodeA, scenarioNodeBNaN, scenarioNodeC] = true := by decide
  have hget : (getPath scenarioCacheInfinite scenarioEdge
      [scenarioNodeA, scenarioNodeBNaN, scenarioNodeC]).1 = scenarioCacheInfinite.path := by
    unfold getPath
    rw [if_pos hit]
  have hne : scenarioCacheInfinite.path ≠ .empty := by decide
  refine ⟨⟨?_, Or.inr (Or.inr ⟨_, rfl, Or.inl rfl⟩), hget, by rw [hget]; exact hne⟩,
    by decide, rfl⟩
  have h : scenarioCacheInfinite.path =
      getBezierPath (.num (0 + 200)) (.num (0 + ((0 + 1 : Int) : ℚ) * 20))
        (.inf false) (.num (0 + ((0 + 1 : Int) : ℚ) * 20)) := rfl
  have h2 : ((2 : ℕ) : ℚ) < 0 ↔ False := by norm_num
  have e1 : (JSNumber.inf false - JSNumber.num (0 + 200)) = JSNumber.inf false := rfl
  have e2 : (JSNumber.inf false / (2 : JSNumber)) = JSNumber.inf false := by
    show JSNumber.div (JSNumber.inf false) (JSNumber.num ((2 : ℕ) : ℚ)) = _
    simp only [JSNumber.div, h2, decide_False, Bool.xor_false]
  have e3 : ∀ q : ℚ, (JSNumber.num q + JSNumber.inf false) = JSNumber.inf false :=
    fun _ => rfl
  rw [h]
  simp only [getBezierPath, JSNumber.isNaN, Bool.or_self, Bool.false_eq_true, if_false, e1,
    JSNumber.abs, e2, e3, PathData.cubic.injEq, Point.mk.injEq, JSNumber.num.injEq,
    and_true, true_and]
  norm_num

/-- C17 (amended): `getBezierPath` is the empty path as soon as one of its four
coordinates is `NaN`. For nodes whose coordinates are numbers and that carry a
`data` bag whose port lists hold port objects, after any sequence of renders,
`getPath` returns the empty path whenever the source or the target node of the
edge is missing from the node list, has no position, or resolves to an anchor
with a `NaN` coordinate, provided the positions that the source and the target
node have in the node list recorded with the cached path hold no infinite
coordinate; and on such nodes `getPath` raises no error: it returns a path and
the refs. -/
theorem degenerate_geometry_gives_empty_path :
    (∀ sx sy tx ty : JSNumber, sx = .nan ∨ sy = .nan ∨ tx = .nan ∨ ty = .nan →
      getBezierPath sx sy tx ty = .empty) ∧
    (∀ (edge0 : Edge) (nodes0 : List Node) (inputs : List (Edge × List Node))
       (edge : Edge) (nodes : List Node),
      NoInfinite (evaluations (mount edge0 nodes0) inputs).currentNodes edge.source →
      NoInfinite (evaluations (mount edge0 nodes0) inputs).currentNodes edge.target →
      Unresolvable nodes edge.source edge.sourceHandle ∨
        Unresolvable nodes edge.target edge.targetHandle →
      (getPath (evaluations (mount edge0 nodes0) inputs) edge nodes).1 = .empty) ∧
    (∀ (cache : PathCache) (edge : Edge) (nodes : List Node),
      getPathChecked cache.toStored edge (nodes.map Node.toStored) =
        .ok ((getPath cache edge nodes).1, (getPath cache edge nodes).2.toStored)) := by
  refine ⟨?_, ?_, getPathChecked_toStored⟩
  · intro sx sy tx ty h
    unfold getBezierPath
    rcases h with h | h | h | h <;> subst h <;> simp [JSNumber.isNaN]
  · intro edge0 nodes0 inputs edge nodes h1 h2 h
    apply getPath_empty_of_not_resolved _ _ _
      (evaluations_sound inputs _ (mount_sound edge0 nodes0)) h1 h2
    rintro ⟨r1, r2⟩
    rcases h with h | h
    · exact not_resolved_of_unresolvable _ _ _ h r1
    · exact not_resolved_of_unresolvable _ _ _ h r2

/-- After a render that cached a curve: B removed, B without position, B with a
`NaN` abscissa; and a `NaN` passed to `getBezierPath`. -/
theorem degenerate_geometry_gives_empty_path_witness :
    getBezierPath (.num 0) .nan (.num 1) (.num 2) = .empty ∧
    scenarioCache.path ≠ .empty ∧
    NoInfinite scenarioCache.currentNodes scenarioEdge.source ∧
    NoInfinite scenarioCache.currentNodes scenarioEdge.target ∧
    (getPath scenarioCache scenarioEdge [scenarioNodeA, scenarioNodeC]).1 = .empty ∧
    (getPath scenarioCache scenarioEdge
      [scenarioNodeA, scenarioNodeBUnplaced, scenarioNodeC]).1 = .empty ∧
    (getPath scenarioCache scenarioEdge
      [scenarioNodeA, scenarioNodeBNaN, scenarioNodeC]).1 = .empty ∧
    getPathChecked scenarioCache.toStored scenarioEdge
      ([scenarioNodeA, scenarioNodeBNaN, scenarioNodeC].map Node.toStored) =
      .ok (.empty, { scenarioCache with path := .empty }.toStored) := by
  have h := degenerate_geometry_gives_empty_path
  have hA : NoInfinite scenarioCache.currentNodes scenarioEdge.source :=
    noInfinite_scenario _
  have hB : NoInfinite scenarioCache.currentNodes scenarioEdge.target :=
    noInfinite_scenario _
  refine ⟨h.1 _ _ _ _ (Or.inr (Or.inl rfl)), by decide, hA, hB, ?_, ?_, ?_, ?_⟩
  · exact h.2.1 scenarioEdge scenarioState.nodes [(scenarioEdge, scenarioState.nodes)]
      scenarioEdge [scenarioNodeA, scenarioNodeC] hA hB (Or.inr (Or.inl (by decide)))
  · exact h.2.1 scenarioEdge scenarioState.nodes [(scenarioEdge, scenarioState.nodes)]
      scenarioEdge [scenarioNodeA, scenarioNodeBUnplaced, scenarioNodeC] hA hB
      (Or.inr (Or.inr (Or.inl ⟨scenarioNodeBUnplaced, by decide, rfl⟩)))
  · exact h.2.1 scenarioEdge scenarioState.nodes [(scenarioEdge, scenarioState.nodes)]
      scenarioEdge [scenarioNodeA, scenarioNodeBNaN, scenarioNodeC] hA hB
      (Or.inr (Or.inr (Or.inr ⟨_, rfl, Or.inl rfl⟩)))
  · rw [h.2.2 scenarioCache scenarioEdge [scenarioNodeA, scenarioNodeBNaN, scenarioNodeC]]
    have hmiss : cacheHit scenarioCache scenarioEdge
        [scenarioNodeA, scenarioNodeBNaN, scenarioNodeC] = false := by decide
    have hg : getPath scenarioCache scenarioEdge
        [scenarioNodeA, scenarioNodeBNaN, scenarioNodeC] =
        (.empty, { scenarioCache with path := .empty }) := by
      unfold getPath
      rw [if_neg (by rw [hmiss]; exact Bool.false_ne_true)]
      rfl
    rw [hg]

/-- C18 (as stated): an edge whose target node is missing is given the empty
path; at the next render, with the same props and the same node list, nothing
that `getPath` compares has changed, yet the early return is not taken and the
path is computed again. -/
theorem cache_miss_when_nothing_changed :
    scenarioCacheNoTarget.path = .empty ∧
    Unchanged scenarioCacheNoTarget scenarioEdge [scenarioNodeA] ∧
    cacheHit scenarioCacheNoTarget scenarioEdge [scenarioNodeA] = false ∧
    getPath scenarioCacheNoTarget scenarioEdge [scenarioNodeA] =
      recomputePath scenarioCacheNoTarget scenarioEdge [scenarioNodeA] := by
  refine ⟨by decide, ⟨rfl, rfl, rfl, rfl, rfl, by decide, by decide⟩, by decide, ?_⟩
  unfold getPath
  rw [if_neg (by decide)]

/-- C18 (amended): after any sequence of renders, `getPath` takes the early
return exactly when the cached path is non-empty and none of the following
differs from what the refs record: the edge's source, target, sourceHandle and
targetHandle, the length of the node list, and the position of the source and
of the target node, compared by the text `JSON.stringify` writes for it; none
of them differs when the positions are equal by value. On the early return the
cached path is returned and the refs are left as they are; otherwise the path
is computed again. -/
theorem cacheHit_iff_unchanged (edge0 : Edge) (nodes0 : List Node)
    (inputs : List (Edge × List Node)) (edge : Edge) (nodes : List Node) :
    (cacheHit (evaluations (mount edge0 nodes0) inputs) edge nodes = true ↔
      (evaluations (mount edge0 nodes0) inputs).path ≠ .empty ∧
      SameKey (evaluations (mount edge0 nodes0) inputs) edge nodes) ∧
    ((evaluations (mount edge0 nodes0) inputs).path ≠ .empty ∧
      Unchanged (evaluations (mount edge0 nodes0) inputs) edge nodes →
      cacheHit (evaluations (mount edge0 nodes0) inputs) edge nodes = true) ∧
    (cacheHit (evaluations (mount edge0 nodes0) inputs) edge nodes = true →
      getPath (evaluations (mount edge0 nodes0) inputs) edge nodes =
        ((evaluations (mount edge0 nodes0) inputs).path,
         evaluations (mount edge0 nodes0) inputs)) ∧
    (cacheHit (evaluations (mount edge0 nodes0) inputs) edge nodes = false →
      getPath (evaluations (mount edge0 nodes0) inputs) edge nodes =
        recomputePath (evaluations (mount edge0 nodes0) inputs) edge nodes) := by
  have hs := evaluations_sound inputs _ (mount_sound edge0 nodes0)
  refine ⟨⟨?_, ?_⟩, ?_, ?_, ?_⟩
  · intro h
    obtain ⟨h1, h2, -, -⟩ := cacheHit_true _ edge nodes h
    exact ⟨h1, h2⟩
  · rintro ⟨h1, h2⟩
    exact cacheHit_of_sameKey _ edge nodes hs h1 h2
  · rintro ⟨h1, h2⟩
    exact cacheHit_of_sameKey _ edge nodes hs h1 (sameKey_of_unchanged _ edge nodes h2)
  · intro h
    unfold getPath
    rw [if_pos h]
  · intro h
    unfold getPath
    rw [if_neg (by rw [h]; exact Bool.false_ne_true)]

/-- After a render that cached a curve: a second render with the same graph takes
the early return, a render after B has moved does not. -/
theorem cacheHit_iff_unchanged_witness :
    scenarioCache.path ≠ .empty ∧
    Unchanged scenarioCache scenarioEdge scenarioState.nodes ∧
    cacheHit scenarioCache scenarioEdge scenarioState.nodes = true ∧
    getPath scenarioCache scenarioEdge scenarioState.nodes =
      (scenarioCache.path, scenarioCache) ∧
    cacheHit scenarioCache scenarioEdge
      (reducer scenarioState (.updateNode scenarioMoveB)).nodes = false := by
  have h := cacheHit_iff_unchanged scenarioEdge scenarioState.nodes
    [(scenarioEdge, scenarioState.nodes)] scenarioEdge scenarioState.nodes
  have hne : scenarioCache.path ≠ .empty := by decide
  have hu : Unchanged scenarioCache scenarioEdge scenarioState.nodes :=
    ⟨rfl, rfl, rfl, rfl, rfl, rfl, rfl⟩
  have hit := h.2.1 ⟨hne, hu⟩
  exact ⟨hne, hu, hit, h.2.2.1 hit, by decide⟩

/-! ## Line intersection -/

theorem getLineIntersection_some_iff (x1 y1 x2 y2 x3 y3 x4 y4 : ℚ)
    (hden : (y4 - y3) * (x2 - x1) - (x4 - x3) * (y2 - y1) ≠ 0) (q : Position) :
    getLineIntersection x1 y1 x2 y2 x3 y3 x4 y4 = some q ↔
      OnSegment q x1 y1 x2 y2 ∧ OnSegment q x3 y3 x4 y4 := by
  simp only [getLineIntersection, hden, if_false]
  constructor
  · intro h
    split at h
    · cases h
    · rename_i hr
      simp only [not_or, not_lt] at hr
      obtain ⟨hr0, hr1, hs0, hs1⟩ := hr
      simp only [Option.some.injEq] at h
      subst h
      refine ⟨⟨_, hr0, hr1, rfl, rfl⟩, ⟨_, hs0, hs1, ?_, ?_⟩⟩
      · show x1 + _ / _ * (x2 - x1) = x3 + _ / _ * (x4 - x3)
        field_simp
        ring
      · show y1 + _ / _ * (y2 - y1) = y3 + _ / _ * (y4 - y3)
        field_simp
        ring
  · rintro ⟨⟨t, ht0, ht1, hx, hy⟩, ⟨u, hu0, hu1, hx2, hy2⟩⟩
    have e1 : x1 + t * (x2 - x1) = x3 + u * (x4 - x3) := hx.symm.trans hx2
    have e2 : y1 + t * (y2 - y1) = y3 + u * (y4 - y3) := hy.symm.trans hy2
    have hr : ((x4 - x3) * (y1 - y3) - (y4 - y3) * (x1 - x3)) /
        ((y4 - y3) * (x2 - x1) - (x4 - x3) * (y2 - y1)) = t := by
      rw [div_eq_iff hden]
      linear_combination (x4 - x3) * e2 - (y4 - y3) * e1
    have hs : ((x2 - x1) * (y1 - y3) - (y2 - y1) * (x1 - x3)) /
        ((y4 - y3) * (x2 - x1) - (x4 - x3) * (y2 - y1)) = u := by
      rw [div_eq_iff hden]
      linear_combination (x2 - x1) * e2 - (y2 - y1) * e1
    rw [hr, hs]
    have hno : ¬ (t < 0 ∨ t > 1 ∨ u < 0 ∨ u > 1) := by
      simp only [not_or, not_lt]
      exact ⟨ht0, ht1, hu0, hu1⟩
    rw [if_neg hno]
    cases q
    simp only [Option.some.injEq, Position.mk.injEq]
    exact ⟨hx.symm, hy.symm⟩

/-- C19: over exact arithmetic, `getLineIntersection` returns null when the
determinant `(y4-y3)(x2-x1) - (x4-x3)(y2-y1)` is zero; otherwise it returns a
point `q` exactly when `q` lies on both segments (endpoints included), such a
point is unique, and it returns null when no point lies on both segments. -/
theorem getLineIntersection_spec (x1 y1 x2 y2 x3 y3 x4 y4 : ℚ) :
    ((y4 - y3) * (x2 - x1) - (x4 - x3) * (y2 - y1) = 0 →
      getLineIntersection x1 y1 x2 y2 x3 y3 x4 y4 = none) ∧
    ((y4 - y3) * (x2 - x1) - (x4 - x3) * (y2 - y1) ≠ 0 →
      (∀ q, getLineIntersection x1 y1 x2 y2 x3 y3 x4 y4 = some q ↔
        OnSegment q x1 y1 x2 y2 ∧ OnSegment q x3 y3 x4 y4) ∧
      (∀ q q2, OnSegment q x1 y1 x2 y2 ∧ OnSegment q x3 y3 x4 y4 →
        OnSegment q2 x1 y1 x2 y2 ∧ OnSegment q2 x3 y3 x4 y4 → q = q2) ∧
      (getLineIntersection x1 y1 x2 y2 x3 y3 x4 y4 = none ↔
        ¬ ∃ q, OnSegment q x1 y1 x2 y2 ∧ OnSegment q x3 y3 x4 y4)) := by
  constructor
  · intro h
    simp [getLineIntersection, h]
  · intro hden
    have key : ∀ q, getLineIntersection x1 y1 x2 y2 x3 y3 x4 y4 = some q ↔
        OnSegment q x1 y1 x2 y2 ∧ OnSegment q x3 y3 x4 y4 :=
      getLineIntersection_some_iff x1 y1 x2 y2 x3 y3 x4 y4 hden
    refine ⟨key, ?_, ?_⟩
    · intro q q2 h1 h2
      have a1 := (key q).2 h1
      have a2 := (key q2).2 h2
      rw [a1] at a2
      exact Option.some.inj a2
    · constructor
      · rintro hnone ⟨q, hq⟩
        rw [(key q).2 hq] at hnone
        cases hnone
      · intro hno
        cases hres : getLineIntersection x1 y1 x2 y2 x3 y3 x4 y4 with
        | none => rfl
        | some q => exact absurd ⟨q, (key q).1 hres⟩ hno

/-- The diagonals of the square with corners `(0,0)` and `(2,2)` meet at `(1,1)`;
two parallel segments have no intersection. -/
theorem getLineIntersection_spec_witness :
    getLineIntersection 0 0 2 2 0 2 2 0 = some { x := 1, y := 1 } ∧
    getLineIntersection 0 0 2 2 0 1 2 3 = none := by
  have h := getLineIntersection_spec 0 0 2 2 0 2 2 0
  have h2 := getLineIntersection_spec 0 0 2 2 0 1 2 3
  refine ⟨?_, h2.1 (by norm_num)⟩
  apply ((h.2 (by norm_num)).1 { x := 1, y := 1 }).2
  exact ⟨⟨1 / 2, by norm_num, by norm_num, by norm_num, by norm_num⟩,
         ⟨1 / 2, by norm_num, by norm_num, by norm_num, by norm_num⟩⟩

/-! ## Progress of an execution -/

theorem pollProgress_le (results : Option ExecutionResults) : pollProgress results ≤ 100 := by
  cases results with
  | none => exact Nat.zero_le _
  | some r =>
      cases h : r.node_count with
      | none =>
          have : pollProgress (some r) = 0 := by simp [pollProgress, h]
          rw [this]; exact Nat.zero_le _
      | some nodeCount =>
          by_cases h0 : nodeCount = 0
          · have : pollProgress (some r) = 0 := by simp [pollProgress, h, h0]
            rw [this]; exact Nat.zero_le _
          · have : pollProgress (some r) =
                min 100 ((roundRatio (completedNodes r) nodeCount).mulNat 100).floor := by
              simp [pollProgress, h, h0]
            rw [this]; exact min_le_left _ _

theorem pollProgress_absent (keys : List String) :
    pollProgress none = 0 ∧
    pollProgress (some { node_count := none, keys := keys }) = 0 ∧
    pollProgress (some { node_count := some 0, keys := keys }) = 0 :=
  ⟨rfl, rfl, rfl⟩

/-- C20: with `node_count = 100` and 29 other keys the poll callback derives the
progress 28, not `min(100, floor(100 * 29 / 100)) = 29`: the quotient `29 / 100`
is rounded to a double below `0.29` before it is multiplied by 100. The same
happens for 57 and 58 keys, while for 30 keys the two values agree. -/
theorem pollProgress_differs_from_spec :
    completedNodes scenarioResults = 29 ∧
    pollProgress (some scenarioResults) = 28 ∧
    specProgress 29 100 = 29 ∧
    roundRatio 29 100 = { m := 5224175567749775, e := -54 } ∧
    min 100 ((roundRatio 57 100).mulNat 100).floor = 56 ∧
    min 100 ((roundRatio 58 100).mulNat 100).floor = 57 ∧
    min 100 ((roundRatio 30 100).mulNat 100).floor = 30 := by
  refine ⟨by decide, by decide, by decide, by decide, by decide, by decide, by decide⟩

/-! ## The connection flags -/

theorem connectionConsistent_step (s : State) (a : Action) (hs : ConnectionConsistent s) :
    ConnectionConsistent (reducer s a) := by
  unfold ConnectionConsistent at hs ⊢
  cases a with
  | startConnecting a b c => simp [reducer]
  | updateConnectingPosition p =>
      cases hc : s.connectingEdge with
      | none => simpa [reducer, hc] using hs
      | some c => simpa [reducer, hc] using hs
  | endConnecting b i now =>
      cases hc : s.connectingEdge with
      | none => simpa [reducer, hc] using hs
      | some c => simp [reducer, hc]
  | clearConnecting => simp [reducer]
  | addNode node => exact hs
  | updateNode p => exact hs
  | deleteNode id => exact hs
  | addEdge edge => exact hs
  | updateEdge p => exact hs
  | deleteEdge id => exact hs
  | updateViewport p => exact hs
  | selectNode id => exact hs
  | deselectNode id => exact hs
  | deselectAll => exact hs
  | setHoveredHandle h => exact hs
  | clearHoveredHandle => exact hs
  | startExecution => exact hs
  | updateExecutionStatus p => exact hs
  | endExecution r => exact hs
  | clearExecution => exact hs
  | unknown => exact hs

theorem connectionConsistent_run (acts : List Action) :
    ∀ s : State, ConnectionConsistent s → ConnectionConsistent (dispatchAll s acts) := by
  induction acts with
  | nil => intro s hs; exact hs
  | cons a rest ih =>
      intro s hs
      exact ih (reducer s a) (connectionConsistent_step s a hs)

/-- C25: in every state reached from the initial state (with any initial nodes
and edges) by any sequence of reducer actions, `isConnecting` is true if and
only if `connectingEdge` is not null. -/
theorem connectionConsistent_reachable (nodes : List Node) (edges : List Edge)
    (acts : List Action) :
    ConnectionConsistent
      (dispatchAll { initialState with nodes := nodes, edges := edges } acts) := by
  apply connectionConsistent_run
  unfold ConnectionConsistent
  simp [initialState]

/-! ## Frame conditions of the reducer -/

/-- C27: an action that is not `ADD_NODE`, `UPDATE_NODE`, `DELETE_NODE`, `ADD_EDGE`,
`UPDATE_EDGE`, `DELETE_EDGE` or `END_CONNECTING` leaves the node list and the
edge list unchanged; and each of these seven leaves the viewport and the five
execution fields unchanged. -/
theorem reducer_frame (s : State) (a : Action) :
    (changesGraph a = false →
      (reducer s a).nodes = s.nodes ∧ (reducer s a).edges = s.edges) ∧
    (changesGraph a = true →
      (reducer s a).viewport = s.viewport ∧
      (reducer s a).isExecuting = s.isExecuting ∧
      (reducer s a).executionProgress = s.executionProgress ∧
      (reducer s a).executionStatus = s.executionStatus ∧
      (reducer s a).executionId = s.executionId ∧
      (reducer s a).executionResults = s.executionResults) := by
  cases a with
  | endConnecting b i now =>
      refine ⟨fun h => (by cases h), fun _ => ?_⟩
      cases hc : s.connectingEdge with
      | none => simp [reducer, hc]
      | some c => simp [reducer, hc]
  | updateConnectingPosition p =>
      refine ⟨fun _ => ⟨rfl, rfl⟩, fun h => by cases h⟩
  | addNode node => exact ⟨fun h => (by cases h), fun _ => ⟨rfl, rfl, rfl, rfl, rfl, rfl⟩⟩
  | updateNode p => exact ⟨fun h => (by cases h), fun _ => ⟨rfl, rfl, rfl, rfl, rfl, rfl⟩⟩
  | deleteNode id => exact ⟨fun h => (by cases h), fun _ => ⟨rfl, rfl, rfl, rfl, rfl, rfl⟩⟩
  | addEdge edge => exact ⟨fun h => (by cases h), fun _ => ⟨rfl, rfl, rfl, rfl, rfl, rfl⟩⟩
  | updateEdge p => exact ⟨fun h => (by cases h), fun _ => ⟨rfl, rfl, rfl, rfl, rfl, rfl⟩⟩
  | deleteEdge id => exact ⟨fun h => (by cases h), fun _ => ⟨rfl, rfl, rfl, rfl, rfl, rfl⟩⟩
  | updateViewport p => exact ⟨fun _ => ⟨rfl, rfl⟩, fun h => by cases h⟩
  | selectNode id => exact ⟨fun _ => ⟨rfl, rfl⟩, fun h => by cases h⟩
  | deselectNode id => exact ⟨fun _ => ⟨rfl, rfl⟩, fun h => by cases h⟩
  | deselectAll => exact ⟨fun _ => ⟨rfl, rfl⟩, fun h => by cases h⟩
  | startConnecting a b c => exact ⟨fun _ => ⟨rfl, rfl⟩, fun h => by cases h⟩
  | clearConnecting => exact ⟨fun _ => ⟨rfl, rfl⟩, fun h => by cases h⟩
  | setHoveredHandle h => exact ⟨fun _ => ⟨rfl, rfl⟩, fun h => by cases h⟩
  | clearHoveredHandle => exact ⟨fun _ => ⟨rfl, rfl⟩, fun h => by cases h⟩
  | startExecution => exact ⟨fun _ => ⟨rfl, rfl⟩, fun h => by cases h⟩
  | updateExecutionStatus p => exact ⟨fun _ => ⟨rfl, rfl⟩, fun h => by cases h⟩
  | endExecution r => exact ⟨fun _ => ⟨rfl, rfl⟩, fun h => by cases h⟩
  | clearExecution => exact ⟨fun _ => ⟨rfl, rfl⟩, fun h => by cases h⟩
  | unknown => exact ⟨fun _ => ⟨rfl, rfl⟩, fun h => by cases h⟩

/-- A viewport update keeps the scenario graph; deleting A keeps the viewport. -/
theorem reducer_frame_witness :
    changesGraph (.updateViewport { x := some 5, y := none, zoom := some 2 }) = false ∧
    (reducer scenarioState
      (.updateViewport { x := some 5, y := none, zoom := some 2 })).nodes =
      scenarioState.nodes ∧
    (reducer scenarioState
      (.updateViewport { x := some 5, y := none, zoom := some 2 })).edges =
      scenarioState.edges ∧
    changesGraph (.deleteNode "A") = true ∧
    (reducer scenarioState (.deleteNode "A")).viewport = scenarioState.viewport :=
  ⟨rfl,
   ((reducer_frame scenarioState
      (.updateViewport { x := some 5, y := none, zoom := some 2 })).1 rfl).1,
   ((reducer_frame scenarioState
      (.updateViewport { x := some 5, y := none, zoom := some 2 })).1 rfl).2,
   rfl,
   ((reducer_frame scenarioState (.deleteNode "A")).2 rfl).1⟩

/-! ## Symmetry of the line intersection -/

/-- C28: over exact arithmetic, `getLineIntersection` gives the same result when
its two segments are exchanged: both calls return null, or both return the same
point. -/
theorem getLineIntersection_symm (x1 y1 x2 y2 x3 y3 x4 y4 : ℚ) :
    getLineIntersection x1 y1 x2 y2 x3 y3 x4 y4 =
      getLineIntersection x3 y3 x4 y4 x1 y1 x2 y2 := by
  by_cases hden : (y4 - y3) * (x2 - x1) - (x4 - x3) * (y2 - y1) = 0
  · have hden2 : (y2 - y1) * (x4 - x3) - (x2 - x1) * (y4 - y3) = 0 := by
      linear_combination -hden
    simp [getLineIntersection, hden, hden2]
  · have hden2 : (y2 - y1) * (x4 - x3) - (x2 - x1) * (y4 - y3) ≠ 0 := by
      intro h
      apply hden
      linear_combination -h
    have k1 := getLineIntersection_some_iff x1 y1 x2 y2 x3 y3 x4 y4 hden
    have k2 := getLineIntersection_some_iff x3 y3 x4 y4 x1 y1 x2 y2 hden2
    cases h1 : getLineIntersection x1 y1 x2 y2 x3 y3 x4 y4 with
    | some q =>
        have hq := (k1 q).1 h1
        exact ((k2 q).2 ⟨hq.2, hq.1⟩).symm
    | none =>
        cases h2 : getLineIntersection x3 y3 x4 y4 x1 y1 x2 y2 with
        | none => rfl
        | some q =>
            have hq := (k2 q).1 h2
            have := (k1 q).2 ⟨hq.2, hq.1⟩
            rw [h1] at this
            cases this

/-! ## The two anchor resolvers -/

/-- C29: for a handle name that is not among the declared inputs of the node
found for the id, the preview-edge resolver and the settled-edge resolver return
the same anchor, whatever connection is in progress. -/
theorem resolvers_agree_on_outputs (nodes : List Node)
    (connectingEdge : Option ConnectingEdge) (nodeId handleId : String)
    (h : ∀ node, nodes.find? (fun n => decide (n.id = nodeId)) = some node →
      isDeclaredInput node handleId = false) :
    CognotEdges.getHandlePosition nodes connectingEdge nodeId handleId =
      CognotEdgeComponent.getHandlePosition nodes nodeId handleId := by
  have hc : connectingTargetHandle connectingEdge = none := by
    cases connectingEdge <;> rfl
  unfold CognotEdges.getHandlePosition CognotEdgeComponent.getHandlePosition
  cases hf : nodes.find? (fun n => decide (n.id = nodeId)) with
  | none => rfl
  | some node =>
      have hd := h node hf
      cases hp : node.position with
      | none => simp [hp]
      | some position => simp [hp, hc, hd]

/-- The preview and the settled edge of the scenario both start at the output
`out` of A. -/
theorem resolvers_agree_on_outputs_witness :
    (∀ node, scenarioState.nodes.find? (fun n => decide (n.id = "A")) = some node →
      isDeclaredInput node "out" = false) ∧
    CognotEdges.getHandlePosition scenarioState.nodes (some scenarioGesture) "A" "out" =
      CognotEdgeComponent.getHandlePosition scenarioState.nodes "A" "out" := by
  have hA : ∀ node, scenarioState.nodes.find? (fun n => decide (n.id = "A")) = some node →
      isDeclaredInput node "out" = false := by
    intro node hn
    have h2 : scenarioState.nodes.find? (fun n => decide (n.id = "A")) =
        some scenarioNodeA := by decide
    rw [h2] at hn
    cases hn
    decide
  exact ⟨hA, resolvers_agree_on_outputs scenarioState.nodes (some scenarioGesture)
    "A" "out" hA⟩

/-! ## Layout constants of the router and of the renderer -/

/-- C24: the router anchors the handle at index `k` at `(k+1) * 20` below the top
of the node, the renderer draws it at `top = 30 + k * 20`: the two offsets differ
by 10 for every `k`. For node B of the scenario (top at `y = 0`, one input) the
anchor has `y = 20` and the drawn handle has `top = 30`. -/
theorem router_and_renderer_offsets_differ :
    (∀ k : ℕ, ((k : ℚ) + 1) * handleSpacing + 10 = handleTop k) ∧
    (∀ k : ℕ, ((k : ℚ) + 1) * handleSpacing ≠ handleTop k) ∧
    CognotEdgeComponent.getHandlePosition [scenarioNodeB] "B" "in" =
      some { x := .num 300, y := .num 20 } ∧
    (renderHandles "B" scenarioNodeB.data).map (fun handle => handle.top) = [30] := by
  have h1 : ∀ k : ℕ, ((k : ℚ) + 1) * handleSpacing + 10 = handleTop k := by
    intro k
    simp only [handleSpacing, handleTop]
    ring
  refine ⟨h1, ?_, ?_, ?_⟩
  · intro k hk
    have := h1 k
    rw [hk] at this
    linarith
  · have h : CognotEdgeComponent.getHandlePosition [scenarioNodeB] "B" "in" =
        some { x := (300 : JSNumber)
               y := (0 : JSNumber) + .num (((0 + 1 : Int) : ℚ) * handleSpacing) } := rfl
    rw [h]
    show some (Point.mk (JSNumber.num _) (JSNumber.num _)) = _
    simp only [Option.some.injEq, Point.mk.injEq, JSNumber.num.injEq]
    norm_num [handleSpacing]
  · have h : (renderHandles "B" scenarioNodeB.data).map (fun handle => handle.top) =
        [handleTop 0] := rfl
    rw [h]
    norm_num [handleTop]

/-! ## Transparency of the path cache -/

theorem recomputePath_fst (cache : PathCache) (edge : Edge) (nodes : List Node) :
    (recomputePath cache edge nodes).1 = freshPath edge nodes := by
  unfold recomputePath freshPath
  cases hs : CognotEdgeComponent.getHandlePosition nodes edge.source edge.sourceHandle with
  | none => rfl
  | some sp =>
      cases ht : CognotEdgeComponent.getHandlePosition nodes edge.target edge.targetHandle with
      | none => rfl
      | some tp =>
          by_cases hnan : (sp.x.isNaN || sp.y.isNaN || tp.x.isNaN || tp.y.isNaN) = true
          · simp only [hnan, if_true]
            simp only [Bool.or_eq_true] at hnan
            cases hx : sp.x <;> cases hy : sp.y <;> cases hx2 : tp.x <;> cases hy2 : tp.y <;>
              simp_all [getBezierPath, JSNumber.isNaN]
          · have hf : (sp.x.isNaN || sp.y.isNaN || tp.x.isNaN || tp.y.isNaN) = false := by
              simpa using hnan
            simp only [hf, Bool.false_eq_true, if_false]

theorem freshPath_congr (e1 e2 : Edge) (nodes : List Node)
    (h1 : e1.source = e2.source) (h2 : e1.sourceHandle = e2.sourceHandle)
    (h3 : e1.target = e2.target) (h4 : e1.targetHandle = e2.targetHandle) :
    freshPath e1 nodes = freshPath e2 nodes := by
  unfold freshPath
  rw [h1, h2, h3, h4]

theorem recomputePath_exact (cache : PathCache) (edge : Edge) (nodes : List Node) :
    CacheExact (recomputePath cache edge nodes).2 := by
  rcases recomputePath_cases cache edge nodes with ⟨-, h2⟩ | ⟨-, -, c0, c1, c2, c3, c4, c5⟩
  · rw [h2]
    intro hne
    exact absurd rfl hne
  · intro _
    rw [c0, c1, c2, c3, c4, c5, recomputePath_fst]
    exact freshPath_congr _ _ _ rfl rfl rfl rfl

theorem getPath_exact (cache : PathCache) (edge : Edge) (nodes : List Node)
    (hs : CacheExact cache) : CacheExact (getPath cache edge nodes).2 := by
  unfold getPath
  by_cases hh : cacheHit cache edge nodes = true
  · rw [if_pos hh]; exact hs
  · rw [if_neg hh]; exact recomputePath_exact cache edge nodes

theorem evaluations_exact (inputs : List (Edge × List Node)) :
    ∀ cache : PathCache, CacheExact cache → CacheExact (evaluations cache inputs) := by
  induction inputs with
  | nil => intro cache hs; exact hs
  | cons input rest ih =>
      intro cache hs
      exact ih _ (getPath_exact cache input.1 input.2 hs)

theorem getHandlePosition_congr (nodes cached : List Node) (nodeId handleId : String)
    (n c : Node)
    (hn : nodes.find? (fun n => decide (n.id = nodeId)) = some n)
    (hc : cached.find? (fun n => decide (n.id = nodeId)) = some c)
    (hp : n.position = c.position) (hi : n.data.inputs = c.data.inputs)
    (ho : n.data.outputs = c.data.outputs) :
    CognotEdgeComponent.getHandlePosition nodes nodeId handleId =
      CognotEdgeComponent.getHandlePosition cached nodeId handleId := by
  unfold CognotEdgeComponent.getHandlePosition
  simp only [hn, hc, hp, isDeclaredInput, hi, ho]

theorem found_in_cached (nodes cached : List Node) (nodeId : String) (n : Node)
    (hn : nodes.find? (fun n => decide (n.id = nodeId)) = some n)
    (hp : positionOf nodes nodeId = positionOf cached nodeId) :
    ∃ c, cached.find? (fun n => decide (n.id = nodeId)) = some c ∧
      n.position = c.position := by
  simp only [positionOf, hn, Option.map] at hp
  cases hc : cached.find? (fun n => decide (n.id = nodeId)) with
  | none => simp [hc] at hp
  | some c =>
      simp only [hc, Option.some.injEq] at hp
      exact ⟨c, rfl, hp⟩

theorem samePorts_self (nodes : List Node) (nodeId : String) :
    SamePorts nodes nodes nodeId := by
  intro n c hn hc
  rw [hn] at hc
  cases hc
  exact ⟨rfl, rfl⟩

/-- C26 (as stated): two renders at which the early return is taken with a path
that a fresh computation does not give. First, after the path of the scenario
edge is cached, `updateNode` puts a new input in front of the input `in` of B
without moving B: the cached path is returned, but a fresh computation anchors
the target one handle lower. Second, the path is cached while B has the
abscissa `Infinity` and B then gets the abscissa `NaN`, its ports being the
same: `JSON.stringify` writes both positions alike, the cached path is
returned, and a fresh computation gives the empty path. -/
theorem cached_path_stale :
    ((reducer scenarioState (.updateNode scenarioNewInput)).nodes.map
        (fun n => n.position) = scenarioState.nodes.map (fun n => n.position) ∧
      cacheHit scenarioCache scenarioEdge
        (reducer scenarioState (.updateNode scenarioNewInput)).nodes = true ∧
      (getPath scenarioCache scenarioEdge
        (reducer scenarioState (.updateNode scenarioNewInput)).nodes).1 =
        freshPath scenarioEdge scenarioState.nodes ∧
      (getPath scenarioCache scenarioEdge
        (reducer scenarioState (.updateNode scenarioNewInput)).nodes).1 ≠
        freshPath scenarioEdge (reducer scenarioState (.updateNode scenarioNewInput)).nodes) ∧
    (cacheHit scenarioCacheInfinite scenarioEdge
        [scenarioNodeA, scenarioNodeBNaN, scenarioNodeC] = true ∧
      SamePorts [scenarioNodeA, scenarioNodeBNaN, scenarioNodeC]
        scenarioCacheInfinite.currentNodes scenarioEdge.source ∧
      SamePorts [scenarioNodeA, scenarioNodeBNaN, scenarioNodeC]
        scenarioCacheInfinite.currentNodes scenarioEdge.target ∧
      (getPath scenarioCacheInfinite scenarioEdge
        [scenarioNodeA, scenarioNodeBNaN, scenarioNodeC]).1 ≠ .empty ∧
      freshPath scenarioEdge [scenarioNodeA, scenarioNodeBNaN, scenarioNodeC] = .empty) := by
  have hit : cacheHit scenarioCache scenarioEdge
      (reducer scenarioState (.updateNode scenarioNewInput)).nodes = true := by decide
  have hget : (getPath scenarioCache scenarioEdge
      (reducer scenarioState (.updateNode scenarioNewInput)).nodes).1 =
      freshPath scenarioEdge scenarioState.nodes := by
    unfold getPath
    rw [if_pos hit]
    rfl
  have hit2 : cacheHit scenarioCacheInfinite scenarioEdge
      [scenarioNodeA, scenarioNodeBNaN, scenarioNodeC] = true := by decide
  refine ⟨⟨by decide, hit, hget, ?_⟩, hit2, ?_, ?_, ?_, by decide⟩
  · rw [hget]
    have h1 : freshPath scenarioEdge scenarioState.nodes =
        getBezierPath (.num (0 + 200)) (.num (0 + ((0 + 1 : Int) : ℚ) * 20))
          (.num 300) (.num (0 + ((0 + 1 : Int) : ℚ) * 20)) := rfl
    have h2 : freshPath scenarioEdge
        (reducer scenarioState (.updateNode scenarioNewInput)).nodes =
        getBezierPath (.num (0 + 200)) (.num (0 + ((0 + 1 : Int) : ℚ) * 20))
          (.num 300) (.num (0 + ((1 + 1 : Int) : ℚ) * 20)) := rfl
    rw [h1, h2, getBezierPath_num, getBezierPath_num]
    simp only [ne_eq, PathData.cubic.injEq, Point.mk.injEq, JSNumber.num.injEq]
    norm_num
  · intro n c hn hc
    have h1 : some n = some scenarioNodeA := by rw [← hn]; decide
    have h2 : some c = some scenarioNodeA := by rw [← hc]; decide
    rw [Option.some.inj h1, Option.some.inj h2]
    exact ⟨rfl, rfl⟩
  · intro n c hn hc
    have h1 : some n = some scenarioNodeBNaN := by rw [← hn]; decide
    have h2 : some c = some scenarioNodeBInfinite := by rw [← hc]; decide
    rw [Option.some.inj h1, Option.some.inj h2]
    exact ⟨rfl, rfl⟩
  · unfold getPath
    rw [if_pos hit2]
    decide

/-- C26 (amended): after any sequence of renders, whenever `getPath` takes the
early return, the cached path it returns equals the path of a fresh computation
from the current node list, provided the source and the target node declare the
same inputs and outputs as in the node list recorded with the cached path, and
the positions they have in that recorded list hold no infinite coordinate. -/
theorem cached_path_fresh_when_ports_same (edge0 : Edge) (nodes0 : List Node)
    (inputs : List (Edge × List Node)) (edge : Edge) (nodes : List Node)
    (hit : cacheHit (evaluations (mount edge0 nodes0) inputs) edge nodes = true)
    (hsrc : SamePorts nodes (evaluations (mount edge0 nodes0) inputs).currentNodes edge.source)
    (htgt : SamePorts nodes (evaluations (mount edge0 nodes0) inputs).currentNodes edge.target)
    (hfs : NoInfinite (evaluations (mount edge0 nodes0) inputs).currentNodes edge.source)
    (hft : NoInfinite (evaluations (mount edge0 nodes0) inputs).currentNodes edge.target) :
    (getPath (evaluations (mount edge0 nodes0) inputs) edge nodes).1 =
      freshPath edge nodes := by
  have hex : CacheExact (evaluations (mount edge0 nodes0) inputs) :=
    evaluations_exact inputs _ (fun hne => absurd rfl hne)
  have hs : CacheSound (evaluations (mount edge0 nodes0) inputs) :=
    evaluations_sound inputs _ (mount_sound edge0 nodes0)
  obtain ⟨hne, hk, ⟨n1, hn1⟩, ⟨n2, hn2⟩⟩ := cacheHit_true _ edge nodes hit
  obtain ⟨u1, u2, u3, u4, -, u6, u7⟩ := unchanged_of_sameKey _ edge nodes hs hne hk hfs hft
  obtain ⟨c1, hc1, hp1⟩ := found_in_cached nodes _ edge.source n1 hn1 u6
  obtain ⟨c2, hc2, hp2⟩ := found_in_cached nodes _ edge.target n2 hn2 u7
  have a1 := getHandlePosition_congr nodes _ edge.source edge.sourceHandle n1 c1 hn1 hc1 hp1
    (hsrc n1 c1 hn1 hc1).1 (hsrc n1 c1 hn1 hc1).2
  have a2 := getHandlePosition_congr nodes _ edge.target edge.targetHandle n2 c2 hn2 hc2 hp2
    (htgt n2 c2 hn2 hc2).1 (htgt n2 c2 hn2 hc2).2
  unfold getPath
  rw [if_pos hit]
  show (evaluations (mount edge0 nodes0) inputs).path = freshPath edge nodes
  rw [hex hne]
  unfold freshPath
  simp only [u1, u2, u3, u4, a1, a2]

/-- After the scenario path is cached, a render with the same graph returns the
cached path, which is the fresh one. -/
theorem cached_path_fresh_when_ports_same_witness :
    cacheHit scenarioCache scenarioEdge scenarioState.nodes = true ∧
    SamePorts scenarioState.nodes scenarioCache.currentNodes scenarioEdge.source ∧
    SamePorts scenarioState.nodes scenarioCache.currentNodes scenarioEdge.target ∧
    NoInfinite scenarioCache.currentNodes scenarioEdge.source ∧
    NoInfinite scenarioCache.currentNodes scenarioEdge.target ∧
    (getPath scenarioCache scenarioEdge scenarioState.nodes).1 =
      freshPath scenarioEdge scenarioState.nodes := by
  have hit : cacheHit scenarioCache scenarioEdge scenarioState.nodes = true := by decide
  have hcur : scenarioCache.currentNodes = scenarioState.nodes := rfl
  have hsame : ∀ nodeId, SamePorts scenarioState.nodes scenarioCache.currentNodes nodeId := by
    intro nodeId
    rw [hcur]
    exact samePorts_self _ _
  have hfin : ∀ nodeId, NoInfinite scenarioCache.currentNodes nodeId := by
    intro nodeId
    rw [hcur]
    exact noInfinite_scenario nodeId
  exact ⟨hit, hsame _, hsame _, hfin _, hfin _,
    cached_path_fresh_when_ports_same scenarioEdge scenarioState.nodes
      [(scenarioEdge, scenarioState.nodes)] scenarioEdge scenarioState.nodes hit
      (hsame _) (hsame _) (hfin _) (hfin _)⟩

/-! ## Data mapper: edges -/

/-- C21: translating an in-memory edge to the backend form and back keeps `id`,
`source`, `target`, `sourceHandle` and `targetHandle`; translating a backend edge
to the in-memory form and back keeps `id`, `source`, `target`, `source_handle` and
`target_handle`. -/
theorem edge_translation_round_trip :
    (∀ e : FrontendEdge, ∃ r,
      backendToFrontendEdge (frontendToBackendEdge (some e)) = some r ∧
      r.id = e.id ∧ r.source = e.source ∧ r.target = e.target ∧
      r.sourceHandle = e.sourceHandle ∧ r.targetHandle = e.targetHandle) ∧
    (∀ b : BackendEdge, ∃ r,
      frontendToBackendEdge (backendToFrontendEdge (some b)) = some r ∧
      r.id = b.id ∧ r.source = b.source ∧ r.target = b.target ∧
      r.source_handle = b.source_handle ∧ r.target_handle = b.target_handle) :=
  ⟨fun _ => ⟨_, rfl, rfl, rfl, rfl, rfl, rfl⟩, fun _ => ⟨_, rfl, rfl, rfl, rfl, rfl, rfl⟩⟩

/-! ## Data mapper: nodes -/

theorem objSpread_append (source entries : List (String × JSValue))
    (hnd : (source.map (fun entry => entry.1)).Nodup)
    (hdis : ∀ key ∈ source.map (fun entry => entry.1),
      key ∉ entries.map (fun entry => entry.1)) :
    objSpread entries source = entries ++ source := by
  induction source generalizing entries with
  | nil => simp [objSpread]
  | cons entry rest ih =>
      have hk : entry.1 ∉ entries.map (fun entry => entry.1) :=
        hdis entry.1 (by simp)
      have hany : entries.any (fun e => decide (e.1 = entry.1)) = false := by
        simp only [List.any_eq_false, decide_eq_true_eq]
        intro e he heq
        exact hk (List.mem_map.2 ⟨e, he, heq⟩)
      have hassign : objAssign entries entry.1 entry.2 = entries ++ [entry] := by
        simp [objAssign, hany]
      have hstep : objSpread entries (entry :: rest) =
          objSpread (entries ++ [entry]) rest := by
        simp only [objSpread, List.foldl_cons, hassign]
      rw [hstep]
      simp only [List.map_cons, List.nodup_cons] at hnd
      rw [ih (entries ++ [entry]) hnd.2]
      · simp
      · intro key hkey hin
        simp only [List.map_append, List.map_cons, List.map_nil, List.mem_append,
          List.mem_singleton] at hin
        rcases hin with hin | hin
        · exact hdis key (by simp [hkey]) hin
        · rw [hin] at hkey
          exact hnd.1 hkey

theorem objDelete_of_not_mem (entries : List (String × JSValue)) (key : String)
    (h : key ∉ entries.map (fun entry => entry.1)) : objDelete entries key = entries := by
  unfold objDelete
  rw [List.filter_eq_self]
  intro entry he
  simp only [ne_eq, decide_eq_true_eq]
  intro heq
  exact h (List.mem_map.2 ⟨entry, he, heq⟩)

/-- C30 (as stated): a node without a `params` object comes back with the empty
object as `params`; and a node of type `constructor` comes back with the member
inherited under that name as its type. -/
theorem node_round_trip_fails :
    (∃ r, (frontendToBackendNode (some scenarioMapperNodeNoParams) >>=
        backendToFrontendNode) = .ok (some r) ∧
      (∃ d, r.data = some d ∧ d.params = some []) ∧
      (∃ d, scenarioMapperNodeNoParams.data = some d ∧ d.params = none)) ∧
    (∃ r, (frontendToBackendNode (some scenarioMapperNodeInherited) >>=
        backendToFrontendNode) = .ok (some r) ∧
      r.type = .inherited "constructor" ∧
      scenarioMapperNodeInherited.type = .text "constructor") :=
  ⟨⟨_, rfl, ⟨_, rfl, rfl⟩, ⟨_, rfl, rfl⟩⟩, ⟨_, rfl, rfl, rfl⟩⟩

/-- C30 (amended): for an in-memory node with `data` and `position`, whose type
is a text that is neither a key of `typeMap` nor a property name inherited from
`Object.prototype`, whose label is a non-empty text, whose `params` object is
present and has no key `label` or `connections`, and whose `connections` is
absent or empty, translating to the backend form and back keeps `id`, `type`,
the position `x` and `y`, the label and `params`. -/
theorem node_round_trip (n : FrontendNode) (d : FrontendNodeData) (position : MapperPosition)
    (t l : String) (params : List (String × JSValue))
    (hd : n.data = some d) (hpos : n.position = some position)
    (ht : n.type = .text t) (hmap : typeMap.lookup t = none)
    (hproto : t ∉ objectPrototypeKeys)
    (hl : d.label = .text l) (hne : l ≠ "")
    (hp : d.params = some params)
    (hkeys : (params.map (fun entry => entry.1)).Nodup)
    (hlabel : "label" ∉ params.map (fun entry => entry.1))
    (hconn : "connections" ∉ params.map (fun entry => entry.1))
    (hc : d.connections = .undefined ∨ d.connections = .object []) :
    ∃ r rd, (frontendToBackendNode (some n) >>= backendToFrontendNode) = .ok (some r) ∧
      r.id = n.id ∧ r.type = n.type ∧
      r.position = some { x := position.x, y := position.y } ∧
      r.data = some rd ∧ rd.label = d.label ∧ rd.params = d.params := by
  have htype : jsOr (typeMapLookup n.type) n.type = n.type := by
    rw [ht]
    simp [typeMapLookup, hmap, hproto, jsOr, JSValue.truthy]
  have hlab : jsOr d.label n.type = .text l := by
    rw [hl]
    simp [jsOr, JSValue.truthy, hne]
  have hown : ownEntries (jsOr d.connections (.object [])) = [] := by
    rcases hc with hc | hc <;> rw [hc] <;> rfl
  have hdata : objSpread (objSpread [("label", jsOr d.label n.type)] (d.params.getD []))
      (ownEntries (jsOr d.connections (.object []))) = ("label", JSValue.text l) :: params := by
    rw [hown, hlab, hp]
    simp only [Option.getD_some]
    rw [objSpread_append params _ hkeys]
    · rfl
    · intro key hkey hin
      simp only [List.map_cons, List.map_nil, List.mem_singleton] at hin
      rw [hin] at hkey
      exact hlabel hkey
  have hfwd : ∃ b, frontendToBackendNode (some n) = .ok (some b) ∧ b.id = n.id ∧
      b.type = n.type ∧ b.data = some (("label", JSValue.text l) :: params) ∧
      b.position = some { x := position.x, y := position.y } := by
    simp only [frontendToBackendNode, hd, hpos]
    exact ⟨_, rfl, rfl, htype, by rw [hdata], rfl⟩
  obtain ⟨b, hb, hbid, hbtype, hbdata, hbpos⟩ := hfwd
  have hcopy : objSpread [] (("label", JSValue.text l) :: params) =
      ("label", JSValue.text l) :: params := by
    rw [objSpread_append]
    · rfl
    · simp only [List.map_cons, List.nodup_cons]
      exact ⟨hlabel, hkeys⟩
    · intro key _ hin
      cases hin
  have hdel : objDelete (objDelete (("label", JSValue.text l) :: params) "label")
      "connections" = params := by
    have h1 : objDelete (("label", JSValue.text l) :: params) "label" = params := by
      have h0 := objDelete_of_not_mem params "label" hlabel
      unfold objDelete at h0 ⊢
      rw [List.filter_cons]
      simp only [ne_eq, not_true_eq_false, decide_False, Bool.false_eq_true, if_false]
      exact h0
    rw [h1]
    exact objDelete_of_not_mem params "connections" hconn
  have hget : jsOr (objGet (("label", JSValue.text l) :: params) "label") b.type =
      .text l := by
    simp [objGet, jsOr, JSValue.truthy, hne]
  refine ⟨{ id := b.id
            type := b.type
            position := b.position
            data := some
              { label := .text l
                params := some params
                connections := jsOr (objGet (("label", JSValue.text l) :: params)
                  "connections") (.object [])
                config := none
                status := jsOr b.status (.text "idle")
                executionTime := jsOr b.execution_time .null
                output := jsOr b.output .null }
            status := .undefined
            executionTime := .undefined
            output := .undefined
            className := jsOr b.status (.text "idle") }, _, ?_, hbid, hbtype, hbpos, rfl,
          hl.symm, hp.symm⟩
  rw [hb]
  show backendToFrontendNode (some b) = _
  simp only [backendToFrontendNode, hbdata, hcopy, hdel, hget]

/-- The scenario node with one parameter comes back with the same fields. -/
theorem node_round_trip_witness :
    ∃ r rd, (frontendToBackendNode (some scenarioMapperNode) >>= backendToFrontendNode) =
        .ok (some r) ∧
      r.id = .text "n1" ∧ r.type = .text "custom" ∧
      r.position = some { x := .number (.num 10), y := .number (.num 20) } ∧
      r.data = some rd ∧ rd.label = .text "Custom" ∧
      rd.params = some [("threshold", .text "5")] :=
  node_round_trip scenarioMapperNode _ { x := .number (.num 10), y := .number (.num 20) }
    "custom" "Custom" [("threshold", .text "5")] rfl rfl rfl (by decide) (by decide) rfl
    (by decide) rfl (by decide) (by decide) (by decide) (Or.inl rfl)

/-! ## Data mapper: merging two snapshots -/

theorem timeOf_valid (t : Int) (h : -maxTime ≤ t ∧ t ≤ maxTime) : timeOf (some t) = some t := by
  simp only [timeOf, h, and_self, if_true]

theorem timeOf_invalid (t : Int) (h : ¬ (-maxTime ≤ t ∧ t ≤ maxTime)) :
    timeOf (some t) = none := by
  simp only [timeOf, h, if_false]

/-- C22 (as stated): two merges that do not return the snapshot the claim names.
An in-memory snapshot without a timestamp, merged with a backend snapshot
updated before 1970, is returned itself: the backend snapshot is not chosen.
And an in-memory snapshot whose `updatedAt` is `8640000000000001`, later than
the backend `updated_at = 5000` but beyond the range of `Date`, is not
returned: the comparison with an invalid date is false and the backend
snapshot is translated. -/
theorem merge_picks_other_snapshot :
    (scenarioLocalWorkflow.updatedAt = none ∧
      mergeWorkflowData (some scenarioLocalWorkflow) (some scenarioOldBackend) =
        .ok (some scenarioLocalWorkflow) ∧
      (∃ t, backendToFrontendWorkflow (some scenarioOldBackend) = .ok (some t) ∧
        t ≠ scenarioLocalWorkflow)) ∧
    (scenarioLateWorkflow.updatedAt = some 8640000000000001 ∧
      scenarioBackend.updated_at = some 5000 ∧
      mergeWorkflowData (some scenarioLateWorkflow) (some scenarioBackend) =
        backendToFrontendWorkflow (some scenarioBackend) ∧
      (∃ t, backendToFrontendWorkflow (some scenarioBackend) = .ok (some t) ∧
        t ≠ scenarioLateWorkflow)) :=
  ⟨⟨rfl, rfl, ⟨_, rfl, by decide⟩⟩, ⟨rfl, rfl, rfl, ⟨_, rfl, by decide⟩⟩⟩

/-- C22 (amended): with both snapshots present, `mergeWorkflowData` returns the
in-memory snapshot itself when both timestamps are within the range of `Date`
and its `updatedAt` is strictly later than the backend `updated_at`, and the
translation of the backend snapshot when both are within the range and the
backend `updated_at` is later or equal, or when one of them is beyond the
range; a missing timestamp counts as time 0, so the backend snapshot is also
chosen when the in-memory one has no timestamp and the backend timestamp is
missing or not before 1970. When the in-memory snapshot is absent the result is
the translation of the backend one, and when only the backend one is absent
the in-memory snapshot is returned unchanged. -/
theorem mergeWorkflowData_spec (f : FrontendWorkflow) (b : BackendWorkflow) :
    (∀ tf tb, f.updatedAt = some tf → b.updated_at = some tb →
      (-maxTime ≤ tf ∧ tf ≤ maxTime) → (-maxTime ≤ tb ∧ tb ≤ maxTime) → tb < tf →
      mergeWorkflowData (some f) (some b) = .ok (some f)) ∧
    (∀ tf tb, f.updatedAt = some tf → b.updated_at = some tb →
      (-maxTime ≤ tf ∧ tf ≤ maxTime) → (-maxTime ≤ tb ∧ tb ≤ maxTime) → tf ≤ tb →
      mergeWorkflowData (some f) (some b) = backendToFrontendWorkflow (some b)) ∧
    ((∃ tf, f.updatedAt = some tf ∧ ¬ (-maxTime ≤ tf ∧ tf ≤ maxTime)) ∨
      (∃ tb, b.updated_at = some tb ∧ ¬ (-maxTime ≤ tb ∧ tb ≤ maxTime)) →
      mergeWorkflowData (some f) (some b) = backendToFrontendWorkflow (some b)) ∧
    (f.updatedAt = none → (∀ tb, b.updated_at = some tb → 0 ≤ tb) →
      mergeWorkflowData (some f) (some b) = backendToFrontendWorkflow (some b)) ∧
    (∀ tf, f.updatedAt = some tf → (-maxTime ≤ tf ∧ tf ≤ maxTime) → b.updated_at = none →
      (0 < tf → mergeWorkflowData (some f) (some b) = .ok (some f)) ∧
      (tf ≤ 0 → mergeWorkflowData (some f) (some b) = backendToFrontendWorkflow (some b))) ∧
    (dateGreater (timeOf f.updatedAt) (timeOf b.updated_at) = true →
      mergeWorkflowData (some f) (some b) = .ok (some f)) ∧
    (dateGreater (timeOf f.updatedAt) (timeOf b.updated_at) = false →
      mergeWorkflowData (some f) (some b) = backendToFrontendWorkflow (some b)) ∧
    (∀ backendData, mergeWorkflowData none backendData =
      backendToFrontendWorkflow backendData) ∧
    mergeWorkflowData (some f) none = .ok (some f) := by
  have hgt : dateGreater (timeOf f.updatedAt) (timeOf b.updated_at) = true →
      mergeWorkflowData (some f) (some b) = .ok (some f) := by
    intro h
    simp only [mergeWorkflowData, h, if_true]
  have hle : dateGreater (timeOf f.updatedAt) (timeOf b.updated_at) = false →
      mergeWorkflowData (some f) (some b) = backendToFrontendWorkflow (some b) := by
    intro h
    simp only [mergeWorkflowData, h, Bool.false_eq_true, if_false]
  refine ⟨?_, ?_, ?_, ?_, ?_, hgt, hle, fun _ => rfl, rfl⟩
  · intro tf tb h1 h2 v1 v2 h
    apply hgt
    rw [h1, h2, timeOf_valid tf v1, timeOf_valid tb v2]
    simp only [dateGreater, gt_iff_lt, h, decide_True]
  · intro tf tb h1 h2 v1 v2 h
    apply hle
    rw [h1, h2, timeOf_valid tf v1, timeOf_valid tb v2]
    simp only [dateGreater, gt_iff_lt, not_lt.mpr h, decide_False]
  · intro h
    apply hle
    rcases h with ⟨tf, h1, v1⟩ | ⟨tb, h2, v2⟩
    · rw [h1, timeOf_invalid tf v1]
      rfl
    · rw [h2, timeOf_invalid tb v2]
      cases timeOf f.updatedAt <;> rfl
  · intro h1 h2
    apply hle
    rw [h1]
    cases hb : b.updated_at with
    | none => rfl
    | some tb =>
        by_cases v : -maxTime ≤ tb ∧ tb ≤ maxTime
        · rw [timeOf_valid tb v]
          simp only [timeOf, dateGreater, gt_iff_lt, not_lt.mpr (h2 tb hb), decide_False]
        · rw [timeOf_invalid tb v]
          rfl
  · intro tf h1 v1 h2
    constructor
    · intro h
      apply hgt
      rw [h1, h2, timeOf_valid tf v1]
      simp only [timeOf, dateGreater, gt_iff_lt, h, decide_True]
    · intro h
      apply hle
      rw [h1, h2, timeOf_valid tf v1]
      simp only [timeOf, dateGreater, gt_iff_lt, not_lt.mpr h, decide_False]

/-- The local snapshot updated at time 9000 against a backend snapshot updated at
time 5000 is kept; without a timestamp it gives way to the backend snapshot;
against no backend snapshot it is kept. -/
theorem mergeWorkflowData_spec_witness :
    scenarioTimedWorkflow.updatedAt = some 9000 ∧
    scenarioBackend.updated_at = some 5000 ∧
    (-maxTime ≤ (9000 : Int) ∧ (9000 : Int) ≤ maxTime) ∧
    (-maxTime ≤ (5000 : Int) ∧ (5000 : Int) ≤ maxTime) ∧ (5000 : Int) < 9000 ∧
    mergeWorkflowData (some scenarioTimedWorkflow) (some scenarioBackend) =
      .ok (some scenarioTimedWorkflow) ∧
    scenarioLocalWorkflow.updatedAt = none ∧
    (∀ tb, scenarioBackend.updated_at = some tb → 0 ≤ tb) ∧
    mergeWorkflowData (some scenarioLocalWorkflow) (some scenarioBackend) =
      backendToFrontendWorkflow (some scenarioBackend) ∧
    mergeWorkflowData (some scenarioLocalWorkflow) none = .ok (some scenarioLocalWorkflow) := by
  have h := mergeWorkflowData_spec scenarioLocalWorkflow scenarioBackend
  have hb : ∀ tb, scenarioBackend.updated_at = some tb → 0 ≤ tb := by
    intro tb htb
    have : scenarioBackend.updated_at = some 5000 := rfl
    rw [this] at htb
    cases htb
    decide
  exact ⟨rfl, rfl, by decide, by decide, by decide,
    (mergeWorkflowData_spec scenarioTimedWorkflow scenarioBackend).1 9000 5000 rfl rfl
      (by decide) (by decide) (by decide),
    rfl, hb, h.2.2.2.1 rfl hb, h.2.2.2.2.2.2.2.2⟩

/-! ## Data mapper: validation -/

theorem validateNodeData_valid_iff (nodeData : Option FrontendNode) :
    (validateNodeData nodeData).isValid = true ↔
      ∃ node position, nodeData = some node ∧ node.id.truthy = true ∧
        node.type.truthy = true ∧ node.data.isSome = true ∧
        node.position = some position ∧ position.x.isNumber = true ∧
        position.y.isNumber = true := by
  cases nodeData with
  | none => simp [validateNodeData]
  | some node =>
      cases hp : node.position with
      | none =>
          cases h1 : node.id.truthy <;> cases h2 : node.type.truthy <;>
            cases h4 : node.data.isNone <;>
            simp [validateNodeData, hp, h1, h2, h4]
      | some position =>
          have hd : node.data.isSome = !node.data.isNone := by
            cases node.data <;> rfl
          cases h1 : node.id.truthy <;> cases h2 : node.type.truthy <;>
            cases h4 : node.data.isNone <;> cases hx : position.x.isNumber <;>
            cases hy : position.y.isNumber <;>
            simp [validateNodeData, hp, h1, h2, h4, hx, hy, hd]

theorem validateEdgeData_valid_iff (edgeData : Option FrontendEdge) :
    (validateEdgeData edgeData).isValid = true ↔
      ∃ edge, edgeData = some edge ∧ edge.id.truthy = true ∧ edge.source.truthy = true ∧
        edge.target.truthy = true ∧ edge.sourceHandle.truthy = true ∧
        edge.targetHandle.truthy = true := by
  cases edgeData with
  | none => simp [validateEdgeData]
  | some edge =>
      cases h1 : edge.id.truthy <;> cases h2 : edge.source.truthy <;>
        cases h3 : edge.target.truthy <;> cases h4 : edge.sourceHandle.truthy <;>
        cases h5 : edge.targetHandle.truthy <;>
        simp [validateEdgeData, h1, h2, h3, h4, h5]

theorem indexedErrors_length {α : Type} (kind : String)
    (validate : Option α → ValidationResult) (items : List (Option α)) (start : Nat) :
    (indexedErrors kind validate items start).length = failing validate items := by
  induction items generalizing start with
  | nil => rfl
  | cons item rest ih =>
      have ih2 := ih (start + 1)
      unfold indexedErrors failing at ih2 ⊢
      simp only [List.enumFrom_cons, List.filterMap_cons, List.countP_cons]
      cases hv : (validate item).isValid
      · simp only [Bool.false_eq_true, if_false, List.length_cons, ih2, Bool.not_false,
          if_true]
      · simp only [if_true, ih2, Bool.not_true, Bool.false_eq_true, if_false, add_zero]

theorem failing_eq_zero_iff {α : Type} (validate : Option α → ValidationResult)
    (items : List (Option α)) :
    failing validate items = 0 ↔ ∀ item ∈ items, (validate item).isValid = true := by
  unfold failing
  rw [List.countP_eq_zero]
  constructor
  · intro h item hi
    have := h item hi
    simpa using this
  · intro h item hi
    simp [h item hi]

theorem indexedErrors_mem {α : Type} (kind : String)
    (validate : Option α → ValidationResult) (items : List (Option α)) (i : Nat)
    (item : Option α) (hi : items[i]? = some item)
    (hv : (validate item).isValid = false) :
    (kind ++ " at index " ++ toString i ++ ": " ++
      ", ".intercalate (validate item).errors) ∈ indexedErrors kind validate items 0 := by
  unfold indexedErrors
  rw [List.mem_filterMap]
  refine ⟨(i, item), ?_, ?_⟩
  · rw [List.mk_mem_enumFrom_iff_le_and_getElem?_sub]
    exact ⟨Nat.zero_le _, by simpa using hi⟩
  · simp [hv]

/-- C23: `validateWorkflowData(w).isValid` is true exactly when its `errors` array
is empty, which holds exactly when `w` is present, `w.nodes` is an array whose
every element passes `validateNodeData` (truthy `id` and `type`, `data` present,
a position with numeric `x` and `y`) and `w.edges` is an array whose every
element passes `validateEdgeData` (truthy `id`, `source`, `target`,
`sourceHandle`, `targetHandle`). For a present `w` the errors are one entry for
`nodes` not being an array or else one entry per failing node index, followed by
the same for `edges`. -/
theorem validateWorkflowData_spec (w : Option FrontendWorkflow) :
    ((validateWorkflowData w).isValid = true ↔ (validateWorkflowData w).errors = []) ∧
    ((validateWorkflowData w).errors = [] ↔
      ∃ wd nodes edges, w = some wd ∧ wd.nodes = some nodes ∧
        (∀ node ∈ nodes, (validateNodeData node).isValid = true) ∧
        wd.edges = some edges ∧
        (∀ edge ∈ edges, (validateEdgeData edge).isValid = true)) ∧
    (∀ nodeData, (validateNodeData nodeData).isValid = true ↔
      ∃ node position, nodeData = some node ∧ node.id.truthy = true ∧
        node.type.truthy = true ∧ node.data.isSome = true ∧
        node.position = some position ∧ position.x.isNumber = true ∧
        position.y.isNumber = true) ∧
    (∀ edgeData, (validateEdgeData edgeData).isValid = true ↔
      ∃ edge, edgeData = some edge ∧ edge.id.truthy = true ∧ edge.source.truthy = true ∧
        edge.target.truthy = true ∧ edge.sourceHandle.truthy = true ∧
        edge.targetHandle.truthy = true) ∧
    (∀ wd, w = some wd →
      (validateWorkflowData w).errors = nodesErrors wd.nodes ++ edgesErrors wd.edges ∧
      (nodesErrors wd.nodes).length =
        (match wd.nodes with
          | none => 1
          | some nodes => failing validateNodeData nodes) ∧
      (edgesErrors wd.edges).length =
        (match wd.edges with
          | none => 1
          | some edges => failing validateEdgeData edges) ∧
      (∀ nodes (i : Nat) node, wd.nodes = some nodes → nodes[i]? = some node →
        (validateNodeData node).isValid = false →
        ("Node at index " ++ toString i ++ ": " ++
          ", ".intercalate (validateNodeData node).errors) ∈ (validateWorkflowData w).errors) ∧
      (∀ edges (i : Nat) edge, wd.edges = some edges → edges[i]? = some edge →
        (validateEdgeData edge).isValid = false →
        ("Edge at index " ++ toString i ++ ": " ++
          ", ".intercalate (validateEdgeData edge).errors) ∈
          (validateWorkflowData w).errors)) := by
  have hn : ∀ nodes : Option (List (Option FrontendNode)),
      (nodesErrors nodes).length =
        (match nodes with
          | none => 1
          | some nodes => failing validateNodeData nodes) := by
    intro nodes
    cases nodes with
    | none => rfl
    | some nodes => exact indexedErrors_length _ _ _ _
  have he : ∀ edges : Option (List (Option FrontendEdge)),
      (edgesErrors edges).length =
        (match edges with
          | none => 1
          | some edges => failing validateEdgeData edges) := by
    intro edges
    cases edges with
    | none => rfl
    | some edges => exact indexedErrors_length _ _ _ _
  refine ⟨?_, ?_, validateNodeData_valid_iff, validateEdgeData_valid_iff, ?_⟩
  · cases w with
    | none => simp [validateWorkflowData]
    | some wd =>
        simp only [validateWorkflowData, decide_eq_true_eq]
        exact List.length_eq_zero
  · cases w with
    | none => simp [validateWorkflowData]
    | some wd =>
        simp only [validateWorkflowData, List.append_eq_nil, Option.some.injEq,
          exists_and_left, exists_eq_left']
        rw [← List.length_eq_zero, ← List.length_eq_zero, hn, he]
        cases hnodes : wd.nodes with
        | none => simp
        | some nodes =>
            cases hedges : wd.edges with
            | none => simp
            | some edges =>
                simp only [failing_eq_zero_iff, Option.some.injEq, exists_eq_left']
  · intro wd hw
    subst hw
    refine ⟨rfl, hn _, he _, ?_, ?_⟩
    · intro nodes i node hnodes hi hv
      show _ ∈ nodesErrors wd.nodes ++ edgesErrors wd.edges
      rw [hnodes]
      exact List.mem_append_left _ (indexedErrors_mem "Node" validateNodeData nodes i node hi hv)
    · intro edges i edge hedges hi hv
      show _ ∈ nodesErrors wd.nodes ++ edgesErrors wd.edges
      rw [hedges]
      exact List.mem_append_right _ (indexedErrors_mem "Edge" validateEdgeData edges i edge hi hv)

/-- A workflow with a null node and an edge without target handle has two errors;
a workflow with one valid node and one valid edge is valid. -/
theorem validateWorkflowData_spec_witness :
    (validateWorkflowData (some scenarioMixedWorkflow)).isValid = false ∧
    (validateWorkflowData (some scenarioMixedWorkflow)).errors =
      ["Node at index 1: Node data is null or undefined",
       "Edge at index 1: Edge must have a target handle"] ∧
    (validateWorkflowData (some scenarioValidWorkflow)).errors = [] ∧
    (validateWorkflowData (some scenarioValidWorkflow)).isValid = true := by
  have h := validateWorkflowData_spec (some scenarioValidWorkflow)
  have hvalid : (validateWorkflowData (some scenarioValidWorkflow)).errors = [] := by
    apply h.2.1.2
    refine ⟨scenarioValidWorkflow, [some scenarioMapperNode], [some scenarioMapperEdge],
      rfl, rfl, ?_, rfl, ?_⟩
    · intro node hnode
      simp only [List.mem_singleton] at hnode
      subst hnode
      decide
    · intro edge hedge
      simp only [List.mem_singleton] at hedge
      subst hedge
      decide
  exact ⟨by decide, by decide, hvalid, h.1.2 hvalid⟩

/-! ## The wheel handler and the Bezier path in double arithmetic -/

/-- C8 (as stated): in double arithmetic, from the viewport `{x: 0, y: 0, zoom: 1}`
a wheel event with `deltaY = -100` at the canvas point `(250, 250)` changes the
zoom to `1.1` and gives the pan `(-25, -25)`, because `250 * 1.1` rounds to
`275`. The world point under the pointer is `(250 - 0) / 1 = 250` on each axis
before the step and `(250 - (-25)) / 1.1 = 249.99999999999997` after it. -/
theorem wheel_moves_point_under_pointer_in_doubles :
    handleWheelDouble (some { left := 0, top := 0 }) { x := 0, y := 0, zoom := 1 }
        scenarioZoomInDouble =
      some { x := -25, y := -25, zoom := F64.ofDecimal 11 1 } ∧
    ((250 : F64) - 0) / 1 = 250 ∧
    ((250 : F64) - (-25)) / F64.ofDecimal 11 1 = F64.ofDecimal 24999999999999997 14 ∧
    F64.ofDecimal 24999999999999997 14 ≠ 250 := by
  have h1 : F64.ofDecimal 24999999999999997 14 = .fin false 8796093022207999 (-45) := rfl
  have h2 : (250 : F64) = .fin false 8796093022208000 (-45) := rfl
  refine ⟨?_, ?_, ?_, ?_⟩
  · set_option maxRecDepth 100000 in
    rfl
  · set_option maxRecDepth 100000 in
    rfl
  · set_option maxRecDepth 100000 in
    rfl
  · rw [h1, h2]
    decide

/-- C15 (as stated): in double arithmetic `getBezierPath(200.1, 20.2, 0.7, 20.1)`
has the control points `(299.8, 20.2)` and `(100.39999999999999, 20.1)`: the sum
`200.1 + 0.7` is rounded before it is halved, so the second control point is
not at `100.4`. Half the horizontal span is `|0.7 - 200.1| / 2 = 99.7`, while
the distances of the control points from their endpoints, computed in the
same arithmetic, are `99.70000000000002` and `99.69999999999999`. And for the
non-NaN coordinates `sx = tx = Infinity` the first control point has the
abscissa `NaN`. -/
theorem getBezierPath_distance_fails_in_doubles :
    getBezierPathDouble (F64.ofDecimal 2001 1) (F64.ofDecimal 202 1) (F64.ofDecimal 7 1)
        (F64.ofDecimal 201 1) =
      .cubic { x := F64.ofDecimal 2001 1, y := F64.ofDecimal 202 1 }
        { x := F64.ofDecimal 2998 1, y := F64.ofDecimal 202 1 }
        { x := F64.ofDecimal 10039999999999999 14, y := F64.ofDecimal 201 1 }
        { x := F64.ofDecimal 7 1, y := F64.ofDecimal 201 1 } ∧
    F64.ofDecimal 10039999999999999 14 ≠ F64.ofDecimal 1004 1 ∧
    (F64.ofDecimal 7 1 - F64.ofDecimal 2001 1).abs / 2 = F64.ofDecimal 997 1 ∧
    (F64.ofDecimal 2998 1 - F64.ofDecimal 2001 1).abs = F64.ofDecimal 9970000000000002 14 ∧
    (F64.ofDecimal 7 1 - F64.ofDecimal 10039999999999999 14).abs =
      F64.ofDecimal 9969999999999999 14 ∧
    F64.ofDecimal 9970000000000002 14 ≠ F64.ofDecimal 997 1 ∧
    F64.ofDecimal 9969999999999999 14 ≠ F64.ofDecimal 997 1 ∧
    getBezierPath (.inf false) (.num 0) (.inf false) (.num 0) =
      .cubic { x := .inf false, y := .num 0 } { x := .nan, y := .num 0 }
        { x := .inf false, y := .num 0 } { x := .inf false, y := .num 0 } := by
  refine ⟨?_, ?_, ?_, ?_, ?_, ?_, ?_, ?_⟩
  · set_option maxRecDepth 100000 in
    rfl
  · set_option maxRecDepth 100000 in
    decide
  · set_option maxRecDepth 100000 in
    rfl
  · set_option maxRecDepth 100000 in
    rfl
  · set_option maxRecDepth 100000 in
    rfl
  · set_option maxRecDepth 100000 in
    decide
  · set_option maxRecDepth 100000 in
    decide
  · have h2 : ((2 : ℕ) : ℚ) < 0 ↔ False := by norm_num
    have e1 : (JSNumber.inf false - JSNumber.inf false) = JSNumber.nan := rfl
    have e2 : (JSNumber.nan / (2 : JSNumber)) = JSNumber.nan := rfl
    have e3 : (JSNumber.inf false + JSNumber.nan) = JSNumber.nan := rfl
    have e4 : (JSNumber.inf false + JSNumber.inf false) = JSNumber.inf false := rfl
    have e5 : (JSNumber.inf false / (2 : JSNumber)) = JSNumber.inf false := by
      show JSNumber.div (JSNumber.inf false) (JSNumber.num ((2 : ℕ) : ℚ)) = _
      simp only [JSNumber.div, h2, decide_False, Bool.xor_false]
    simp only [getBezierPath, JSNumber.isNaN, Bool.or_self, Bool.false_eq_true, if_false, e1,
      JSNumber.abs, e2, e3, e4, e5]

/-- C16 (as stated): three curves without horizontal end tangents. When source
and target have the same `x` (here `(0, 0)` and `(0, 100)`) both control points
coincide with their endpoints, so the two end directions are zero vectors. In
double arithmetic, for `sx = 250` and `tx = 249.99999999999997`, which differ,
half the span is absorbed when it is added to `sx`: the first control point is
the start point. And for the source abscissa `Infinity` the first control point
has the abscissa `Infinity` too, which gives no direction. -/
theorem horizontalTangents_fails_when_aligned_or_rounded :
    (getBezierPath (.num 0) (.num 0) (.num 0) (.num 100) =
        .cubic { x := .num 0, y := .num 0 } { x := .num 0, y := .num 0 }
          { x := .num 0, y := .num 100 } { x := .num 0, y := .num 100 } ∧
      ¬ HorizontalTangents (getBezierPath (.num 0) (.num 0) (.num 0) (.num 100))) ∧
    (F64.ofDecimal 24999999999999997 14 ≠ 250 ∧
      getBezierPathDouble 250 0 (F64.ofDecimal 24999999999999997 14) 100 =
        .cubic { x := 250, y := 0 } { x := 250, y := 0 } { x := 250, y := 100 }
          { x := F64.ofDecimal 24999999999999997 14, y := 100 }) ∧
    (getBezierPath (.inf false) (.num 0) (.num 0) (.num 100) =
        .cubic { x := .inf false, y := .num 0 } { x := .inf false, y := .num 0 }
          { x := .inf false, y := .num 100 } { x := .num 0, y := .num 100 } ∧
      ¬ HorizontalTangents (getBezierPath (.inf false) (.num 0) (.num 0) (.num 100))) := by
  have h : getBezierPath (.num 0) (.num 0) (.num 0) (.num 100) =
      .cubic { x := .num 0, y := .num 0 } { x := .num 0, y := .num 0 }
        { x := .num 0, y := .num 100 } { x := .num 0, y := .num 100 } := by
    rw [getBezierPath_num]
    norm_num
  have h2 : ((2 : ℕ) : ℚ) < 0 ↔ False := by norm_num
  have e1 : (JSNumber.num 0 - JSNumber.inf false) = JSNumber.inf true := rfl
  have e2 : (JSNumber.inf false / (2 : JSNumber)) = JSNumber.inf false := by
    show JSNumber.div (JSNumber.inf false) (JSNumber.num ((2 : ℕ) : ℚ)) = _
    simp only [JSNumber.div, h2, decide_False, Bool.xor_false]
  have e3 : (JSNumber.inf false + JSNumber.inf false) = JSNumber.inf false := rfl
  have e4 : (JSNumber.inf false + JSNumber.num 0) = JSNumber.inf false := rfl
  have hinf : getBezierPath (.inf false) (.num 0) (.num 0) (.num 100) =
      .cubic { x := .inf false, y := .num 0 } { x := .inf false, y := .num 0 }
        { x := .inf false, y := .num 100 } { x := .num 0, y := .num 100 } := by
    simp only [getBezierPath, JSNumber.isNaN, Bool.or_self, Bool.false_eq_true, if_false, e1,
      JSNumber.abs, e2, e3, e4]
  refine ⟨⟨h, ?_⟩, ⟨?_, ?_⟩, hinf, ?_⟩
  · rw [h]
    simp [HorizontalTangents]
  · set_option maxRecDepth 100000 in
    decide
  · set_option maxRecDepth 100000 in
    rfl
  · rw [hinf]
    simp [HorizontalTangents]

end CognotFlow
